import Mathlib

/-!
# Dameng dialect adapter

A shallow embedding of `dialect_dameng.go` (package `xorm`): the reserved-word
test, identifier quoting, the abstract-to-native type mapping `SqlType`, the
connection-string parser `Parse`, the statements of `CreateTableSql` and
`DropIndexSql`, the column introspection `GetColumns` with its native-type
decomposition, and the large-text scan target `dmClobScanner`.

Go strings are byte sequences, and the adapter slices and compares them by
byte, so the embedding keeps them as lists of bytes.  The Go standard library
(`strings`, `strconv`, `unicode`) is embedded as far as the adapter reaches it;
the Unicode case tables, reached only by strings that hold a non-ASCII byte,
are a parameter.
-/

namespace Dameng

set_option maxRecDepth 100000

/-! ## Go strings -/

/-- A Go string: an immutable sequence of bytes, each byte a number below 256. -/
abbrev GoString := List Nat

/-- UTF-8 encoding of one code point, as the Go compiler stores it in a string
literal. -/
def utf8 (c : Char) : List Nat :=
  let v := c.toNat
  if v < 0x80 then [v]
  else if v < 0x800 then [0xC0 + v / 64, 0x80 + v % 64]
  else if v < 0x10000 then [0xE0 + v / 4096, 0x80 + v / 64 % 64, 0x80 + v % 64]
  else [0xF0 + v / 262144, 0x80 + v / 4096 % 64, 0x80 + v / 64 % 64, 0x80 + v % 64]

/-- The bytes of a string literal of the source. -/
def bytes (s : String) : GoString := s.data.flatMap utf8

/-- Go `utf8.RuneSelf`: bytes below it are single-byte (ASCII) code points. -/
def utf8.RuneSelf : Nat := 0x80

/-- Whether every byte of the string is ASCII: the test that opens
`strings.ToUpper` and `strings.ToLower`. -/
def isASCII (s : GoString) : Bool := s.all (fun c => decide (c < utf8.RuneSelf))

/-- The ASCII branch of `strings.ToUpper`, one byte: `a`..`z` (97..122) lose
32, every other byte stays. -/
def upperByte (c : Nat) : Nat := if 97 ≤ c ∧ c ≤ 122 then c - 32 else c

/-- The ASCII branch of `strings.ToLower`, one byte: `A`..`Z` (65..90) gain
32, every other byte stays. -/
def lowerByte (c : Nat) : Nat := if 65 ≤ c ∧ c ≤ 90 then c + 32 else c

/-- The Unicode case tables of the Go standard library, which `strings.ToUpper`
and `strings.ToLower` consult through `strings.Map(unicode.ToUpper, s)` and
`strings.Map(unicode.ToLower, s)` once a string holds a non-ASCII byte.  They
are outside the repository; every result below holds for any tables. -/
structure Unicode where
  mapToUpper : GoString → GoString
  mapToLower : GoString → GoString

/-- Go `strings.ToUpper`: ASCII-only strings are mapped byte by byte, all
others go through the Unicode tables. -/
def strings.ToUpper (u : Unicode) (s : GoString) : GoString :=
  if isASCII s then s.map upperByte else u.mapToUpper s

/-- Go `strings.ToLower`: ASCII-only strings are mapped byte by byte, all
others go through the Unicode tables. -/
def strings.ToLower (u : Unicode) (s : GoString) : GoString :=
  if isASCII s then s.map lowerByte else u.mapToLower s

/-! ## Identifier policy -/

/-- The reserved-word table `damengReservedWords`, a `map[string]bool` literal:
its entries in source order (a Go map literal has no repeated key). -/
def damengReservedWords : List (String × Bool) :=
  [("ACCESS", true), ("ACCOUNT", true), ("ACTIVATE", true),
   ("ADD", true), ("ADMIN", true), ("ADVISE", true),
   ("AFTER", true), ("ALL", true), ("ALL_ROWS", true),
   ("ALLOCATE", true), ("ALTER", true), ("ANALYZE", true),
   ("AND", true), ("ANY", true), ("ARCHIVE", true),
   ("ARCHIVELOG", true), ("ARRAY", true), ("AS", true),
   ("ASC", true), ("AT", true), ("AUDIT", true),
   ("AUTHENTICATED", true), ("AUTHORIZATION", true), ("AUTOEXTEND", true),
   ("AUTOMATIC", true), ("BACKUP", true), ("BECOME", true),
   ("BEFORE", true), ("BEGIN", true), ("BETWEEN", true),
   ("BFILE", true), ("BITMAP", true), ("BLOB", true),
   ("BLOCK", true), ("BODY", true), ("BY", true),
   ("CACHE", true), ("CACHE_INSTANCES", true), ("CANCEL", true),
   ("CASCADE", true), ("CAST", true), ("CFILE", true),
   ("CHAINED", true), ("CHANGE", true), ("CHAR", true),
   ("CHAR_CS", true), ("CHARACTER", true), ("CHECK", true),
   ("CHECKPOINT", true), ("CHOOSE", true), ("CHUNK", true),
   ("CLEAR", true), ("CLOB", true), ("CLONE", true),
   ("CLOSE", true), ("CLOSE_CACHED_OPEN_CURSORS", true), ("CLUSTER", true),
   ("COALESCE", true), ("COLUMN", true), ("COLUMNS", true),
   ("COMMENT", true), ("COMMIT", true), ("COMMITTED", true),
   ("COMPATIBILITY", true), ("COMPILE", true), ("COMPLETE", true),
   ("COMPOSITE_LIMIT", true), ("COMPRESS", true), ("COMPUTE", true),
   ("CONNECT", true), ("CONNECT_TIME", true), ("CONSTRAINT", true),
   ("CONSTRAINTS", true), ("CONTENTS", true), ("CONTINUE", true),
   ("CONTROLFILE", true), ("CONVERT", true), ("COST", true),
   ("CPU_PER_CALL", true), ("CPU_PER_SESSION", true), ("CREATE", true),
   ("CURRENT", true), ("CURRENT_SCHEMA", true), ("CURREN_USER", true),
   ("CURSOR", true), ("CYCLE", true), ("DANGLING", true),
   ("DATABASE", true), ("DATAFILE", true), ("DATAFILES", true),
   ("DATAOBJNO", true), ("DATE", true), ("DBA", true),
   ("DBHIGH", true), ("DBLOW", true), ("DBMAC", true),
   ("DEALLOCATE", true), ("DEBUG", true), ("DEC", true),
   ("DECIMAL", true), ("DECLARE", true), ("DEFAULT", true),
   ("DEFERRABLE", true), ("DEFERRED", true), ("DEGREE", true),
   ("DELETE", true), ("DEREF", true), ("DESC", true),
   ("DIRECTORY", true), ("DISABLE", true), ("DISCONNECT", true),
   ("DISMOUNT", true), ("DISTINCT", true), ("DISTRIBUTED", true),
   ("DML", true), ("DOUBLE", true), ("DROP", true),
   ("DUMP", true), ("EACH", true), ("ELSE", true),
   ("ENABLE", true), ("END", true), ("ENFORCE", true),
   ("ENTRY", true), ("ESCAPE", true), ("EXCEPT", true),
   ("EXCEPTIONS", true), ("EXCHANGE", true), ("EXCLUDING", true),
   ("EXCLUSIVE", true), ("EXECUTE", true), ("EXISTS", true),
   ("EXPIRE", true), ("EXPLAIN", true), ("EXTENT", true),
   ("EXTENTS", true), ("EXTERNALLY", true), ("FAILED_LOGIN_ATTEMPTS", true),
   ("FALSE", true), ("FAST", true), ("FILE", true),
   ("FIRST_ROWS", true), ("FLAGGER", true), ("FLOAT", true),
   ("FLOB", true), ("FLUSH", true), ("FOR", true),
   ("FORCE", true), ("FOREIGN", true), ("FREELIST", true),
   ("FREELISTS", true), ("FROM", true), ("FULL", true),
   ("FUNCTION", true), ("GLOBAL", true), ("GLOBALLY", true),
   ("GLOBAL_NAME", true), ("GRANT", true), ("GROUP", true),
   ("GROUPS", true), ("HASH", true), ("HASHKEYS", true),
   ("HAVING", true), ("HEADER", true), ("HEAP", true),
   ("IDENTIFIED", true), ("IDGENERATORS", true), ("IDLE_TIME", true),
   ("IF", true), ("IMMEDIATE", true), ("IN", true),
   ("INCLUDING", true), ("INCREMENT", true), ("INDEX", true),
   ("INDEXED", true), ("INDEXES", true), ("INDICATOR", true),
   ("IND_PARTITION", true), ("INITIAL", true), ("INITIALLY", true),
   ("INITRANS", true), ("INSERT", true), ("INSTANCE", true),
   ("INSTANCES", true), ("INSTEAD", true), ("INT", true),
   ("INTEGER", true), ("INTERMEDIATE", true), ("INTERSECT", true),
   ("INTO", true), ("IS", true), ("ISOLATION", true),
   ("ISOLATION_LEVEL", true), ("KEEP", true), ("KEY", true),
   ("KILL", true), ("LABEL", true), ("LAYER", true),
   ("LESS", true), ("LEVEL", true), ("LIBRARY", true),
   ("LIKE", true), ("LIMIT", true), ("LINK", true),
   ("LIST", true), ("LOB", true), ("LOCAL", true),
   ("LOCK", true), ("LOCKED", true), ("LOG", true),
   ("LOGFILE", true), ("LOGGING", true), ("LOGICAL_READS_PER_CALL", true),
   ("LOGICAL_READS_PER_SESSION", true), ("LONG", true), ("MANAGE", true),
   ("MASTER", true), ("MAX", true), ("MAXARCHLOGS", true),
   ("MAXDATAFILES", true), ("MAXEXTENTS", true), ("MAXINSTANCES", true),
   ("MAXLOGFILES", true), ("MAXLOGHISTORY", true), ("MAXLOGMEMBERS", true),
   ("MAXSIZE", true), ("MAXTRANS", true), ("MAXVALUE", true),
   ("MIN", true), ("MEMBER", true), ("MINIMUM", true),
   ("MINEXTENTS", true), ("MINUS", true), ("MINVALUE", true),
   ("MLSLABEL", true), ("MLS_LABEL_FORMAT", true), ("MODE", true),
   ("MODIFY", true), ("MOUNT", true), ("MOVE", true),
   ("MTS_DISPATCHERS", true), ("MULTISET", true), ("NATIONAL", true),
   ("NCHAR", true), ("NCHAR_CS", true), ("NCLOB", true),
   ("NEEDED", true), ("NESTED", true), ("NETWORK", true),
   ("NEW", true), ("NEXT", true), ("NOARCHIVELOG", true),
   ("NOAUDIT", true), ("NOCACHE", true), ("NOCOMPRESS", true),
   ("NOCYCLE", true), ("NOFORCE", true), ("NOLOGGING", true),
   ("NOMAXVALUE", true), ("NOMINVALUE", true), ("NONE", true),
   ("NOORDER", true), ("NOOVERRIDE", true), ("NOPARALLEL", true),
   ("NOREVERSE", true), ("NORMAL", true), ("NOSORT", true),
   ("NOT", true), ("NOTHING", true), ("NOWAIT", true),
   ("NULL", true), ("NUMBER", true), ("NUMERIC", true),
   ("NVARCHAR2", true), ("OBJECT", true), ("OBJNO", true),
   ("OBJNO_REUSE", true), ("OF", true), ("OFF", true),
   ("OFFLINE", true), ("OID", true), ("OIDINDEX", true),
   ("OLD", true), ("ON", true), ("ONLINE", true),
   ("ONLY", true), ("OPCODE", true), ("OPEN", true),
   ("OPTIMAL", true), ("OPTIMIZER_GOAL", true), ("OPTION", true),
   ("OR", true), ("ORDER", true), ("ORGANIZATION", true),
   ("OSLABEL", true), ("OVERFLOW", true), ("OWN", true),
   ("PACKAGE", true), ("PARALLEL", true), ("PARTITION", true),
   ("PASSWORD", true), ("PASSWORD_GRACE_TIME", true), ("PASSWORD_LIFE_TIME", true),
   ("PASSWORD_LOCK_TIME", true), ("PASSWORD_REUSE_MAX", true), ("PASSWORD_REUSE_TIME", true),
   ("PASSWORD_VERIFY_FUNCTION", true), ("PCTFREE", true), ("PCTINCREASE", true),
   ("PCTTHRESHOLD", true), ("PCTUSED", true), ("PCTVERSION", true),
   ("PERCENT", true), ("PERMANENT", true), ("PLAN", true),
   ("PLSQL_DEBUG", true), ("POST_TRANSACTION", true), ("PRECISION", true),
   ("PRESERVE", true), ("PRIMARY", true), ("PRIOR", true),
   ("PRIVATE", true), ("PRIVATE_SGA", true), ("PRIVILEGE", true),
   ("PRIVILEGES", true), ("PROCEDURE", true), ("PROFILE", true),
   ("PUBLIC", true), ("PURGE", true), ("QUEUE", true),
   ("QUOTA", true), ("RANGE", true), ("RAW", true),
   ("RBA", true), ("READ", true), ("READUP", true),
   ("REAL", true), ("REBUILD", true), ("RECOVER", true),
   ("RECOVERABLE", true), ("RECOVERY", true), ("REF", true),
   ("REFERENCES", true), ("REFERENCING", true), ("REFRESH", true),
   ("RENAME", true), ("REPLACE", true), ("RESET", true),
   ("RESETLOGS", true), ("RESIZE", true), ("RESOURCE", true),
   ("RESTRICTED", true), ("RETURN", true), ("RETURNING", true),
   ("REUSE", true), ("REVERSE", true), ("REVOKE", true),
   ("ROLE", true), ("ROLES", true), ("ROLLBACK", true),
   ("ROW", true), ("ROWID", true), ("ROWNUM", true),
   ("ROWS", true), ("RULE", true), ("SAMPLE", true),
   ("SAVEPOINT", true), ("SB4", true), ("SCAN_INSTANCES", true),
   ("SCHEMA", true), ("SCN", true), ("SCOPE", true),
   ("SD_ALL", true), ("SD_INHIBIT", true), ("SD_SHOW", true),
   ("SEGMENT", true), ("SEG_BLOCK", true), ("SEG_FILE", true),
   ("SELECT", true), ("SEQUENCE", true), ("SERIALIZABLE", true),
   ("SESSION", true), ("SESSION_CACHED_CURSORS", true), ("SESSIONS_PER_USER", true),
   ("SET", true), ("SHARE", true), ("SHARED", true),
   ("SHARED_POOL", true), ("SHRINK", true), ("SIZE", true),
   ("SKIP", true), ("SKIP_UNUSABLE_INDEXES", true), ("SMALLINT", true),
   ("SNAPSHOT", true), ("SOME", true), ("SORT", true),
   ("SPECIFICATION", true), ("SPLIT", true), ("SQL_TRACE", true),
   ("STANDBY", true), ("START", true), ("STATEMENT_ID", true),
   ("STATISTICS", true), ("STOP", true), ("STORAGE", true),
   ("STORE", true), ("STRUCTURE", true), ("SUCCESSFUL", true),
   ("SWITCH", true), ("SYS_OP_ENFORCE_NOT_NULL$", true), ("SYS_OP_NTCIMG$", true),
   ("SYNONYM", true), ("SYSDATE", true), ("SYSDBA", true),
   ("SYSOPER", true), ("SYSTEM", true), ("TABLE", true),
   ("TABLES", true), ("TABLESPACE", true), ("TABLESPACE_NO", true),
   ("TABNO", true), ("TEMPORARY", true), ("THAN", true),
   ("THE", true), ("THEN", true), ("THREAD", true),
   ("TIMESTAMP", true), ("TIME", true), ("TO", true),
   ("TOPLEVEL", true), ("TRACE", true), ("TRACING", true),
   ("TRANSACTION", true), ("TRANSITIONAL", true), ("TRIGGER", true),
   ("TRIGGERS", true), ("TRUE", true), ("TRUNCATE", true),
   ("TX", true), ("TYPE", true), ("UB2", true),
   ("UBA", true), ("UID", true), ("UNARCHIVED", true),
   ("UNDO", true), ("UNION", true), ("UNIQUE", true),
   ("UNLIMITED", true), ("UNLOCK", true), ("UNRECOVERABLE", true),
   ("UNTIL", true), ("UNUSABLE", true), ("UNUSED", true),
   ("UPDATABLE", true), ("UPDATE", true), ("USAGE", true),
   ("USE", true), ("USER", true), ("USING", true),
   ("VALIDATE", true), ("VALIDATION", true), ("VALUE", true),
   ("VALUES", true), ("VARCHAR", true), ("VARCHAR2", true),
   ("VARYING", true), ("VIEW", true), ("WHEN", true),
   ("WHENEVER", true), ("WHERE", true), ("WITH", true),
   ("WITHOUT", true), ("WORK", true), ("WRITE", true),
   ("WRITEDOWN", true), ("WRITEUP", true), ("XID", true),
   ("YEAR", true), ("ZONE", true)]

/-- The comma-ok lookup `_, ok := m[k]` on a `map[string]bool`: whether `k` is
a key of the map. -/
def hasKey (m : List (String × Bool)) (k : GoString) : Bool :=
  m.any (fun e => bytes e.1 == k)

/-- Method `(*dameng).IsReserved`. -/
def IsReserved (u : Unicode) (name : GoString) : Bool :=
  hasKey damengReservedWords (strings.ToUpper u name)

/-- Method `(*dameng).Quote`. -/
def Quote (u : Unicode) (name : GoString) : GoString :=
  if strings.ToLower u name = bytes "login" then
    bytes "'" ++ name ++ bytes "'"
  else
    bytes "\"" ++ name ++ bytes "\""

/-- Two bytes that are the same letter up to ASCII case: equal, or an upper-case
letter `A`..`Z` (65..90) and its lower-case form 32 above it. -/
def sameLetter (x y : Nat) : Bool :=
  decide (x = y) || decide (65 ≤ x ∧ x ≤ 90 ∧ y = x + 32)
    || decide (65 ≤ y ∧ y ≤ 90 ∧ x = y + 32)

/-- Two names that differ only in letter case: the same length, and the same
letter up to ASCII case at every position. -/
def differOnlyInCase : GoString → GoString → Bool
  | [], [] => true
  | x :: xs, y :: ys => sameLetter x y && differOnlyInCase xs ys
  | _, _ => false

/-! ## Package `core`

Package `xorm.io/xorm/core` is not among the sources.  Its column descriptor
and its abstract type names are modelled here: the names carry the spelling the
spec's native names agree with (`BIT`, `BINARY`, `VARBINARY`, `DATE`, `TIME`,
`TIMESTAMP`, `VARCHAR`), the rest follow the same upper-case convention. -/

/-- Modelled from the spec: `core.SQLType`, an abstract type name with its two
default length parameters. -/
structure core.SQLType where
  Name : GoString
  DefaultLength : Int
  DefaultLength2 : Int
  deriving DecidableEq, Repr

/-- Modelled from the spec: `core.Column`, the column descriptor of spec §3,
with the fields the adapter reads or writes. -/
structure core.Column where
  Name : GoString
  SQLType : core.SQLType
  Length : Int
  Length2 : Int
  Nullable : Bool
  Default : GoString
  Indexes : List (GoString × Int)
  IsPrimaryKey : Bool
  IsAutoIncrement : Bool
  DefaultIsEmpty : Bool
  Comment : GoString
  deriving DecidableEq, Repr

/-- Modelled from the spec: `core.Index`, the index descriptor of spec §3:
whether the name follows the naming convention, the name, the kind (field
`Type`) and the member columns. -/
structure core.Index where
  IsRegular : Bool
  Name : GoString
  Kind : Int
  Cols : List GoString
  deriving DecidableEq, Repr

/-- Modelled from the spec: `core.Table`, the table descriptor of spec §3: the
name, the columns in declared order and the primary-key column names.
`ColumnsSeq()` lists the names of `Columns` in order and `GetColumn` of the
i-th name is the i-th column. -/
structure core.Table where
  Name : GoString
  Columns : List core.Column
  PrimaryKeys : List GoString
  deriving DecidableEq, Repr

/-- Modelled from the spec: `core.Uri`, the connection descriptor of spec §3,
with the fields `Parse` fills. -/
structure core.Uri where
  DbType : GoString
  Proto : GoString
  Host : GoString
  Port : GoString
  DbName : GoString
  User : GoString
  Passwd : GoString
  Schema : GoString
  deriving DecidableEq, Repr

/-- The functions and the table of package `core` that the adapter calls and
that are outside the sources, as parameters: the type tests `IsBool` and
`IsTime` of `core.SQLType`, whether a name is a key of the registry
`core.SqlTypes`, the first result of `core.ColumnString(db, col, false)`, and
the method `XName` of `core.Index`. -/
structure core.Helpers where
  IsBool : core.SQLType → Bool
  IsTime : core.SQLType → Bool
  SqlTypes : GoString → Bool
  ColumnString : core.Column → GoString
  XName : core.Index → GoString → GoString

/-- Modelled from the spec: the index kind `core.IndexType` of package `core`,
the kind of an index that is not unique. -/
def core.IndexType : Int := 1

/-- Modelled from the spec: the index kind `core.UniqueType` of package `core`,
the kind of a unique index. -/
def core.UniqueType : Int := 2

/-- Modelled from the spec: `(*core.Index).AddColumn` called with one column
name appends that name to the member columns of the descriptor. -/
def core.Index.AddColumn (index : core.Index) (col : GoString) : core.Index :=
  { index with Cols := index.Cols ++ [col] }

/-- Modelled from the spec: `core.NewEmptyTable`, a table descriptor with the
empty name, no columns and no primary keys. -/
def core.NewEmptyTable : core.Table :=
  { Name := [], Columns := [], PrimaryKeys := [] }

/-- Modelled from the spec: the abstract type name `core.Bit` of package `core`. -/
def core.Bit : GoString := bytes "BIT"

/-- Modelled from the spec: the abstract type name `core.UnsignedBit` of package `core`. -/
def core.UnsignedBit : GoString := bytes "UNSIGNED BIT"

/-- Modelled from the spec: the abstract type name `core.TinyInt` of package `core`. -/
def core.TinyInt : GoString := bytes "TINYINT"

/-- Modelled from the spec: the abstract type name `core.UnsignedTinyInt` of package `core`. -/
def core.UnsignedTinyInt : GoString := bytes "UNSIGNED TINYINT"

/-- Modelled from the spec: the abstract type name `core.SmallInt` of package `core`. -/
def core.SmallInt : GoString := bytes "SMALLINT"

/-- Modelled from the spec: the abstract type name `core.MediumInt` of package `core`. -/
def core.MediumInt : GoString := bytes "MEDIUMINT"

/-- Modelled from the spec: the abstract type name `core.Int` of package `core`. -/
def core.Int : GoString := bytes "INT"

/-- Modelled from the spec: the abstract type name `core.UnsignedInt` of package `core`. -/
def core.UnsignedInt : GoString := bytes "UNSIGNED INT"

/-- Modelled from the spec: the abstract type name `core.Integer` of package `core`. -/
def core.Integer : GoString := bytes "INTEGER"

/-- Modelled from the spec: the abstract type name `core.BigInt` of package `core`. -/
def core.BigInt : GoString := bytes "BIGINT"

/-- Modelled from the spec: the abstract type name `core.UnsignedBigInt` of package `core`. -/
def core.UnsignedBigInt : GoString := bytes "UNSIGNED BIGINT"

/-- Modelled from the spec: the abstract type name `core.Char` of package `core`. -/
def core.Char : GoString := bytes "CHAR"

/-- Modelled from the spec: the abstract type name `core.Varchar` of package `core`. -/
def core.Varchar : GoString := bytes "VARCHAR"

/-- Modelled from the spec: the abstract type name `core.TinyText` of package `core`. -/
def core.TinyText : GoString := bytes "TINYTEXT"

/-- Modelled from the spec: the abstract type name `core.Text` of package `core`. -/
def core.Text : GoString := bytes "TEXT"

/-- Modelled from the spec: the abstract type name `core.MediumText` of package `core`. -/
def core.MediumText : GoString := bytes "MEDIUMTEXT"

/-- Modelled from the spec: the abstract type name `core.LongText` of package `core`. -/
def core.LongText : GoString := bytes "LONGTEXT"

/-- Modelled from the spec: the abstract type name `core.Uuid` of package `core`. -/
def core.Uuid : GoString := bytes "UUID"

/-- Modelled from the spec: the abstract type name `core.Date` of package `core`. -/
def core.Date : GoString := bytes "DATE"

/-- Modelled from the spec: the abstract type name `core.DateTime` of package `core`. -/
def core.DateTime : GoString := bytes "DATETIME"

/-- Modelled from the spec: the abstract type name `core.Time` of package `core`. -/
def core.Time : GoString := bytes "TIME"

/-- Modelled from the spec: the abstract type name `core.TimeStamp` of package `core`. -/
def core.TimeStamp : GoString := bytes "TIMESTAMP"

/-- Modelled from the spec: the abstract type name `core.TimeStampz` of package `core`. -/
def core.TimeStampz : GoString := bytes "TIMESTAMPZ"

/-- Modelled from the spec: the abstract type name `core.Decimal` of package `core`. -/
def core.Decimal : GoString := bytes "DECIMAL"

/-- Modelled from the spec: the abstract type name `core.Numeric` of package `core`. -/
def core.Numeric : GoString := bytes "NUMERIC"

/-- Modelled from the spec: the abstract type name `core.Real` of package `core`. -/
def core.Real : GoString := bytes "REAL"

/-- Modelled from the spec: the abstract type name `core.Float` of package `core`. -/
def core.Float : GoString := bytes "FLOAT"

/-- Modelled from the spec: the abstract type name `core.Double` of package `core`. -/
def core.Double : GoString := bytes "DOUBLE"

/-- Modelled from the spec: the abstract type name `core.Binary` of package `core`. -/
def core.Binary : GoString := bytes "BINARY"

/-- Modelled from the spec: the abstract type name `core.VarBinary` of package `core`. -/
def core.VarBinary : GoString := bytes "VARBINARY"

/-- Modelled from the spec: the abstract type name `core.TinyBlob` of package `core`. -/
def core.TinyBlob : GoString := bytes "TINYBLOB"

/-- Modelled from the spec: the abstract type name `core.Blob` of package `core`. -/
def core.Blob : GoString := bytes "BLOB"

/-- Modelled from the spec: the abstract type name `core.MediumBlob` of package `core`. -/
def core.MediumBlob : GoString := bytes "MEDIUMBLOB"

/-- Modelled from the spec: the abstract type name `core.LongBlob` of package `core`. -/
def core.LongBlob : GoString := bytes "LONGBLOB"

/-- Modelled from the spec: the abstract type name `core.Bytea` of package `core`. -/
def core.Bytea : GoString := bytes "BYTEA"

/-- Modelled from the spec: the abstract type name `core.Bool` of package `core`. -/
def core.Bool : GoString := bytes "BOOL"

/-- Modelled from the spec: the abstract type name `core.Boolean` of package `core`. -/
def core.Boolean : GoString := bytes "BOOLEAN"

/-- Modelled from the spec: the abstract type name `core.Serial` of package `core`. -/
def core.Serial : GoString := bytes "SERIAL"

/-- Modelled from the spec: the abstract type name `core.BigSerial` of package `core`. -/
def core.BigSerial : GoString := bytes "BIGSERIAL"

/-- Modelled from the spec: the abstract type name `core.Json` of package `core`. -/
def core.Json : GoString := bytes "JSON"

/-! ## Package `strconv` -/

/-- The decimal digits of a natural number, most significant first, produced
from the least significant end as `strconv.formatBits` does; `fuel` bounds the
number of digits. -/
def strconv.formatDigits : Nat → Nat → GoString → GoString
  | 0, _, acc => acc
  | fuel + 1, n, acc =>
    if n / 10 = 0 then (48 + n % 10) :: acc
    else strconv.formatDigits fuel (n / 10) ((48 + n % 10) :: acc)

/-- Go `strconv.Itoa`, also the verb `%d` of `fmt.Sprintf`: decimal digits,
led by `-` (45) for a negative number. -/
def strconv.Itoa (i : Int) : GoString :=
  if i < 0 then 45 :: strconv.formatDigits (i.natAbs + 1) i.natAbs []
  else strconv.formatDigits (i.natAbs + 1) i.natAbs []

/-! ## Type mapping -/

/-- Lines 562-570 of `SqlType`, the rule after the switch: the length suffix
appended to `res`. -/
def SqlType.lengths (res : GoString) (c : core.Column) : GoString :=
  let hasLen1 := decide (c.Length > 0)
  let hasLen2 := decide (c.Length2 > 0)
  if hasLen2 then
    res ++ bytes "(" ++ strconv.Itoa c.Length ++ bytes "," ++ strconv.Itoa c.Length2 ++ bytes ")"
  else if hasLen1 then
    res ++ bytes "(" ++ strconv.Itoa c.Length ++ bytes ")"
  else res

/-- Method `(*dameng).SqlType`.  The column is passed by pointer and one case
writes to it, so the result is the native type string together with the column
as the call leaves it.  The cases of the Go switch are tried in source order;
a case that does not return falls out of the switch to the length rule. -/
def SqlType (c : core.Column) : GoString × core.Column :=
  let t := c.SQLType.Name
  if t = core.TinyInt ∨ t = bytes "BYTE" then
    (bytes "TINYINT", c)
  else if t = core.SmallInt ∨ t = core.MediumInt ∨ t = core.Int ∨ t = core.Integer
      ∨ t = core.UnsignedTinyInt then
    (bytes "INTEGER", c)
  else if t = core.BigInt ∨ t = core.UnsignedBigInt ∨ t = core.UnsignedBit
      ∨ t = core.UnsignedInt ∨ t = core.Serial ∨ t = core.BigSerial then
    (bytes "BIGINT", c)
  else if t = core.Bit ∨ t = core.Bool ∨ t = core.Boolean then
    (core.Bit, c)
  else if t = core.Uuid then
    let c1 := { c with Length := 40 }
    (SqlType.lengths core.Varchar c1, c1)
  else if t = core.Binary then
    if c.Length = 0 then (core.Binary ++ bytes "(MAX)", c)
    else (SqlType.lengths [] c, c)
  else if t = core.VarBinary ∨ t = core.Blob ∨ t = core.TinyBlob ∨ t = core.MediumBlob
      ∨ t = core.LongBlob ∨ t = core.Bytea then
    (core.VarBinary, c)
  else if t = core.Date then
    (core.Date, c)
  else if t = core.Time then
    if c.Length > 0 then (core.Time ++ bytes "(" ++ strconv.Itoa c.Length ++ bytes ")", c)
    else (core.Time, c)
  else if t = core.DateTime ∨ t = core.TimeStamp then
    (SqlType.lengths core.TimeStamp c, c)
  else if t = core.TimeStampz then
    if c.Length > 0 then
      (bytes "TIMESTAMP(" ++ strconv.Itoa c.Length ++ bytes ") WITH TIME ZONE", c)
    else (bytes "TIMESTAMP WITH TIME ZONE", c)
  else if t = core.Float then
    (SqlType.lengths (bytes "FLOAT") c, c)
  else if t = core.Real ∨ t = core.Double then
    (SqlType.lengths (bytes "REAL") c, c)
  else if t = core.Numeric ∨ t = core.Decimal ∨ t = bytes "NUMBER" then
    (SqlType.lengths (bytes "NUMERIC") c, c)
  else if t = core.Text ∨ t = core.Json then
    (bytes "TEXT", c)
  else if t = core.MediumText ∨ t = core.LongText then
    (SqlType.lengths (bytes "CLOB") c, c)
  else if t = core.Char ∨ t = core.Varchar ∨ t = core.TinyText then
    (SqlType.lengths (bytes "VARCHAR2") c, c)
  else
    (SqlType.lengths t c, c)

/-- The length rule in the spec's words: `(length,length2)` when both lengths
are present, `(length)` when only the first is, no suffix otherwise. -/
def SqlType.specLengths (B : GoString) (length length2 : Int) : GoString :=
  if length > 0 ∧ length2 > 0 then
    B ++ bytes "(" ++ strconv.Itoa length ++ bytes "," ++ strconv.Itoa length2 ++ bytes ")"
  else if length > 0 then B ++ bytes "(" ++ strconv.Itoa length ++ bytes ")"
  else B

/-- Every type name that a case of the switch in `SqlType` lists, in source
order: a name outside this list reaches the default case. -/
def SqlType.caseNames : List GoString :=
  [core.TinyInt, bytes "BYTE",
   core.SmallInt, core.MediumInt, core.Int, core.Integer, core.UnsignedTinyInt,
   core.BigInt, core.UnsignedBigInt, core.UnsignedBit, core.UnsignedInt, core.Serial,
   core.BigSerial,
   core.Bit, core.Bool, core.Boolean,
   core.Uuid,
   core.Binary,
   core.VarBinary, core.Blob, core.TinyBlob, core.MediumBlob, core.LongBlob, core.Bytea,
   core.Date,
   core.Time,
   core.DateTime, core.TimeStamp,
   core.TimeStampz,
   core.Float,
   core.Real, core.Double,
   core.Numeric, core.Decimal, bytes "NUMBER",
   core.Text, core.Json,
   core.MediumText, core.LongText,
   core.Char, core.Varchar, core.TinyText]

/-- The base native name that the switch of `SqlType` leaves in `res` for the
type families the spec sends through the general length rule: character,
numeric and decimal, floating point, timestamp, CLOB, and unknown names. -/
def SqlType.generalBase (t : GoString) : Option GoString :=
  if t = core.Char ∨ t = core.Varchar ∨ t = core.TinyText then some (bytes "VARCHAR2")
  else if t = core.Numeric ∨ t = core.Decimal ∨ t = bytes "NUMBER" then some (bytes "NUMERIC")
  else if t = core.Float then some (bytes "FLOAT")
  else if t = core.Real ∨ t = core.Double then some (bytes "REAL")
  else if t = core.DateTime ∨ t = core.TimeStamp then some (bytes "TIMESTAMP")
  else if t = core.MediumText ∨ t = core.LongText then some (bytes "CLOB")
  else if t ∈ SqlType.caseNames then none
  else some t

/-- A column of the given abstract type and lengths, every other field at its
Go zero value. -/
def columnOf (t : GoString) (length length2 : Int) : core.Column :=
  { Name := [], SQLType := ⟨t, 0, 0⟩, Length := length, Length2 := length2,
    Nullable := false, Default := [], Indexes := [], IsPrimaryKey := false,
    IsAutoIncrement := false, DefaultIsEmpty := false, Comment := [] }

/-! ## Introspection: decomposing a native type -/

/-- The digit loop of `strconv.ParseUint` in base 10 for 64 bits: `none` is a
syntax error (a byte that is no digit), `some none` a range error (the value
passes `2^64 - 1`), `some (some n)` the value.  The first failing byte
decides. -/
def strconv.parseUintLoop : GoString → Nat → Option (Option Nat)
  | [], n => some (some n)
  | c :: cs, n =>
    if ¬ (48 ≤ c ∧ c ≤ 57) then none
    else if n ≥ (2 ^ 64 - 1) / 10 + 1 then some none
    else if n * 10 + (c - 48) > 2 ^ 64 - 1 then some none
    else strconv.parseUintLoop cs (n * 10 + (c - 48))

/-- Go `strconv.Atoi` where `int` has 64 bits: the value and whether the error
is non-nil.  A syntax error gives 0, a range error the nearest of `2^63 - 1`
and `-2^63`. -/
def strconv.Atoi (s : GoString) : Int × Bool :=
  if s = [] then (0, true)
  else
    let neg := decide (s.head? = some 45)
    let s1 := if s.head? = some 43 ∨ s.head? = some 45 then s.tail else s
    if s1 = [] then (0, true)
    else
      match strconv.parseUintLoop s1 0 with
      | none => (0, true)
      | some r =>
        let un := r.getD (2 ^ 64 - 1)
        if ¬ neg ∧ un ≥ 2 ^ 63 then (2 ^ 63 - 1, true)
        else if neg ∧ un > 2 ^ 63 then (-(2 ^ 63), true)
        else if neg then (-(un : Int), false)
        else ((un : Int), false)

/-- Go `strings.Split` for a separator of one byte, the only kind the adapter
passes: the pieces between the occurrences of `sep`, always at least one. -/
def strings.Split : GoString → Nat → List GoString
  | [], _ => [[]]
  | c :: cs, sep =>
    if c = sep then [] :: strings.Split cs sep
    else
      match strings.Split cs sep with
      | p :: ps => (c :: p) :: ps
      | [] => [[c]]

/-- Lines 713-723 of `GetColumns`: the base name and the two lengths of a
native type string.  `none` is a run-time panic: the slice
`dts[1][:len(dts[1])-1]` of an empty `dts[1]` is out of range. -/
def GetColumns.decompose (dataType : GoString) : Option (GoString × Int × Int) :=
  match strings.Split dataType 40 with
  | [] => none
  | [dt] => some (dt, 0, 0)
  | dt :: dts1 :: _ =>
    if dts1.length = 0 then none
    else
      match strings.Split dts1.dropLast 44 with
      | [] => none
      | [lens0] => some (dt, (strconv.Atoi lens0).1, 0)
      | lens0 :: lens1 :: _ => some (dt, (strconv.Atoi lens0).1, (strconv.Atoi lens1).1)

/-- Lines 725-744 of `GetColumns`: the reverse-mapping switch from the base
native name to the abstract type.  `none` is the ignored internal type
(`ignore = true`). -/
def GetColumns.reverseMap (u : Unicode) (dt : GoString) (len1 len2 : Int) :
    Option core.SQLType :=
  if dt = bytes "VARCHAR" ∨ dt = bytes "VARCHAR2" then
    some { Name := core.Varchar, DefaultLength := len1, DefaultLength2 := len2 }
  else if dt = bytes "TIMESTAMP WITH TIME ZONE" then
    some { Name := core.TimeStampz, DefaultLength := 0, DefaultLength2 := 0 }
  else if dt = bytes "NUMBER" then
    some { Name := bytes "NUMBER", DefaultLength := len1, DefaultLength2 := len2 }
  else if dt = bytes "LONG" ∨ dt = bytes "LONG RAW" ∨ dt = bytes "NCLOB" ∨ dt = bytes "CLOB"
      ∨ dt = bytes "TEXT" then
    some { Name := core.Text, DefaultLength := 0, DefaultLength2 := 0 }
  else if dt = bytes "RAW" then
    some { Name := core.Binary, DefaultLength := 0, DefaultLength2 := 0 }
  else if dt = bytes "ROWID" then
    some { Name := core.Varchar, DefaultLength := 18, DefaultLength2 := 0 }
  else if dt = bytes "AQ$_SUBSCRIBERS" then
    none
  else
    some { Name := strings.ToUpper u dt, DefaultLength := len1, DefaultLength2 := len2 }

/-- The introspection of one native type string: decomposition, then the
reverse mapping.  The outer `none` is the panic of the decomposition, the inner
one the ignored type. -/
def GetColumns.introspect (u : Unicode) (dataType : GoString) : Option (Option core.SQLType) :=
  (GetColumns.decompose dataType).map (fun r => GetColumns.reverseMap u r.1 r.2.1 r.2.2)

/-- The round trip in the spec's words, for one column: the string `SqlType`
produces, run through the decomposition and the reverse mapping of
`GetColumns`, recovers an equivalent abstract type (one that `SqlType` renders
to the same base native type) and the same two length parameters. -/
def roundTrips (u : Unicode) (c : core.Column) : Bool :=
  match GetColumns.introspect u (SqlType c).1 with
  | some (some ty) =>
    decide ((SqlType (columnOf ty.Name 0 0)).1 = (SqlType (columnOf c.SQLType.Name 0 0)).1)
      && decide (ty.DefaultLength = c.Length) && decide (ty.DefaultLength2 = c.Length2)
  | _ => false

/-! ## Large-text scan target -/

/-- A Go `error` value, held as its message. -/
abbrev error := GoString

/-- Interface `dmClobObject`, a large-object handle: the results of its two
methods, each a value together with an error that may be nil. -/
structure dmClobObject where
  GetLength : Int × Option error
  ReadString : Int → Int → GoString × Option error

/-- Type `dmClobScanner`. -/
structure dmClobScanner where
  valid : Bool
  data : GoString
  deriving DecidableEq, Repr

/-- The `interface{}` value handed to `Scan`, by the arm of the type switch it
reaches.  A byte slice is `none` when it is the nil slice; `other` carries the
name that `%T` prints for any other dynamic type. -/
inductive ScanValue where
  | null
  | clob (t : dmClobObject)
  | byteSlice (t : Option GoString)
  | string (t : GoString)
  | other (typeName : GoString)

/-- Method `(*dmClobScanner).Scan`: the error returned and the scanner as the
call leaves it.  In the handle arm the test `t == nil` compares a non-nil
interface value and never holds; `int` has 64 bits, so `int(l)` is `l`; the
assignment `d.data, err = t.ReadString(1, int(l))` stores the string before
the error is looked at. -/
def dmClobScanner.Scan (d : dmClobScanner) (data : ScanValue) : Option error × dmClobScanner :=
  match data with
  | .null => (none, d)
  | .clob t =>
    match t.GetLength with
    | (_, some err) => (some err, d)
    | (l, none) =>
      if l = 0 then (none, { d with valid := true })
      else
        match t.ReadString 1 l with
        | (s, some err) => (some err, { d with data := s })
        | (s, none) => (none, { valid := true, data := s })
  | .byteSlice none => (none, d)
  | .byteSlice (some t) => (none, { valid := true, data := t })
  | .string t =>
    if t.length ≤ 0 then (none, d)
    else (none, { valid := true, data := t })
  | .other typeName =>
    (some (bytes "cannot convert " ++ typeName ++ bytes " as dmClobScanner"), d)

/-- The zero value of `dmClobScanner`, as `var colDefault dmClobScanner`
declares it. -/
def dmClobScanner.fresh : dmClobScanner := { valid := false, data := [] }

/-! ## Connection string parsing -/

/-- Go `url.Userinfo`: the user name, the password and whether a password was
given. -/
structure url.Userinfo where
  username : GoString
  password : GoString
  passwordSet : Bool
  deriving DecidableEq, Repr

/-- Go `url.URL` as far as `Parse` reads it: the scheme, the user-info
component (`none` is the nil pointer), and the results of the methods
`Hostname()`, `Port()` and `Query()`.  The query values are a
`map[string][]string`, held as its entries. -/
structure url.URL where
  Scheme : GoString
  User : Option url.Userinfo
  Hostname : GoString
  Port : GoString
  Query : List (GoString × List GoString)
  deriving DecidableEq, Repr

/-- Go `url.Values.Get`: the first value stored under the key, the empty string
when there is none. -/
def url.Values.Get (v : List (GoString × List GoString)) (key : GoString) : GoString :=
  match v.lookup key with
  | some (x :: _) => x
  | _ => []

/-- Modelled from the spec: the database kind `core.DM` that `Parse` stores in
the descriptor; its spelling plays no part in any result. -/
def core.DM : GoString := bytes "dm"

/-- Method `(*damengDriver).Parse`: the descriptor (`none` is the nil pointer)
and the error.  `urlParse` is `url.Parse` of the Go standard library, its
result a URL or an error. -/
def damengDriver.Parse (urlParse : GoString → Except error url.URL)
    (driverName dataSourceName : GoString) : Option core.Uri × Option error :=
  match urlParse dataSourceName with
  | .error err => (none, some err)
  | .ok u =>
    match u.User with
    | none => (none, some (bytes "user/password needed"))
    | some user =>
      let passwd := user.password
      let dbName := url.Values.Get u.Query (bytes "schema")
      let dbName := if dbName = [] then user.username else dbName
      (some { DbType := core.DM, Proto := u.Scheme, Host := u.Hostname, Port := u.Port,
              DbName := dbName, User := user.username, Passwd := passwd, Schema := dbName },
       none)

/-! ## DDL generation -/

/-- Modelled from the spec: `util.Quoter.JoinWrite` for a quoter whose
`IsReserved` always holds: every name is wrapped in the quoter's opening and
closing byte, and the quoted names are joined by `sep`. -/
def util.Quoter.JoinWrite (quoteOpen quoteClose : Nat) (a : List GoString) (sep : GoString) :
    GoString :=
  sep.intercalate (a.map (fun s => quoteOpen :: s ++ [quoteClose]))

/-- Lines 874-880 of `CreateTableSql`: the column as it is handed to the
rendering, with a boolean default literal coerced. -/
def CreateTableSql.coerce (h : core.Helpers) (col : core.Column) : core.Column :=
  if h.IsBool col.SQLType ∧ ¬ col.DefaultIsEmpty then
    if col.Default = bytes "true" then { col with Default := bytes "1" }
    else if col.Default = bytes "false" then { col with Default := bytes "0" }
    else col
  else col

/-- Lines 872-891 of `CreateTableSql`: what the loop over the columns writes,
from index `i` on, for a table of `n` columns. -/
def CreateTableSql.writeColumns (h : core.Helpers) (n : Nat) :
    Nat → List core.Column → GoString
  | _, [] => []
  | i, col :: rest =>
    h.ColumnString (CreateTableSql.coerce h col)
      ++ (if (i : Int) ≠ (n : Int) - 1 then bytes ", " else [])
      ++ CreateTableSql.writeColumns h n (i + 1) rest

/-- Method `(*dameng).CreateTableSql`: the statement.  `strings.Builder` never
fails to write, so the branches that return the empty string are not taken; the
arguments `storeEngine` and `charset` are not read.  The coerced default is
also stored in the column of the table. -/
def CreateTableSql (h : core.Helpers) (u : Unicode) (table : core.Table)
    (tableName : GoString) : GoString :=
  let tableName := if tableName = [] then table.Name else tableName
  let b := bytes "create table " ++ Quote u tableName ++ bytes " ("
  let pkList := table.PrimaryKeys
  let b := b ++ CreateTableSql.writeColumns h table.Columns.length 0 table.Columns
  let b :=
    if pkList.length > 0 then
      (if table.Columns.length > 0 then b ++ bytes ", " else b)
        ++ bytes "CONSTRAINT PK_" ++ tableName ++ bytes " PRIMARY KEY ("
        ++ util.Quoter.JoinWrite 34 34 pkList (bytes ",") ++ bytes ")"
    else b
  b ++ bytes ")"

/-- The primary-key clause in the spec's words: empty without primary keys,
otherwise `CONSTRAINT PK_<name> PRIMARY KEY (...)` over the double-quoted names
joined by commas, led by `, ` when the table has a column. -/
def CreateTableSql.specPrimaryKeyClause (table : core.Table) (name : GoString) : GoString :=
  if table.PrimaryKeys = [] then []
  else
    (if table.Columns = [] then [] else bytes ", ")
      ++ bytes "CONSTRAINT PK_" ++ name ++ bytes " PRIMARY KEY ("
      ++ (bytes ",").intercalate (table.PrimaryKeys.map (fun k => bytes "\"" ++ k ++ bytes "\""))
      ++ bytes ")"

/-- Method `(*dameng).DropIndexSql`. -/
def DropIndexSql (h : core.Helpers) (u : Unicode) (tableName : GoString) (index : core.Index) :
    GoString :=
  let name := if index.IsRegular then h.XName index tableName else index.Name
  bytes "DROP INDEX " ++ Quote u name ++ bytes "." ++ Quote u tableName

/-- The statement of `DropIndexSql` in the spec's words: `DROP INDEX`, the
quoted schema qualifier, a dot, the quoted index name. -/
def DropIndexSql.spec (h : core.Helpers) (u : Unicode) (schema tableName : GoString)
    (index : core.Index) : GoString :=
  let name := if index.IsRegular then h.XName index tableName else index.Name
  bytes "DROP INDEX " ++ Quote u schema ++ bytes "." ++ Quote u name

/-! ## Schema introspection: `GetColumns` -/

/-- Go `strings.Trim` for a cutset of ASCII bytes, the only kind the adapter
passes: the bytes of the cutset are dropped from both ends. -/
def strings.Trim (s cutset : GoString) : GoString :=
  ((s.reverse.dropWhile (fun c => decide (c ∈ cutset))).reverse).dropWhile
    (fun c => decide (c ∈ cutset))

/-- Go `strings.EqualFold`.  Bytes are compared pairwise, equal or an ASCII
letter and its other case, until a string ends or a non-ASCII byte turns up;
from there on the rest of both strings goes through the Unicode folding of the
library, the parameter `fold`. -/
def strings.EqualFold (fold : GoString → GoString → Bool) : GoString → GoString → Bool
  | [], [] => true
  | [], _ :: _ => false
  | _ :: _, [] => false
  | sr :: s, tr :: t =>
    if sr ≥ utf8.RuneSelf ∨ tr ≥ utf8.RuneSelf then fold (sr :: s) (tr :: t)
    else if tr = sr then strings.EqualFold fold s t
    else if 65 ≤ min sr tr ∧ min sr tr ≤ 90 ∧ max sr tr = min sr tr + 32 then
      strings.EqualFold fold s t
    else false

/-- The loop of function `IndexSlice`, at index `i`. -/
def IndexSlice.loop : List GoString → GoString → Int → Int
  | [], _, _ => -1
  | ss :: rest, c, i => if c = ss then i else IndexSlice.loop rest c (i + 1)

/-- Function `IndexSlice`: the index of the first occurrence of `c` in `s`, or
-1 when `s` does not contain `c`. -/
def IndexSlice (s : List GoString) (c : GoString) : Int := IndexSlice.loop s c 0

/-- Function `addSingleQuote`. -/
def addSingleQuote (name : GoString) : GoString :=
  if name.length < 2 then name
  else if name.head? = some 39 ∧ name.getLast? = some 39 then name
  else 39 :: name ++ [39]

/-- Function `SeqName`. -/
def SeqName (u : Unicode) (tableName : GoString) : GoString :=
  bytes "SEQ_" ++ strings.ToUpper u tableName

/-- Go `sql.NullString`. -/
structure sql.NullString where
  String : GoString
  Valid : Bool
  deriving DecidableEq, Repr

/-- Go `sql.NullInt64`. -/
structure sql.NullInt64 where
  Int64 : Int
  Valid : Bool
  deriving DecidableEq, Repr

/-- A Go `*sql.Rows` as the loop `for rows.Next() { rows.Scan(...) }` sees it:
the outcome of `rows.Scan` on each row in turn, and what `rows.Err()` reports
once `rows.Next()` has returned false. -/
structure sql.Rows (α : Type) where
  scans : List (Except error α)
  Err : Option error

/-- The receiver `db *dameng` as far as the introspection reads it: the field
`Schema` and the method `HasRecords` of the embedded `core.Base`, which runs a
query with its arguments on the database and tells whether it has a row. -/
structure dameng where
  Schema : GoString
  HasRecords : GoString → List GoString → Bool × Option error

/-- The variables that `rows.Scan` fills from one row of the column-metadata
query (lines 666-671); `colDefault` is the scanner as its `Scan` left it. -/
structure GetColumns.Row where
  colName : sql.NullString
  colDefault : dmClobScanner
  dataType : sql.NullString
  dataLen : sql.NullInt64
  dataPrecision : sql.NullString
  dataScale : sql.NullInt64
  nullable : sql.NullString
  comment : sql.NullString
  deriving DecidableEq, Repr

/-- What `GetColumns` returns: the column names (`none` is the nil slice), the
columns by name (`none` is the nil map; the map is held as its entries) and the
error. -/
structure GetColumns.Return where
  colSeq : Option (List GoString)
  cols : Option (List (GoString × core.Column))
  err : Option error
  deriving DecidableEq, Repr

/-- How the body of the loop over the column rows ends for one row: the column
is stored (line 765), the row is passed over (`continue`), the function returns
an error, or the row makes the function panic. -/
inductive GetColumns.Step where
  | store (col : core.Column)
  | skip
  | fail (err : error)
  | panic
  deriving DecidableEq, Repr

/-- The assignment `m[k] = v` on a Go map held as its entries: the value of a
key that is present is replaced, a new key is added. -/
def mapSet {α : Type} (m : List (GoString × α)) (k : GoString) (v : α) : List (GoString × α) :=
  if m.any (fun e => decide (e.1 = k)) then m.map (fun e => if e.1 = k then (k, v) else e)
  else m ++ [(k, v)]

/-- Lines 663-705 of `GetColumns`: the new column with its name, default,
nullability, comment and key flags, or the error returned. -/
def GetColumns.rowHead (u : Unicode) (db : dameng) (tableName : GoString)
    (pkNames : List GoString) (r : GetColumns.Row) : Except error core.Column :=
  let col : core.Column := columnOf [] 0 0
  if ¬ r.colName.Valid then .error (bytes "column name is nil")
  else
    let col := { col with Name := strings.Trim r.colName.String (bytes "\" ") }
    let col :=
      if r.colDefault.valid then { col with Default := r.colDefault.data }
      else { col with DefaultIsEmpty := true }
    let col :=
      if r.nullable.String = bytes "Y" then { col with Nullable := true }
      else { col with Nullable := false }
    let col := if ¬ r.comment.Valid then { col with Comment := r.comment.String } else col
    if IndexSlice pkNames col.Name > -1 then
      let col := { col with IsPrimaryKey := true }
      match db.HasRecords
          (bytes "SELECT * FROM ALL_SEQUENCES WHERE SEQUENCE_OWNER = ? AND SEQUENCE_NAME = ?")
          [db.Schema, SeqName u tableName] with
      | (_, some err) => .error err
      | (has, none) => .ok (if has then { col with IsAutoIncrement := true } else col)
    else .ok col

/-- The message of `fmt.Errorf("unknown colType %v %v", dataType.String,
col.SQLType)`, the type printed as the struct of its three fields, in braces
(bytes 0x7b and 0x7d). -/
def GetColumns.unknownColType (dataType : GoString) (ty : core.SQLType) : error :=
  bytes "unknown colType " ++ dataType ++ bytes " \x7b" ++ ty.Name ++ bytes " "
    ++ strconv.Itoa ty.DefaultLength ++ bytes " " ++ strconv.Itoa ty.DefaultLength2
    ++ bytes "\x7d"

/-- Lines 707-766 of `GetColumns`: the native type of the row is decomposed
and reverse-mapped, checked against the registry, and the length and the
default of the column are set. -/
def GetColumns.rowTail (h : core.Helpers) (u : Unicode) (fold : GoString → GoString → Bool)
    (r : GetColumns.Row) (col : core.Column) : GetColumns.Step :=
  match GetColumns.decompose r.dataType.String with
  | none => .panic
  | some (dt, len1, len2) =>
    match GetColumns.reverseMap u dt len1 len2 with
    | none => .skip
    | some ty =>
      let col := { col with SQLType := ty }
      if ¬ h.SqlTypes col.SQLType.Name then
        .fail (GetColumns.unknownColType r.dataType.String col.SQLType)
      else
        let col :=
          if col.SQLType.Name = bytes "TIMESTAMP" then { col with Length := r.dataScale.Int64 }
          else { col with Length := r.dataLen.Int64 }
        let col :=
          if h.IsTime col.SQLType then
            if ¬ col.DefaultIsEmpty
                ∧ ¬ strings.EqualFold fold col.Default (bytes "CURRENT_TIMESTAMP") then
              { col with Default := addSingleQuote col.Default }
            else col
          else col
        .store col

/-- The body of the loop over the column rows (lines 663-766) for one scanned
row. -/
def GetColumns.row (h : core.Helpers) (u : Unicode) (fold : GoString → GoString → Bool)
    (db : dameng) (tableName : GoString) (pkNames : List GoString) (r : GetColumns.Row) :
    GetColumns.Step :=
  match GetColumns.rowHead u db tableName pkNames r with
  | .error err => .fail err
  | .ok col => GetColumns.rowTail h u fold r col

/-- Lines 638-645 of `GetColumns`: the loop that collects the primary-key
column names. -/
def GetColumns.pkLoop : List (Except error GoString) → List GoString →
    Except error (List GoString)
  | [], pkNames => .ok pkNames
  | .error err :: _, _ => .error err
  | .ok pkName :: rest, pkNames => GetColumns.pkLoop rest (pkNames ++ [pkName])

/-- Lines 662-767 of `GetColumns`: the loop over the rows of the
column-metadata query, from the map and the name sequence built so far.  `none`
is a panic, an error the return of that error. -/
def GetColumns.loop (h : core.Helpers) (u : Unicode) (fold : GoString → GoString → Bool)
    (db : dameng) (tableName : GoString) (pkNames : List GoString) :
    List (Except error GetColumns.Row) → List (GoString × core.Column) → List GoString →
    Option (Except error (List (GoString × core.Column) × List GoString))
  | [], cols, colSeq => some (.ok (cols, colSeq))
  | .error err :: _, _, _ => some (.error err)
  | .ok r :: rest, cols, colSeq =>
    match GetColumns.row h u fold db tableName pkNames r with
    | .panic => none
    | .fail err => some (.error err)
    | .skip => GetColumns.loop h u fold db tableName pkNames rest cols colSeq
    | .store col =>
      GetColumns.loop h u fold db tableName pkNames rest (mapSet cols col.Name col)
        (colSeq ++ [col.Name])

/-- Method `(*dameng).GetColumns`.  `pkQuery` and `colQuery` are what
`db.DB().Query` returns for the primary-key statement and for the
column-metadata statement: the rows or an error.  `none` is a panic. -/
def GetColumns (h : core.Helpers) (u : Unicode) (fold : GoString → GoString → Bool)
    (db : dameng) (tableName : GoString) (pkQuery : Except error (sql.Rows GoString))
    (colQuery : Except error (sql.Rows GetColumns.Row)) : Option GetColumns.Return :=
  match pkQuery with
  | .error err => some ⟨none, none, some err⟩
  | .ok rows =>
    match GetColumns.pkLoop rows.scans [] with
    | .error err => some ⟨none, none, some err⟩
    | .ok pkNames =>
      match rows.Err with
      | some err => some ⟨none, none, some err⟩
      | none =>
        match colQuery with
        | .error err => some ⟨none, none, some err⟩
        | .ok rows2 =>
          match GetColumns.loop h u fold db tableName pkNames rows2.scans [] [] with
          | none => none
          | some (.error err) => some ⟨none, none, some err⟩
          | some (.ok (cols, colSeq)) =>
            match rows2.Err with
            | some err => some ⟨none, none, some err⟩
            | none => some ⟨some colSeq, some cols, none⟩

/-- A stand-in for the parameters of package `core`, used to run the code on
concrete inputs: `BOOL` and `BOOLEAN` are the boolean types, `DATE`,
`DATETIME`, `TIME`, `TIMESTAMP` and `TIMESTAMPZ` the time types, the registry
holds the names the switch of `SqlType` lists, a column is rendered as its
name, a space and its native type, and the convention-derived index name is
`IDX_<table>_<name>`. -/
def sampleHelpers : core.Helpers :=
  { IsBool := fun t => decide (t.Name = core.Bool ∨ t.Name = core.Boolean)
    IsTime := fun t => decide (t.Name ∈ [core.Date, core.DateTime, core.Time, core.TimeStamp,
      core.TimeStampz])
    SqlTypes := fun name => decide (name ∈ SqlType.caseNames)
    ColumnString := fun col => col.Name ++ bytes " " ++ (SqlType col).1
    XName := fun index tableName => bytes "IDX_" ++ tableName ++ bytes "_" ++ index.Name }

/-- The column `id` of the spec's example table: a non-nullable integer primary
key without a default. -/
def sampleIdColumn : core.Column :=
  { columnOf core.Integer 0 0 with
    Name := bytes "id"
    IsPrimaryKey := true
    DefaultIsEmpty := true }

/-- The column `name` of the spec's example table: a nullable text column
without a default. -/
def sampleNameColumn : core.Column :=
  { columnOf core.Text 0 0 with
    Name := bytes "name"
    Nullable := true
    DefaultIsEmpty := true }

/-- A row of the column-metadata query: the column `NAME` of native type
`VARCHAR2(50)`, nullable, without a default, with the comment `user name`. -/
def sampleCommentRow : GetColumns.Row :=
  { colName := ⟨bytes "NAME", true⟩
    colDefault := ⟨false, []⟩
    dataType := ⟨bytes "VARCHAR2(50)", true⟩
    dataLen := ⟨50, true⟩
    dataPrecision := ⟨[], false⟩
    dataScale := ⟨0, false⟩
    nullable := ⟨bytes "Y", true⟩
    comment := ⟨bytes "user name", true⟩ }

/-- A row of the column-metadata query: the column `CREATED` of native type
`TIMESTAMP`, with the default given, not nullable, without a comment. -/
def sampleTimeRow (default : GoString) : GetColumns.Row :=
  { colName := ⟨bytes "CREATED", true⟩
    colDefault := ⟨true, default⟩
    dataType := ⟨bytes "TIMESTAMP", true⟩
    dataLen := ⟨8, true⟩
    dataPrecision := ⟨[], false⟩
    dataScale := ⟨6, true⟩
    nullable := ⟨bytes "N", true⟩
    comment := ⟨[], false⟩ }

/-- A row of the column-metadata query: the column `ID` of native type
`INTEGER`, not nullable, without a default or a comment. -/
def sampleIdRow : GetColumns.Row :=
  { colName := ⟨bytes "ID", true⟩
    colDefault := ⟨false, []⟩
    dataType := ⟨bytes "INTEGER", true⟩
    dataLen := ⟨4, true⟩
    dataPrecision := ⟨[], false⟩
    dataScale := ⟨0, true⟩
    nullable := ⟨bytes "N", true⟩
    comment := ⟨[], false⟩ }

/-- A database handle on the schema `SYSDBA` whose sequence query answers
`has` with the error `err`. -/
def sampleDb (has : Bool) (err : Option error) : dameng :=
  { Schema := bytes "SYSDBA", HasRecords := fun _ _ => (has, err) }

/-- The column that `GetColumns` returns for `sampleIdRow` when `ID` is a
primary-key name and the sequence query finds a row. -/
def sampleIdRead : core.Column :=
  { columnOf core.Integer 4 0 with
    Name := bytes "ID"
    IsPrimaryKey := true
    IsAutoIncrement := true
    DefaultIsEmpty := true }

/-! ## Reading the tables and the indexes: `GetTables` and `GetIndexes` -/

/-- Go `strings.HasPrefix(s, p)`: whether the bytes of `s` begin with those of
`p`. -/
def strings.HasPrefix (s p : GoString) : Bool :=
  p.isPrefixOf s

/-- What `GetTables` returns: the table list (`none` is the nil slice) and the
error. -/
structure GetTables.Return where
  tables : Option (List core.Table)
  err : Option error
  deriving DecidableEq, Repr

/-- The row loop of `GetTables`: each row is scanned into the name of a fresh
empty table, which is appended to `tables`; a scan error ends the loop with
that error. -/
def GetTables.loop : List (Except error GoString) → List core.Table →
    Except error (List core.Table)
  | [], tables => .ok tables
  | .error err :: _, _ => .error err
  | .ok name :: rest, tables =>
    GetTables.loop rest (tables ++ [{ core.NewEmptyTable with Name := name }])

/-- `(*dameng).GetTables`, given the outcome `query` of the table query. A
query error, a scan error and the iteration error `rows.Err()` each return the
nil slice and the error; otherwise the tables of all rows are returned, starting
from `make([]*core.Table, 0)`. -/
def GetTables (query : Except error (sql.Rows GoString)) : GetTables.Return :=
  match query with
  | .error err => { tables := none, err := some err }
  | .ok rows =>
    match GetTables.loop rows.scans [] with
    | .error err => { tables := none, err := some err }
    | .ok tables =>
      match rows.Err with
      | some err => { tables := none, err := some err }
      | none => { tables := some tables, err := none }

/-- One scanned row of the index query of `GetIndexes`: the column name, the
uniqueness and the index name. -/
structure GetIndexes.Row where
  colName : GoString
  uniqueness : GoString
  indexName : GoString
  deriving DecidableEq, Repr

/-- The naming step of `GetIndexes`: the index name is trimmed of double quotes
and spaces; when the trimmed name starts with `"IDX_"+tableName` or with
`"UQE_"+tableName` the result is `indexName[5+len(tableName):]` with
`isRegular` true, and `none` when that slice is out of range (a run-time
panic); otherwise the trimmed name with `isRegular` false. -/
def GetIndexes.name (tableName indexName : GoString) : Option (GoString × Bool) :=
  let indexName := strings.Trim indexName (bytes "\" ")
  if strings.HasPrefix indexName (bytes "IDX_" ++ tableName) = true ∨
      strings.HasPrefix indexName (bytes "UQE_" ++ tableName) = true then
    if 5 + tableName.length ≤ indexName.length then
      some (indexName.drop (5 + tableName.length), true)
    else none
  else some (indexName, false)

/-- The kind chosen for a row of `GetIndexes`: `core.UniqueType` when the
uniqueness is `"UNIQUE"`, else `core.IndexType`. -/
def GetIndexes.indexType (uniqueness : GoString) : Int :=
  if uniqueness = bytes "UNIQUE" then core.UniqueType else core.IndexType

/-- The body of the row loop of `GetIndexes` after a successful scan. The map
holds pointers: when `indexes[indexName]` is absent a new descriptor with the
kind, name and flag of this row is stored, and `AddColumn` then adds the column
to the descriptor the map refers to; `mapSet` writes the descriptor after that
addition. `none` is the panic of the naming step. -/
def GetIndexes.step (tableName : GoString) (indexes : List (GoString × core.Index))
    (r : GetIndexes.Row) : Option (List (GoString × core.Index)) :=
  match GetIndexes.name tableName r.indexName with
  | none => none
  | some (indexName, isRegular) =>
    let indexType := GetIndexes.indexType r.uniqueness
    match indexes.lookup indexName with
    | some index => some (mapSet indexes indexName (index.AddColumn r.colName))
    | none =>
      let index : core.Index :=
        { IsRegular := isRegular, Name := indexName, Kind := indexType, Cols := [] }
      some (mapSet indexes indexName (index.AddColumn r.colName))

/-- The row loop of `GetIndexes`: a scan error ends the loop with that error, a
panic of the naming step gives `none`. -/
def GetIndexes.loop (tableName : GoString) : List (Except error GetIndexes.Row) →
    List (GoString × core.Index) → Option (Except error (List (GoString × core.Index)))
  | [], indexes => some (.ok indexes)
  | .error err :: _, _ => some (.error err)
  | .ok r :: rest, indexes =>
    match GetIndexes.step tableName indexes r with
    | none => none
    | some indexes => GetIndexes.loop tableName rest indexes

/-- What `GetIndexes` returns: the map from index name to descriptor as an entry
list (`none` is the nil map) and the error. -/
structure GetIndexes.Return where
  indexes : Option (List (GoString × core.Index))
  err : Option error
  deriving DecidableEq, Repr

/-- `(*dameng).GetIndexes`, given the outcome `query` of the index query. A
query error, a scan error and the iteration error `rows.Err()` each return the
nil map and the error; otherwise the map built from all rows is returned,
starting from the empty map. The outer `none` is a run-time panic. -/
def GetIndexes (tableName : GoString) (query : Except error (sql.Rows GetIndexes.Row)) :
    Option GetIndexes.Return :=
  match query with
  | .error err => some { indexes := none, err := some err }
  | .ok rows =>
    match GetIndexes.loop tableName rows.scans [] with
    | none => none
    | some (.error err) => some { indexes := none, err := some err }
    | some (.ok indexes) =>
      match rows.Err with
      | some err => some { indexes := none, err := some err }
      | none => some { indexes := some indexes, err := none }

/-- The name the naming convention gives the index with display name `name` on
the table `tableName`: the convention prefix `kind ++ tableName ++ "_"`
followed by `name`, where `kind` is `"IDX_"` or `"UQE_"`. -/
def GetIndexes.conventionName (kind tableName name : GoString) : GoString :=
  kind ++ tableName ++ bytes "_" ++ name

/-- The rows of a result set of `GetIndexes` whose display name, the first
result of the naming step, is `k`. -/
def GetIndexes.rowsNamed (tableName k : GoString) (rs : List GetIndexes.Row) :
    List GetIndexes.Row :=
  rs.filter (fun r => decide ((GetIndexes.name tableName r.indexName).map Prod.fst = some k))

/-- The descriptor that `GetIndexes` builds from the rows `rs` of one display
name `k`: none when there is no row, else the kind and the flag of the first row
and the column names of all rows in order. -/
def GetIndexes.descriptor (tableName k : GoString) (rs : List GetIndexes.Row) :
    Option core.Index :=
  match rs with
  | [] => none
  | r :: _ =>
    some { IsRegular := ((GetIndexes.name tableName r.indexName).map Prod.snd).getD false
           Name := k
           Kind := GetIndexes.indexType r.uniqueness
           Cols := rs.map (fun r => r.colName) }

/-- A result set of `GetIndexes` for the table `orders`: the index
`IDX_orders_by_name` on two columns and the unique index `my_custom_idx`. -/
def sampleIndexRows : List GetIndexes.Row :=
  [ { colName := bytes "NAME", uniqueness := bytes "NONUNIQUE", indexName := bytes "IDX_orders_by_name" },
    { colName := bytes "CODE", uniqueness := bytes "UNIQUE", indexName := bytes "my_custom_idx" },
    { colName := bytes "CITY", uniqueness := bytes "NONUNIQUE", indexName := bytes "IDX_orders_by_name" } ]

/-- A result set of `GetIndexes` for the table `orders` with two catalog
indexes, `IDX_orders_x` on `A` and the unique `UQE_orders_x` on `B`. -/
def sampleClashRows : List GetIndexes.Row :=
  [ { colName := bytes "A", uniqueness := bytes "NONUNIQUE", indexName := bytes "IDX_orders_x" },
    { colName := bytes "B", uniqueness := bytes "UNIQUE", indexName := bytes "UQE_orders_x" } ]

/-- Whether `GetColumns` ignores the row: its native type is the one the
reverse mapping skips with `continue`. -/
def GetColumns.ignored (u : Unicode) (r : GetColumns.Row) : Bool :=
  decide (GetColumns.introspect u r.dataType.String = some none)

/-- The name sequence in the spec's words: the names of the rows that are not
ignored, in row order, each trimmed of surrounding double quotes and spaces. -/
def GetColumns.names (u : Unicode) (rs : List GetColumns.Row) : List GoString :=
  (rs.filter (fun r => !GetColumns.ignored u r)).map
    (fun r => strings.Trim r.colName.String (bytes "\" "))

/-- A stand-in for package `core` whose column rendering shows the name and
the default of the column it is handed. -/
def sampleDefaultHelpers : core.Helpers :=
  { sampleHelpers with ColumnString := fun col => col.Name ++ bytes " DEFAULT " ++ col.Default }

/-- A table of four columns that all store the default `true` or `false`: the
boolean `a` and `b`, the integer `c`, and the boolean `d` flagged as having no
default. -/
def sampleDefaultTable : core.Table :=
  { Name := bytes "t"
    Columns :=
      [ { columnOf core.Bool 0 0 with Name := bytes "a", Default := bytes "true" },
        { columnOf core.Bool 0 0 with Name := bytes "b", Default := bytes "false" },
        { columnOf core.Integer 0 0 with Name := bytes "c", Default := bytes "true" },
        { columnOf core.Bool 0 0 with Name := bytes "d", Default := bytes "true",
                                        DefaultIsEmpty := true } ]
    PrimaryKeys := [] }

/-! ## Lemmas on letter case -/

theorem sameLetter_spec {x y : Nat} (h : sameLetter x y = true) :
    (x < 128 ↔ y < 128) ∧ upperByte x = upperByte y ∧ lowerByte x = lowerByte y := by
  simp only [sameLetter, Bool.or_eq_true, decide_eq_true_eq] at h
  unfold upperByte lowerByte
  refine ⟨by omega, ?_, ?_⟩ <;> split_ifs <;> omega

theorem sameLetter_of_lowerByte {x y : Nat} (h : lowerByte x = lowerByte y) :
    sameLetter x y = true := by
  simp only [sameLetter, Bool.or_eq_true, decide_eq_true_eq]
  unfold lowerByte at h
  split_ifs at h <;> omega

theorem differOnlyInCase_spec :
    ∀ a b : GoString, differOnlyInCase a b = true →
      isASCII a = isASCII b ∧ a.map upperByte = b.map upperByte
        ∧ a.map lowerByte = b.map lowerByte
  | [], [], _ => ⟨rfl, rfl, rfl⟩
  | [], _ :: _, h => by simp [differOnlyInCase] at h
  | _ :: _, [], h => by simp [differOnlyInCase] at h
  | x :: xs, y :: ys, h => by
    simp only [differOnlyInCase, Bool.and_eq_true] at h
    obtain ⟨hx, ih1, ih2, ih3⟩ := And.intro (sameLetter_spec h.1) (differOnlyInCase_spec xs ys h.2)
    simp only [isASCII, utf8.RuneSelf] at ih1 ⊢
    refine ⟨?_, ?_, ?_⟩
    · simp only [List.all_cons, ih1]
      congr 1
      simp only [decide_eq_decide]
      exact hx.1
    · simp [hx.2.1, ih2]
    · simp [hx.2.2, ih3]

theorem differOnlyInCase_of_lower :
    ∀ a b : GoString, a.map lowerByte = b.map lowerByte → differOnlyInCase a b = true
  | [], [], _ => rfl
  | [], _ :: _, h => by simp at h
  | _ :: _, [], h => by simp at h
  | x :: xs, y :: ys, h => by
    simp only [List.map_cons, List.cons.injEq] at h
    simp only [differOnlyInCase, Bool.and_eq_true]
    exact ⟨sameLetter_of_lowerByte h.1, differOnlyInCase_of_lower xs ys h.2⟩

theorem hasKey_iff (m : List (String × Bool)) (k : GoString) :
    hasKey m k = true ↔ ∃ e ∈ m, bytes e.1 = k := by
  simp [hasKey, List.any_eq_true]

/-! ## Identifier policy -/

/-- C1. `IsReserved` is a case-insensitive membership test: a name is reserved
exactly when its upper-cased form is a key of the reserved-word table, so two
names with the same upper-cased form, and in particular two ASCII names that
differ only in letter case, get the same answer; `select` and `SELECT` are
reserved and `myFancyColumn123` is not. -/
theorem IsReserved_case_insensitive (u : Unicode) :
    (∀ name, IsReserved u name = true ↔
        ∃ e ∈ damengReservedWords, bytes e.1 = strings.ToUpper u name) ∧
    (∀ a b, strings.ToUpper u a = strings.ToUpper u b → IsReserved u a = IsReserved u b) ∧
    (∀ a b, isASCII a = true → differOnlyInCase a b = true →
        IsReserved u a = IsReserved u b) ∧
    IsReserved u (bytes "select") = true ∧
    IsReserved u (bytes "SELECT") = true ∧
    IsReserved u (bytes "myFancyColumn123") = false := by
  refine ⟨fun name => hasKey_iff _ _, ?_, ?_, rfl, rfl, rfl⟩
  · intro a b h
    simp only [IsReserved, h]
  · intro a b ha hab
    obtain ⟨h1, h2, _⟩ := differOnlyInCase_spec a b hab
    have hb : isASCII b = true := h1 ▸ ha
    simp only [IsReserved, strings.ToUpper, ha, hb, if_true, h2]

/-- Witness of C1. -/
theorem IsReserved_case_insensitive_witness :
    IsReserved ⟨id, id⟩ (bytes "sElEcT") = IsReserved ⟨id, id⟩ (bytes "SELect") ∧
    IsReserved ⟨id, id⟩ (bytes "sElEcT") = true :=
  ⟨(IsReserved_case_insensitive ⟨id, id⟩).2.2.1 (bytes "sElEcT") (bytes "SELect")
      (by decide) (by decide),
   ((IsReserved_case_insensitive ⟨id, id⟩).1 (bytes "sElEcT")).2
      ⟨("SELECT", true), by decide, by decide⟩⟩

/-- C2. `Quote` wraps the name in single quotes when its lower-cased form is
`login`, keeping the original spelling inside, and in double quotes otherwise;
for an ASCII name the lower-cased form is `login` exactly when the name differs
from `login` only in letter case.  `login` and `LOGIN` come out single-quoted,
`orders` double-quoted. -/
theorem Quote_login_single_quoted (u : Unicode) :
    (∀ name, strings.ToLower u name = bytes "login" →
        Quote u name = bytes "'" ++ name ++ bytes "'") ∧
    (∀ name, strings.ToLower u name ≠ bytes "login" →
        Quote u name = bytes "\"" ++ name ++ bytes "\"") ∧
    (∀ name, differOnlyInCase name (bytes "login") = true →
        Quote u name = bytes "'" ++ name ++ bytes "'") ∧
    (∀ name, isASCII name = true → differOnlyInCase name (bytes "login") = false →
        Quote u name = bytes "\"" ++ name ++ bytes "\"") ∧
    Quote u (bytes "login") = bytes "'login'" ∧
    Quote u (bytes "LOGIN") = bytes "'LOGIN'" ∧
    Quote u (bytes "orders") = bytes "\"orders\"" := by
  refine ⟨?_, ?_, ?_, ?_, rfl, rfl, rfl⟩
  · intro name h
    simp only [Quote, h, if_true]
  · intro name h
    simp only [Quote, h, if_false]
  · intro name h
    obtain ⟨h1, _, h3⟩ := differOnlyInCase_spec name _ h
    have ha : isASCII name = true := h1.trans (by decide)
    have hl : strings.ToLower u name = bytes "login" := by
      simp only [strings.ToLower, ha, if_true, h3]
      decide
    simp only [Quote, hl, if_true]
  · intro name ha h
    have hl : strings.ToLower u name ≠ bytes "login" := by
      simp only [strings.ToLower, ha, if_true]
      intro hc
      have hd : differOnlyInCase name (bytes "login") = true :=
        differOnlyInCase_of_lower _ _ (hc.trans (by decide))
      rw [hd] at h
      exact Bool.noConfusion h
    simp only [Quote, hl, if_false]

/-- Witness of C2. -/
theorem Quote_login_single_quoted_witness :
    Quote ⟨id, id⟩ (bytes "LoGiN") = bytes "'LoGiN'" ∧
    Quote ⟨id, id⟩ (bytes "logins") = bytes "\"logins\"" :=
  ⟨(Quote_login_single_quoted ⟨id, id⟩).2.2.1 (bytes "LoGiN") (by decide),
   (Quote_login_single_quoted ⟨id, id⟩).2.1 (bytes "logins") (by decide)⟩

/-! ## Lemmas on the type mapping -/

theorem SqlType.lengths_eq (res : GoString) (c : core.Column) :
    SqlType.lengths res c =
      if c.Length2 > 0 then
        res ++ bytes "(" ++ strconv.Itoa c.Length ++ bytes "," ++ strconv.Itoa c.Length2
          ++ bytes ")"
      else if c.Length > 0 then res ++ bytes "(" ++ strconv.Itoa c.Length ++ bytes ")"
      else res := by
  simp only [SqlType.lengths, decide_eq_true_eq]

theorem SqlType_default (c : core.Column) (h : c.SQLType.Name ∉ SqlType.caseNames) :
    SqlType c = (SqlType.lengths c.SQLType.Name c, c) := by
  simp only [SqlType.caseNames, List.mem_cons, List.mem_singleton, not_or,
    List.not_mem_nil, not_false_eq_true, and_true] at h
  simp only [SqlType, h, or_self, if_false]

theorem SqlType_general (c : core.Column) (B : GoString)
    (h : SqlType.generalBase c.SQLType.Name = some B) :
    SqlType c = (SqlType.lengths B c, c) := by
  by_cases hm : c.SQLType.Name ∈ SqlType.caseNames
  · obtain ⟨n, ⟨t, d1, d2⟩, l, l2, nu, de, ix, pk, ai, die, cm⟩ := c
    simp only [SqlType.generalBase] at h
    simp only at hm
    split_ifs at h with h1 h2 h3 h4 h5 h6
    · cases h; rcases h1 with rfl | rfl | rfl <;> rfl
    · cases h; rcases h2 with rfl | rfl | rfl <;> rfl
    · cases h; subst h3; rfl
    · cases h; rcases h4 with rfl | rfl <;> rfl
    · cases h; rcases h5 with rfl | rfl <;> rfl
    · cases h; rcases h6 with rfl | rfl <;> rfl
  · have hB : B = c.SQLType.Name := by
      have hm2 := hm
      simp only [SqlType.caseNames, List.mem_cons, List.mem_singleton, not_or,
        List.not_mem_nil, not_false_eq_true, and_true] at hm2
      simp only [SqlType.generalBase, hm2, hm, or_self, if_false, Option.some.injEq] at h
      exact h.symm
    rw [hB]
    exact SqlType_default c hm

theorem SqlType_general_fst (c : core.Column) (B : GoString)
    (h : SqlType.generalBase c.SQLType.Name = some B) :
    (SqlType c).1 =
      if c.Length2 > 0 then
        B ++ bytes "(" ++ strconv.Itoa c.Length ++ bytes "," ++ strconv.Itoa c.Length2
          ++ bytes ")"
      else if c.Length > 0 then B ++ bytes "(" ++ strconv.Itoa c.Length ++ bytes ")"
      else B := by
  rw [SqlType_general c B h, SqlType.lengths_eq]

theorem SqlType_of_Uuid (c : core.Column) (h : c.SQLType.Name = core.Uuid) :
    SqlType c = (SqlType.lengths core.Varchar { c with Length := 40 }, { c with Length := 40 }) := by
  obtain ⟨n, ⟨t, d1, d2⟩, l, l2, nu, de, ix, pk, ai, die, cm⟩ := c
  simp only at h
  subst h
  rfl

theorem SqlType_of_Binary (c : core.Column) (h : c.SQLType.Name = core.Binary) :
    SqlType c =
      if c.Length = 0 then (core.Binary ++ bytes "(MAX)", c) else (SqlType.lengths [] c, c) := by
  obtain ⟨n, ⟨t, d1, d2⟩, l, l2, nu, de, ix, pk, ai, die, cm⟩ := c
  simp only at h
  subst h
  rfl

theorem SqlType_of_Time (c : core.Column) (h : c.SQLType.Name = core.Time) :
    SqlType c =
      if c.Length > 0 then (core.Time ++ bytes "(" ++ strconv.Itoa c.Length ++ bytes ")", c)
      else (core.Time, c) := by
  obtain ⟨n, ⟨t, d1, d2⟩, l, l2, nu, de, ix, pk, ai, die, cm⟩ := c
  simp only at h
  subst h
  rfl

theorem SqlType_of_TimeStampz (c : core.Column) (h : c.SQLType.Name = core.TimeStampz) :
    SqlType c =
      if c.Length > 0 then
        (bytes "TIMESTAMP(" ++ strconv.Itoa c.Length ++ bytes ") WITH TIME ZONE", c)
      else (bytes "TIMESTAMP WITH TIME ZONE", c) := by
  obtain ⟨n, ⟨t, d1, d2⟩, l, l2, nu, de, ix, pk, ai, die, cm⟩ := c
  simp only at h
  subst h
  rfl

theorem SqlType_column_of_ne_Uuid (c : core.Column) (h : c.SQLType.Name ≠ core.Uuid) :
    (SqlType c).2 = c := by
  by_cases hm : c.SQLType.Name ∈ SqlType.caseNames
  · by_cases hb : c.SQLType.Name = core.Binary
    · rw [SqlType_of_Binary c hb]; split_ifs <;> rfl
    · by_cases ht : c.SQLType.Name = core.Time
      · rw [SqlType_of_Time c ht]; split_ifs <;> rfl
      · by_cases hz : c.SQLType.Name = core.TimeStampz
        · rw [SqlType_of_TimeStampz c hz]; split_ifs <;> rfl
        · obtain ⟨n, ⟨t, d1, d2⟩, l, l2, nu, de, ix, pk, ai, die, cm⟩ := c
          simp only [SqlType.caseNames, List.mem_cons, List.mem_singleton,
            List.not_mem_nil, or_false] at hm
          simp only at h hb ht hz
          repeat' (rcases hm with rfl | hm)
          all_goals first | rfl | contradiction
  · rw [SqlType_default c hm]

/-! ## Type mapping -/

/-- C3, as amended.  For a column of a type that the spec sends through the
general length rule, with base native name `B`: the result is
`B(Length,Length2)` whenever `Length2 > 0`, `B(Length)` when `Length2 ≤ 0` and
`Length > 0`, and `B` otherwise; it is the spec's rule whenever `Length > 0`
or `Length2 ≤ 0`. -/
theorem SqlType_general_length_rule (c : core.Column) (B : GoString)
    (h : SqlType.generalBase c.SQLType.Name = some B) :
    (c.Length2 > 0 → (SqlType c).1 =
        B ++ bytes "(" ++ strconv.Itoa c.Length ++ bytes "," ++ strconv.Itoa c.Length2
          ++ bytes ")") ∧
    (c.Length2 ≤ 0 → c.Length > 0 →
        (SqlType c).1 = B ++ bytes "(" ++ strconv.Itoa c.Length ++ bytes ")") ∧
    (c.Length2 ≤ 0 → c.Length ≤ 0 → (SqlType c).1 = B) ∧
    (c.Length > 0 ∨ c.Length2 ≤ 0 →
        (SqlType c).1 = SqlType.specLengths B c.Length c.Length2) := by
  rw [SqlType_general_fst c B h]
  simp only [SqlType.specLengths]
  refine ⟨?_, ?_, ?_, ?_⟩
  · intro h2
    simp only [h2, if_true]
  · intro h2 h1
    simp only [not_lt.mpr h2, h1, if_true, if_false]
  · intro h2 h1
    simp only [not_lt.mpr h2, not_lt.mpr h1, if_false]
  · intro h12
    by_cases h2 : c.Length2 > 0
    · have h1 : c.Length > 0 := by omega
      simp only [h1, h2, and_self, if_true]
    · by_cases h1 : c.Length > 0 <;> simp only [h1, h2, and_false, if_true, if_false]

/-- Witness of C3 as amended: a `VARCHAR` column of length 255. -/
theorem SqlType_general_length_rule_witness :
    (SqlType (columnOf core.Varchar 255 0)).1 = bytes "VARCHAR2(255)" :=
  (SqlType_general_length_rule (columnOf core.Varchar 255 0) (bytes "VARCHAR2")
    (by decide)).2.1 (by decide) (by decide)

/-- C3, counterexample.  A `VARCHAR` column with `Length = 0` and
`Length2 = 5` is rendered with the suffix `(0,5)`, where the spec's rule has no
suffix. -/
theorem SqlType_general_length_rule_counterexample :
    SqlType.generalBase (columnOf core.Varchar 0 5).SQLType.Name = some (bytes "VARCHAR2") ∧
    (SqlType (columnOf core.Varchar 0 5)).1 = bytes "VARCHAR2(0,5)" ∧
    SqlType.specLengths (bytes "VARCHAR2") 0 5 = bytes "VARCHAR2" ∧
    (SqlType (columnOf core.Varchar 0 5)).1 ≠ SqlType.specLengths (bytes "VARCHAR2") 0 5 := by
  decide

/-- C4, the code at the failing input.  A `BINARY` column with a non-zero
length leaves the switch with an empty base name, so the result is the bare
length suffix: `(10)` for `Length = 10`, and the empty string for a negative
length.  The zero-length `BINARY` column and the other binary variants do get a
native binary name. -/
theorem SqlType_Binary_with_length :
    (SqlType (columnOf core.Binary 10 0)).1 = bytes "(10)" ∧
    (SqlType (columnOf core.Binary 10 2)).1 = bytes "(10,2)" ∧
    (SqlType (columnOf core.Binary (-1) 0)).1 = bytes "" ∧
    (SqlType (columnOf core.Binary 0 0)).1 = bytes "BINARY(MAX)" ∧
    (SqlType (columnOf core.VarBinary 10 0)).1 = bytes "VARBINARY" ∧
    (SqlType (columnOf core.Blob 10 0)).1 = bytes "VARBINARY" := by
  decide

/-- C6, as amended.  `SqlType` leaves the column unchanged unless its type is
`UUID`, for which it sets `Length` to 40 and nothing else; a second call on the
column as the first call left it returns the same string and leaves the same
column. -/
theorem SqlType_frame (c : core.Column) :
    (c.SQLType.Name ≠ core.Uuid → (SqlType c).2 = c) ∧
    (c.SQLType.Name = core.Uuid → (SqlType c).2 = { c with Length := 40 }) ∧
    (SqlType (SqlType c).2).1 = (SqlType c).1 ∧
    (SqlType (SqlType c).2).2 = (SqlType c).2 := by
  refine ⟨SqlType_column_of_ne_Uuid c, ?_, ?_, ?_⟩
  · intro h
    rw [SqlType_of_Uuid c h]
  · by_cases h : c.SQLType.Name = core.Uuid
    · rw [SqlType_of_Uuid c h, SqlType_of_Uuid { c with Length := 40 } h]
    · rw [SqlType_column_of_ne_Uuid c h]
  · by_cases h : c.SQLType.Name = core.Uuid
    · rw [SqlType_of_Uuid c h, SqlType_of_Uuid { c with Length := 40 } h]
    · rw [SqlType_column_of_ne_Uuid c h]
      exact SqlType_column_of_ne_Uuid c h

/-- Witness of C6 as amended: an `INTEGER` column is left as it was, a `UUID`
column gets `Length = 40`. -/
theorem SqlType_frame_witness :
    (SqlType (columnOf core.Integer 7 3)).2 = columnOf core.Integer 7 3 ∧
    (SqlType (columnOf core.Uuid 0 0)).2 = columnOf core.Uuid 40 0 :=
  ⟨(SqlType_frame (columnOf core.Integer 7 3)).1 (by decide),
   (SqlType_frame (columnOf core.Uuid 0 0)).2.1 (by decide)⟩

/-- C6, counterexample.  On a `UUID` column with `Length = 0` the call returns
`VARCHAR(40)` and leaves the column with `Length = 40`. -/
theorem SqlType_frame_counterexample :
    SqlType (columnOf core.Uuid 0 0) = (bytes "VARCHAR(40)", columnOf core.Uuid 40 0) ∧
    (SqlType (columnOf core.Uuid 0 0)).2.Length ≠ (columnOf core.Uuid 0 0).Length := by
  decide

/-- C7, as amended.  A column of type `BIT`, `BOOL` or `BOOLEAN` is rendered
`BIT`; of the integer variants, `TINYINT` is rendered `TINYINT`, the types
`SMALLINT`, `MEDIUMINT`, `INT`, `INTEGER` and `UNSIGNED TINYINT` are rendered
`INTEGER`, and `BIGINT`, `UNSIGNED BIGINT`, `UNSIGNED BIT`, `UNSIGNED INT`,
`SERIAL` and `BIGSERIAL` are rendered `BIGINT`; the lengths play no part and
the column is left as it was. -/
theorem SqlType_boolean_and_integer (c : core.Column) :
    (c.SQLType.Name = core.Bit ∨ c.SQLType.Name = core.Bool ∨ c.SQLType.Name = core.Boolean →
        SqlType c = (bytes "BIT", c)) ∧
    (c.SQLType.Name = core.TinyInt → SqlType c = (bytes "TINYINT", c)) ∧
    (c.SQLType.Name = core.SmallInt ∨ c.SQLType.Name = core.MediumInt
        ∨ c.SQLType.Name = core.Int ∨ c.SQLType.Name = core.Integer
        ∨ c.SQLType.Name = core.UnsignedTinyInt →
        SqlType c = (bytes "INTEGER", c)) ∧
    (c.SQLType.Name = core.BigInt ∨ c.SQLType.Name = core.UnsignedBigInt
        ∨ c.SQLType.Name = core.UnsignedBit ∨ c.SQLType.Name = core.UnsignedInt
        ∨ c.SQLType.Name = core.Serial ∨ c.SQLType.Name = core.BigSerial →
        SqlType c = (bytes "BIGINT", c)) := by
  obtain ⟨n, ⟨t, d1, d2⟩, l, l2, nu, de, ix, pk, ai, die, cm⟩ := c
  refine ⟨?_, ?_, ?_, ?_⟩
  · rintro (rfl | rfl | rfl) <;> rfl
  · rintro rfl; rfl
  · rintro (rfl | rfl | rfl | rfl | rfl) <;> rfl
  · rintro (rfl | rfl | rfl | rfl | rfl | rfl) <;> rfl

/-- Witness of C7 as amended: a `BOOLEAN` column and a `SERIAL` column, both
with lengths set. -/
theorem SqlType_boolean_and_integer_witness :
    (SqlType (columnOf core.Boolean 3 1)).1 = bytes "BIT" ∧
    (SqlType (columnOf core.Serial 3 1)).1 = bytes "BIGINT" :=
  ⟨congrArg Prod.fst
      ((SqlType_boolean_and_integer (columnOf core.Boolean 3 1)).1 (by decide)),
   congrArg Prod.fst
      ((SqlType_boolean_and_integer (columnOf core.Serial 3 1)).2.2.2 (by decide))⟩

/-- C7, counterexample.  A `TINYINT` column is rendered `TINYINT`, which is
neither `INTEGER` nor `BIGINT`. -/
theorem SqlType_boolean_and_integer_counterexample :
    (SqlType (columnOf core.TinyInt 0 0)).1 = bytes "TINYINT" ∧
    (SqlType (columnOf core.TinyInt 0 0)).1 ≠ bytes "INTEGER" ∧
    (SqlType (columnOf core.TinyInt 0 0)).1 ≠ bytes "BIGINT" := by
  decide

/-- C8, as amended.  `DATE` is rendered `DATE`; `TIME` is rendered `TIME(n)`
for `Length = n > 0` and `TIME` otherwise; `DATETIME` and `TIMESTAMP` are
rendered `TIMESTAMP` followed by the general length suffix, which is nothing
when neither length is positive, `(n)` for `Length = n > 0` with
`Length2 ≤ 0`, and `(Length,Length2)` whenever `Length2 > 0`; `TIMESTAMPZ` is
rendered `TIMESTAMP(n) WITH TIME ZONE` for `Length = n > 0` and
`TIMESTAMP WITH TIME ZONE` otherwise. -/
theorem SqlType_date_time (c : core.Column) :
    (c.SQLType.Name = core.Date → (SqlType c).1 = bytes "DATE") ∧
    (c.SQLType.Name = core.Time → c.Length > 0 →
        (SqlType c).1 = bytes "TIME(" ++ strconv.Itoa c.Length ++ bytes ")") ∧
    (c.SQLType.Name = core.Time → c.Length ≤ 0 → (SqlType c).1 = bytes "TIME") ∧
    (c.SQLType.Name = core.DateTime ∨ c.SQLType.Name = core.TimeStamp →
        c.Length2 ≤ 0 → c.Length ≤ 0 → (SqlType c).1 = bytes "TIMESTAMP") ∧
    (c.SQLType.Name = core.DateTime ∨ c.SQLType.Name = core.TimeStamp →
        c.Length2 ≤ 0 → c.Length > 0 →
        (SqlType c).1 = bytes "TIMESTAMP(" ++ strconv.Itoa c.Length ++ bytes ")") ∧
    (c.SQLType.Name = core.DateTime ∨ c.SQLType.Name = core.TimeStamp →
        c.Length2 > 0 →
        (SqlType c).1 = bytes "TIMESTAMP(" ++ strconv.Itoa c.Length ++ bytes ","
          ++ strconv.Itoa c.Length2 ++ bytes ")") ∧
    (c.SQLType.Name = core.TimeStampz → c.Length > 0 →
        (SqlType c).1 = bytes "TIMESTAMP(" ++ strconv.Itoa c.Length
          ++ bytes ") WITH TIME ZONE") ∧
    (c.SQLType.Name = core.TimeStampz → c.Length ≤ 0 →
        (SqlType c).1 = bytes "TIMESTAMP WITH TIME ZONE") := by
  have eTime : core.Time ++ bytes "(" = bytes "TIME(" := by decide
  have eStamp : bytes "TIMESTAMP" ++ bytes "(" = bytes "TIMESTAMP(" := by decide
  have hStamp : c.SQLType.Name = core.DateTime ∨ c.SQLType.Name = core.TimeStamp →
      SqlType.generalBase c.SQLType.Name = some (bytes "TIMESTAMP") := by
    rintro (h | h) <;> rw [h] <;> decide
  refine ⟨?_, ?_, ?_, ?_, ?_, ?_, ?_, ?_⟩
  · intro h
    obtain ⟨n, ⟨t, d1, d2⟩, l, l2, nu, de, ix, pk, ai, die, cm⟩ := c
    simp only at h
    subst h
    rfl
  · intro h hl
    rw [SqlType_of_Time c h, if_pos hl, eTime]
  · intro h hl
    rw [SqlType_of_Time c h, if_neg (not_lt.mpr hl)]
    rfl
  · intro h h2 h1
    rw [SqlType_general_fst c _ (hStamp h), if_neg (not_lt.mpr h2), if_neg (not_lt.mpr h1)]
  · intro h h2 h1
    rw [SqlType_general_fst c _ (hStamp h), if_neg (not_lt.mpr h2), if_pos h1, eStamp]
  · intro h h2
    rw [SqlType_general_fst c _ (hStamp h), if_pos h2, eStamp]
  · intro h hl
    rw [SqlType_of_TimeStampz c h, if_pos hl]
  · intro h hl
    rw [SqlType_of_TimeStampz c h, if_neg (not_lt.mpr hl)]

/-- Witness of C8 as amended: `TIME(6)`, `TIMESTAMP(3)` and
`TIMESTAMP(6) WITH TIME ZONE`. -/
theorem SqlType_date_time_witness :
    (SqlType (columnOf core.Time 6 0)).1 = bytes "TIME(6)" ∧
    (SqlType (columnOf core.DateTime 3 0)).1 = bytes "TIMESTAMP(3)" ∧
    (SqlType (columnOf core.TimeStampz 6 0)).1 = bytes "TIMESTAMP(6) WITH TIME ZONE" :=
  ⟨(SqlType_date_time (columnOf core.Time 6 0)).2.1 (by decide) (by decide),
   (SqlType_date_time (columnOf core.DateTime 3 0)).2.2.2.2.1 (by decide) (by decide)
      (by decide),
   (SqlType_date_time (columnOf core.TimeStampz 6 0)).2.2.2.2.2.2.1 (by decide) (by decide)⟩

/-- C8, counterexample.  A `DATETIME` column with `Length = 0` and
`Length2 = 3` is rendered `TIMESTAMP(0,3)`: two lengths, not a single
fractional-second length. -/
theorem SqlType_date_time_counterexample :
    (SqlType (columnOf core.DateTime 0 3)).1 = bytes "TIMESTAMP(0,3)" ∧
    (SqlType (columnOf core.DateTime 0 3)).1 ≠ bytes "TIMESTAMP" ∧
    (SqlType (columnOf core.TimeStamp 6 3)).1 = bytes "TIMESTAMP(6,3)" ∧
    (SqlType (columnOf core.TimeStamp 6 3)).1 ≠ bytes "TIMESTAMP(6)" := by
  decide

/-- C9.  A column whose type name is listed by no case of the switch, with
both lengths 0, is rendered as its type name unchanged and is left as it was;
`SqlType` is a total function, so an unknown name is never an error. -/
theorem SqlType_unknown_passthrough (c : core.Column)
    (h : c.SQLType.Name ∉ SqlType.caseNames) (h1 : c.Length = 0) (h2 : c.Length2 = 0) :
    SqlType c = (c.SQLType.Name, c) := by
  rw [SqlType_default c h, SqlType.lengths_eq, h1, h2]
  rfl

/-- Witness of C9: the unknown type name `GEOMETRY`. -/
theorem SqlType_unknown_passthrough_witness :
    SqlType (columnOf (bytes "GEOMETRY") 0 0)
      = (bytes "GEOMETRY", columnOf (bytes "GEOMETRY") 0 0) :=
  SqlType_unknown_passthrough (columnOf (bytes "GEOMETRY") 0 0) (by decide) rfl rfl

/-! ## Large-text scan target -/

/-- C10, as amended.  `Scan` ends with `valid = true` and the payload as data
for every non-nil byte slice, for every non-empty string, and for a handle
that reports a non-zero length and whose read succeeds; for a handle that
reports length 0 it ends with `valid = true` and the data it had, which is
empty for a fresh scanner.  A null value, a nil byte slice and the empty
string return no error and leave the scanner as it was. -/
theorem Scan_normalises (d : dmClobScanner) :
    (∀ b, d.Scan (.byteSlice (some b)) = (none, { valid := true, data := b })) ∧
    (∀ s, s ≠ [] → d.Scan (.string s) = (none, { valid := true, data := s })) ∧
    (∀ (t : dmClobObject) (l : Int) (s : GoString),
        t.GetLength = (l, none) → l ≠ 0 → t.ReadString 1 l = (s, none) →
        d.Scan (.clob t) = (none, { valid := true, data := s })) ∧
    (∀ t : dmClobObject, t.GetLength = (0, none) →
        d.Scan (.clob t) = (none, { valid := true, data := d.data })) ∧
    (∀ t : dmClobObject, t.GetLength = (0, none) →
        dmClobScanner.fresh.Scan (.clob t) = (none, { valid := true, data := [] })) ∧
    d.Scan .null = (none, d) ∧
    d.Scan (.byteSlice none) = (none, d) ∧
    d.Scan (.string []) = (none, d) := by
  refine ⟨fun b => rfl, ?_, ?_, ?_, ?_, rfl, rfl, rfl⟩
  · intro s hs
    cases s with
    | nil => exact absurd rfl hs
    | cons x xs => rfl
  · intro t l s hl hl0 hr
    simp only [dmClobScanner.Scan, hl, hl0, hr, if_false]
  · intro t hl
    simp only [dmClobScanner.Scan, hl, if_true]
  · intro t hl
    simp only [dmClobScanner.Scan, hl, if_true, dmClobScanner.fresh]

/-- Witness of C10 as amended: a non-empty string, and handles of length 5
and 0, on a fresh scanner. -/
theorem Scan_normalises_witness :
    dmClobScanner.fresh.Scan (.string (bytes "abc")) = (none, ⟨true, bytes "abc"⟩) ∧
    dmClobScanner.fresh.Scan (.clob ⟨(5, none), fun _ _ => (bytes "hello", none)⟩)
      = (none, ⟨true, bytes "hello"⟩) ∧
    dmClobScanner.fresh.Scan (.clob ⟨(0, none), fun _ _ => (bytes "", none)⟩)
      = (none, ⟨true, bytes ""⟩) :=
  ⟨(Scan_normalises dmClobScanner.fresh).2.1 (bytes "abc") (by decide),
   (Scan_normalises dmClobScanner.fresh).2.2.1
      ⟨(5, none), fun _ _ => (bytes "hello", none)⟩ 5 (bytes "hello") rfl (by decide) rfl,
   (Scan_normalises dmClobScanner.fresh).2.2.2.1
      ⟨(0, none), fun _ _ => (bytes "", none)⟩ rfl⟩

/-- C10, counterexample.  The empty string leaves a fresh scanner invalid,
and so does a nil byte slice. -/
theorem Scan_normalises_counterexample :
    dmClobScanner.fresh.Scan (.string (bytes "")) = (none, ⟨false, bytes ""⟩) ∧
    (dmClobScanner.fresh.Scan (.string (bytes ""))).2.valid = false ∧
    (dmClobScanner.fresh.Scan (.byteSlice none)).2.valid = false := by
  decide

/-! ## Lemmas on decimal numbers and splitting -/

theorem strconv.formatDigits_digits :
    ∀ (fuel n : Nat) (acc : GoString), (∀ b ∈ acc, 48 ≤ b ∧ b ≤ 57) →
      ∀ b ∈ strconv.formatDigits fuel n acc, 48 ≤ b ∧ b ≤ 57
  | 0, _, _, hacc => by simpa [strconv.formatDigits] using hacc
  | fuel + 1, n, acc, hacc => by
    have hcons : ∀ b ∈ (48 + n % 10) :: acc, 48 ≤ b ∧ b ≤ 57 := by
      intro b hb
      rcases List.mem_cons.mp hb with rfl | hb
      · omega
      · exact hacc b hb
    unfold strconv.formatDigits
    split_ifs
    · exact hcons
    · exact strconv.formatDigits_digits fuel (n / 10) _ hcons

theorem strconv.formatDigits_ne_nil :
    ∀ (fuel n : Nat) (acc : GoString), 0 < fuel ∨ acc ≠ [] →
      strconv.formatDigits fuel n acc ≠ []
  | 0, _, _, h => by
    rcases h with h | h
    · omega
    · simpa [strconv.formatDigits] using h
  | fuel + 1, n, acc, _ => by
    unfold strconv.formatDigits
    split_ifs
    · exact List.cons_ne_nil _ _
    · exact strconv.formatDigits_ne_nil fuel (n / 10) _ (Or.inr (List.cons_ne_nil _ _))

theorem strconv.parseUintLoop_formatDigits :
    ∀ (fuel n : Nat) (acc : GoString), n < fuel → n < 2 ^ 64 →
      strconv.parseUintLoop (strconv.formatDigits fuel n acc) 0 = strconv.parseUintLoop acc n
  | 0, _, _, h, _ => by omega
  | fuel + 1, n, acc, h, hn => by
    unfold strconv.formatDigits
    split_ifs with h0
    · have hlt : n < 10 := by omega
      have hc : ¬ ¬ (48 ≤ 48 + n % 10 ∧ 48 + n % 10 ≤ 57) := by omega
      have h1 : ¬ (0 ≥ (2 ^ 64 - 1) / 10 + 1) := by norm_num
      have e : 0 * 10 + (48 + n % 10 - 48) = n := by omega
      have h2 : ¬ (n > 2 ^ 64 - 1) := by omega
      simp only [strconv.parseUintLoop, hc, if_false, h1, e, h2]
    · have hlt : n / 10 < fuel := by omega
      rw [strconv.parseUintLoop_formatDigits fuel (n / 10) _ hlt (by omega)]
      have hc : ¬ ¬ (48 ≤ 48 + n % 10 ∧ 48 + n % 10 ≤ 57) := by omega
      have h1 : ¬ (n / 10 ≥ (2 ^ 64 - 1) / 10 + 1) := by omega
      have e : n / 10 * 10 + (48 + n % 10 - 48) = n := by omega
      have h2 : ¬ (n > 2 ^ 64 - 1) := by omega
      simp only [strconv.parseUintLoop, hc, if_false, h1, e, h2]

theorem strconv.Itoa_digits (n : Int) (h : 0 ≤ n) :
    strconv.Itoa n ≠ [] ∧ ∀ b ∈ strconv.Itoa n, 48 ≤ b ∧ b ≤ 57 := by
  have hn : ¬ n < 0 := by omega
  simp only [strconv.Itoa, hn, if_false]
  exact ⟨strconv.formatDigits_ne_nil _ _ _ (Or.inl (by omega)),
    strconv.formatDigits_digits _ _ _ (by simp)⟩

theorem strconv.Atoi_Itoa (n : Int) (h0 : 0 ≤ n) (h1 : n < 2 ^ 63) :
    strconv.Atoi (strconv.Itoa n) = (n, false) := by
  obtain ⟨hne, hd⟩ := strconv.Itoa_digits n h0
  have hn : ¬ n < 0 := by omega
  have hp : strconv.parseUintLoop (strconv.Itoa n) 0 = some (some n.natAbs) := by
    simp only [strconv.Itoa, hn, if_false]
    rw [strconv.parseUintLoop_formatDigits _ _ _ (by omega) (by omega)]
    rfl
  cases hs : strconv.Itoa n with
  | nil => exact absurd hs hne
  | cons x xs =>
    have hx : 48 ≤ x ∧ x ≤ 57 := hd x (by rw [hs]; exact List.mem_cons_self _ _)
    have e43 : ¬ x = 43 := by omega
    have e45 : ¬ x = 45 := by omega
    rw [hs] at hp
    have hun : ¬ (n.natAbs ≥ 2 ^ 63) := by omega
    have hcast : ((n.natAbs : Nat) : Int) = n := by omega
    simp [strconv.Atoi, e43, e45, hp, hun, hcast]
    omega

theorem strings.Split_of_not_mem :
    ∀ (a : GoString) (sep : Nat), sep ∉ a → strings.Split a sep = [a]
  | [], _, _ => rfl
  | c :: cs, sep, h => by
    have hc : ¬ c = sep := fun e => h (by rw [e]; exact List.mem_cons_self _ _)
    have hcs : sep ∉ cs := fun e => h (List.mem_cons_of_mem _ e)
    simp only [strings.Split, hc, if_false, strings.Split_of_not_mem cs sep hcs]

theorem strings.Split_append :
    ∀ (a b : GoString) (sep : Nat), sep ∉ a →
      strings.Split (a ++ sep :: b) sep = a :: strings.Split b sep
  | [], b, sep, _ => by simp [strings.Split]
  | c :: cs, b, sep, h => by
    have hc : ¬ c = sep := fun e => h (by rw [e]; exact List.mem_cons_self _ _)
    have hcs : sep ∉ cs := fun e => h (List.mem_cons_of_mem _ e)
    rw [List.cons_append, strings.Split, if_neg hc, strings.Split_append cs b sep hcs]

theorem GetColumns.decompose_one_length (B D : GoString) (hB : 40 ∉ B)
    (hD : ∀ b ∈ D, 48 ≤ b ∧ b ≤ 57) :
    GetColumns.decompose (B ++ bytes "(" ++ D ++ bytes ")")
      = some (B, (strconv.Atoi D).1, 0) := by
  have e1 : B ++ bytes "(" ++ D ++ bytes ")" = B ++ 40 :: (D ++ [41]) := by
    simp [show bytes "(" = [40] from rfl, show bytes ")" = [41] from rfl]
  have h40 : 40 ∉ D ++ [41] := by
    intro h
    rcases List.mem_append.mp h with h | h
    · have := hD 40 h; omega
    · simp at h
  have h44 : 44 ∉ D := fun h => by have := hD 44 h; omega
  have hlen : ¬ (D ++ [41]).length = 0 := by simp
  simp only [GetColumns.decompose, e1, strings.Split_append B _ 40 hB,
    strings.Split_of_not_mem _ 40 h40, hlen, if_false, List.dropLast_concat,
    strings.Split_of_not_mem _ 44 h44]

theorem GetColumns.decompose_two_lengths (B D1 D2 : GoString) (hB : 40 ∉ B)
    (hD1 : ∀ b ∈ D1, 48 ≤ b ∧ b ≤ 57) (hD2 : ∀ b ∈ D2, 48 ≤ b ∧ b ≤ 57) :
    GetColumns.decompose (B ++ bytes "(" ++ D1 ++ bytes "," ++ D2 ++ bytes ")")
      = some (B, (strconv.Atoi D1).1, (strconv.Atoi D2).1) := by
  have e1 : B ++ bytes "(" ++ D1 ++ bytes "," ++ D2 ++ bytes ")"
      = B ++ 40 :: ((D1 ++ 44 :: D2) ++ [41]) := by
    simp [show bytes "(" = [40] from rfl, show bytes ")" = [41] from rfl,
      show bytes "," = [44] from rfl]
  have h40 : 40 ∉ (D1 ++ 44 :: D2) ++ [41] := by
    intro h
    simp only [List.mem_append, List.mem_cons, List.mem_singleton, List.not_mem_nil,
      or_false] at h
    rcases h with (h | h | h) | h
    · have := hD1 40 h; omega
    · omega
    · have := hD2 40 h; omega
    · omega
  have h44a : 44 ∉ D1 := fun h => by have := hD1 44 h; omega
  have h44b : 44 ∉ D2 := fun h => by have := hD2 44 h; omega
  have hlen : ¬ ((D1 ++ 44 :: D2) ++ [41]).length = 0 := by simp
  simp only [GetColumns.decompose, e1, strings.Split_append B _ 40 hB,
    strings.Split_of_not_mem _ 40 h40, hlen, if_false, List.dropLast_concat,
    strings.Split_append D1 D2 44 h44a, strings.Split_of_not_mem _ 44 h44b]

/-! ## Round trip between generation and introspection -/

theorem GetColumns.introspect_representative (u : Unicode) :
    GetColumns.introspect u (SqlType (columnOf core.Integer 0 0)).1
      = some (some ⟨core.Integer, 0, 0⟩) ∧
    (∀ n : Int, 0 < n → n < 2 ^ 63 →
      GetColumns.introspect u (SqlType (columnOf core.Varchar n 0)).1
        = some (some ⟨core.Varchar, n, 0⟩)) ∧
    (∀ p s : Int, 0 < p → p < 2 ^ 63 → 0 < s → s < 2 ^ 63 →
      GetColumns.introspect u (SqlType (columnOf core.Numeric p s)).1
        = some (some ⟨core.Numeric, p, s⟩)) ∧
    GetColumns.introspect u (SqlType (columnOf core.TimeStamp 0 0)).1
      = some (some ⟨core.TimeStamp, 0, 0⟩) ∧
    (∀ n : Int, 0 < n → n < 2 ^ 63 →
      GetColumns.introspect u (SqlType (columnOf core.TimeStamp n 0)).1
        = some (some ⟨core.TimeStamp, n, 0⟩)) ∧
    GetColumns.introspect u (SqlType (columnOf core.TimeStampz 0 0)).1
      = some (some ⟨core.TimeStampz, 0, 0⟩) := by
  refine ⟨rfl, ?_, ?_, rfl, ?_, rfl⟩
  · intro n h0 h1
    have hs : (SqlType (columnOf core.Varchar n 0)).1
        = bytes "VARCHAR2" ++ bytes "(" ++ strconv.Itoa n ++ bytes ")" := by
      rw [SqlType_general_fst (columnOf core.Varchar n 0) (bytes "VARCHAR2") rfl]
      exact (if_neg (lt_irrefl (0 : Int))).trans (if_pos h0)
    rw [GetColumns.introspect, hs]
    rw [GetColumns.decompose_one_length _ _ (by decide) (strconv.Itoa_digits n (le_of_lt h0)).2,
      strconv.Atoi_Itoa n (le_of_lt h0) h1]
    rfl
  · intro p s hp0 hp1 hs0 hs1
    have hs : (SqlType (columnOf core.Numeric p s)).1
        = bytes "NUMERIC" ++ bytes "(" ++ strconv.Itoa p ++ bytes "," ++ strconv.Itoa s
          ++ bytes ")" := by
      rw [SqlType_general_fst (columnOf core.Numeric p s) (bytes "NUMERIC") rfl]
      exact if_pos hs0
    rw [GetColumns.introspect, hs]
    rw [GetColumns.decompose_two_lengths _ _ _ (by decide)
        (strconv.Itoa_digits p (le_of_lt hp0)).2 (strconv.Itoa_digits s (le_of_lt hs0)).2,
      strconv.Atoi_Itoa p (le_of_lt hp0) hp1, strconv.Atoi_Itoa s (le_of_lt hs0) hs1]
    rfl
  · intro n h0 h1
    have hs : (SqlType (columnOf core.TimeStamp n 0)).1
        = bytes "TIMESTAMP" ++ bytes "(" ++ strconv.Itoa n ++ bytes ")" := by
      rw [SqlType_general_fst (columnOf core.TimeStamp n 0) (bytes "TIMESTAMP") rfl]
      exact (if_neg (lt_irrefl (0 : Int))).trans (if_pos h0)
    rw [GetColumns.introspect, hs]
    rw [GetColumns.decompose_one_length _ _ (by decide) (strconv.Itoa_digits n (le_of_lt h0)).2,
      strconv.Atoi_Itoa n (le_of_lt h0) h1]
    rfl

theorem roundTrips_of_introspect (u : Unicode) (c : core.Column)
    (h : GetColumns.introspect u (SqlType c).1
      = some (some ⟨c.SQLType.Name, c.Length, c.Length2⟩)) :
    roundTrips u c = true := by
  simp [roundTrips, h]

/-- C5, as amended.  The round trip holds on the representative columns
`INTEGER`, `VARCHAR` with a length `n > 0`, `NUMERIC` with precision `p > 0`
and scale `s > 0`, `TIMESTAMP` with and without a fractional-second length,
and `TIMESTAMPZ` without one: the string `SqlType` produces, decomposed and
reverse-mapped as `GetColumns` does, gives back the same abstract type name and
both lengths.  Lengths range over the 64-bit Go `int`. -/
theorem roundtrip_representative (u : Unicode) :
    roundTrips u (columnOf core.Integer 0 0) = true ∧
    (∀ n : Int, 0 < n → n < 2 ^ 63 → roundTrips u (columnOf core.Varchar n 0) = true) ∧
    (∀ p s : Int, 0 < p → p < 2 ^ 63 → 0 < s → s < 2 ^ 63 →
      roundTrips u (columnOf core.Numeric p s) = true) ∧
    roundTrips u (columnOf core.TimeStamp 0 0) = true ∧
    (∀ n : Int, 0 < n → n < 2 ^ 63 → roundTrips u (columnOf core.TimeStamp n 0) = true) ∧
    roundTrips u (columnOf core.TimeStampz 0 0) = true := by
  obtain ⟨h1, h2, h3, h4, h5, h6⟩ := GetColumns.introspect_representative u
  refine ⟨roundTrips_of_introspect u _ h1, ?_, ?_, roundTrips_of_introspect u _ h4, ?_,
    roundTrips_of_introspect u _ h6⟩
  · intro n h0 hn
    exact roundTrips_of_introspect u _ (h2 n h0 hn)
  · intro p s hp0 hp1 hs0 hs1
    exact roundTrips_of_introspect u _ (h3 p s hp0 hp1 hs0 hs1)
  · intro n h0 hn
    exact roundTrips_of_introspect u _ (h5 n h0 hn)

/-- Witness of C5 as amended: `VARCHAR2(255)`, `NUMERIC(10,2)` and
`TIMESTAMP(6)` round-trip. -/
theorem roundtrip_representative_witness :
    roundTrips ⟨id, id⟩ (columnOf core.Varchar 255 0) = true ∧
    roundTrips ⟨id, id⟩ (columnOf core.Numeric 10 2) = true ∧
    roundTrips ⟨id, id⟩ (columnOf core.TimeStamp 6 0) = true :=
  ⟨(roundtrip_representative ⟨id, id⟩).2.1 255 (by decide) (by decide),
   (roundtrip_representative ⟨id, id⟩).2.2.1 10 2 (by decide) (by decide) (by decide)
      (by decide),
   (roundtrip_representative ⟨id, id⟩).2.2.2.2.1 6 (by decide) (by decide)⟩

/-- C5, counterexample.  A `TIMESTAMPZ` column with `Length = 6` does not
round-trip.  It is rendered `TIMESTAMP(6) WITH TIME ZONE`; the decomposition
splits that at `(`, strips the last byte of `6) WITH TIME ZONE` (the `E`, not
the `)`), and reads the rest as one unparsable length, so it gives the base
name `TIMESTAMP` with lengths 0 and 0.  The reverse mapping then recovers
`TIMESTAMP`, which `SqlType` renders `TIMESTAMP`, not
`TIMESTAMP WITH TIME ZONE`, and the length 6 is lost. -/
theorem roundtrip_TimeStampz_with_length :
    roundTrips ⟨id, id⟩ (columnOf core.TimeStampz 6 0) = false ∧
    (SqlType (columnOf core.TimeStampz 6 0)).1 = bytes "TIMESTAMP(6) WITH TIME ZONE" ∧
    strings.Split (bytes "TIMESTAMP(6) WITH TIME ZONE") 40
      = [bytes "TIMESTAMP", bytes "6) WITH TIME ZONE"] ∧
    strconv.Atoi (bytes "6) WITH TIME ZON") = (0, true) ∧
    GetColumns.decompose (bytes "TIMESTAMP(6) WITH TIME ZONE") = some (bytes "TIMESTAMP", 0, 0) ∧
    GetColumns.introspect ⟨id, id⟩ (SqlType (columnOf core.TimeStampz 6 0)).1
      = some (some ⟨core.TimeStamp, 0, 0⟩) ∧
    (SqlType (columnOf core.TimeStamp 0 0)).1 = bytes "TIMESTAMP" ∧
    (SqlType (columnOf core.TimeStampz 0 0)).1 = bytes "TIMESTAMP WITH TIME ZONE" := by
  decide

/-! ## Errors of the scan target -/

/-- C11.  `Scan` returns an error exactly when the value is of an unsupported
type (non-null and neither a handle, a byte slice nor a string), with a
message naming the type, or when a handle's `GetLength` fails, or its
`ReadString`, which runs for a non-zero length, fails; a null value, a byte
slice and a string never give an error.  In every error case the `valid` flag
is what it was, so it is false for a fresh scanner. -/
theorem Scan_error_cases (d : dmClobScanner) :
    (d.Scan .null).1 = none ∧
    (∀ b, (d.Scan (.byteSlice b)).1 = none) ∧
    (∀ s, (d.Scan (.string s)).1 = none) ∧
    (∀ typeName, (d.Scan (.other typeName)).1
        = some (bytes "cannot convert " ++ typeName ++ bytes " as dmClobScanner")) ∧
    (∀ t : dmClobObject, (d.Scan (.clob t)).1 ≠ none ↔
        (t.GetLength.2 ≠ none
          ∨ (t.GetLength.1 ≠ 0 ∧ (t.ReadString 1 t.GetLength.1).2 ≠ none))) ∧
    (∀ data, (d.Scan data).1 ≠ none → (d.Scan data).2.valid = d.valid) ∧
    (∀ data, (dmClobScanner.fresh.Scan data).1 ≠ none →
        (dmClobScanner.fresh.Scan data).2.valid = false) := by
  have hclob : ∀ (d : dmClobScanner) (t : dmClobObject),
      ((d.Scan (.clob t)).1 ≠ none ↔
        (t.GetLength.2 ≠ none
          ∨ (t.GetLength.1 ≠ 0 ∧ (t.ReadString 1 t.GetLength.1).2 ≠ none)))
      ∧ ((d.Scan (.clob t)).1 ≠ none → (d.Scan (.clob t)).2.valid = d.valid) := by
    intro d t
    rcases hl : t.GetLength with ⟨l, e⟩
    cases e with
    | some err => simp [dmClobScanner.Scan, hl]
    | none =>
      by_cases h0 : l = 0
      · simp [dmClobScanner.Scan, hl, h0]
      · rcases hr : t.ReadString 1 l with ⟨s, e2⟩
        cases e2 <;> simp [dmClobScanner.Scan, hl, h0, hr]
  have hvalid : ∀ (d : dmClobScanner) data,
      (d.Scan data).1 ≠ none → (d.Scan data).2.valid = d.valid := by
    intro d data h
    cases data with
    | null => rfl
    | clob t => exact (hclob d t).2 h
    | byteSlice b => cases b <;> simp [dmClobScanner.Scan] at h
    | string s =>
      simp only [dmClobScanner.Scan] at h
      split_ifs at h <;> simp at h
    | other typeName => rfl
  refine ⟨rfl, ?_, ?_, fun _ => rfl, fun t => (hclob d t).1, hvalid d, ?_⟩
  · intro b
    cases b <;> rfl
  · intro s
    simp only [dmClobScanner.Scan]
    split_ifs <;> rfl
  · intro data h
    exact hvalid dmClobScanner.fresh data h

/-- Witness of C11: a handle whose read fails, on a fresh scanner. -/
theorem Scan_error_cases_witness :
    (dmClobScanner.fresh.Scan
        (.clob ⟨(5, none), fun _ _ => (bytes "", some (bytes "read failed"))⟩)).1 ≠ none ∧
    (dmClobScanner.fresh.Scan
        (.clob ⟨(5, none), fun _ _ => (bytes "", some (bytes "read failed"))⟩)).2.valid
      = false :=
  ⟨((Scan_error_cases dmClobScanner.fresh).2.2.2.2.1
      ⟨(5, none), fun _ _ => (bytes "", some (bytes "read failed"))⟩).2
      (Or.inr ⟨by decide, by decide⟩),
   (Scan_error_cases dmClobScanner.fresh).2.2.2.2.2.2
      (.clob ⟨(5, none), fun _ _ => (bytes "", some (bytes "read failed"))⟩) (by decide)⟩

/-! ## Connection string parsing -/

/-- C12.  For a data source string that `url.Parse` accepts, `Parse` fails
with the error `user/password needed` exactly when the URL has no user-info
component, and then returns no descriptor; with user-info it returns no error
and a descriptor whose `User`, `Passwd`, `Host`, `Port` and `Proto` are the
user name, password, host name, port and scheme of the URL. -/
theorem Parse_credentials (urlParse : GoString → Except error url.URL)
    (driverName dataSourceName : GoString) (u : url.URL)
    (hp : urlParse dataSourceName = .ok u) :
    ((damengDriver.Parse urlParse driverName dataSourceName).2
        = some (bytes "user/password needed") ↔ u.User = none) ∧
    (u.User = none → damengDriver.Parse urlParse driverName dataSourceName
        = (none, some (bytes "user/password needed"))) ∧
    (∀ user, u.User = some user →
      ∃ uri, damengDriver.Parse urlParse driverName dataSourceName = (some uri, none)
        ∧ uri.User = user.username ∧ uri.Passwd = user.password
        ∧ uri.Host = u.Hostname ∧ uri.Port = u.Port ∧ uri.Proto = u.Scheme) := by
  cases hu : u.User with
  | none => simp [damengDriver.Parse, hp, hu]
  | some user => simp [damengDriver.Parse, hp, hu]

/-- Witness of C12: a URL with user-info. -/
theorem Parse_credentials_witness :
    ∃ uri, damengDriver.Parse
        (fun _ => .ok ⟨bytes "dm", some ⟨bytes "SYSDBA", bytes "secret", true⟩,
          bytes "localhost", bytes "5236", []⟩)
        (bytes "dm") (bytes "dm://SYSDBA:secret@localhost:5236") = (some uri, none)
      ∧ uri.User = bytes "SYSDBA" ∧ uri.Passwd = bytes "secret"
      ∧ uri.Host = bytes "localhost" ∧ uri.Port = bytes "5236" ∧ uri.Proto = bytes "dm" :=
  (Parse_credentials
    (fun _ => .ok ⟨bytes "dm", some ⟨bytes "SYSDBA", bytes "secret", true⟩,
      bytes "localhost", bytes "5236", []⟩)
    (bytes "dm") (bytes "dm://SYSDBA:secret@localhost:5236")
    ⟨bytes "dm", some ⟨bytes "SYSDBA", bytes "secret", true⟩, bytes "localhost",
      bytes "5236", []⟩ rfl).2.2 ⟨bytes "SYSDBA", bytes "secret", true⟩ rfl

/-- C13.  In every descriptor that `Parse` returns, `Schema` and `DbName` are
equal, and they are the value of the query parameter `schema` (what
`Query().Get("schema")` gives: the first value stored under that key) when it
is non-empty, and the user name otherwise, in particular when the parameter is
absent. -/
theorem Parse_schema (urlParse : GoString → Except error url.URL)
    (driverName dataSourceName : GoString) (u : url.URL) (user : url.Userinfo)
    (uri : core.Uri) (hp : urlParse dataSourceName = .ok u) (hu : u.User = some user)
    (hr : (damengDriver.Parse urlParse driverName dataSourceName).1 = some uri) :
    uri.Schema = uri.DbName ∧
    (url.Values.Get u.Query (bytes "schema") ≠ [] →
        uri.Schema = url.Values.Get u.Query (bytes "schema")) ∧
    (url.Values.Get u.Query (bytes "schema") = [] → uri.Schema = user.username) ∧
    (∀ v vs, u.Query.lookup (bytes "schema") = some (v :: vs) → v ≠ [] → uri.Schema = v) ∧
    (u.Query.lookup (bytes "schema") = none → uri.Schema = user.username) := by
  simp only [damengDriver.Parse, hp, hu, Option.some.injEq] at hr
  subst hr
  refine ⟨rfl, ?_, ?_, ?_, ?_⟩
  · intro h
    simp only [h, if_false]
  · intro h
    simp only [h, if_true]
  · intro v vs hl hv
    have hg : url.Values.Get u.Query (bytes "schema") = v := by
      simp only [url.Values.Get, hl]
    simp only [hg, hv, if_false]
  · intro hl
    have hg : url.Values.Get u.Query (bytes "schema") = [] := by
      simp only [url.Values.Get, hl]
    simp only [hg, if_true]

/-- Witness of C13: a URL with the query `schema=APP`; `Parse` returns the
descriptor shown, whose `Schema` is `APP`, not the user name `SYSDBA`. -/
theorem Parse_schema_witness :
    (damengDriver.Parse
      (fun _ => .ok ⟨bytes "dm", some ⟨bytes "SYSDBA", bytes "secret", true⟩,
        bytes "localhost", bytes "5236", [(bytes "schema", [bytes "APP"])]⟩)
      (bytes "dm") (bytes "dm://SYSDBA:secret@localhost:5236?schema=APP")).1
      = some ⟨core.DM, bytes "dm", bytes "localhost", bytes "5236", bytes "APP",
          bytes "SYSDBA", bytes "secret", bytes "APP"⟩ ∧
    (⟨core.DM, bytes "dm", bytes "localhost", bytes "5236", bytes "APP", bytes "SYSDBA",
      bytes "secret", bytes "APP"⟩ : core.Uri).Schema = bytes "APP" :=
  ⟨by decide,
   (Parse_schema
    (fun _ => .ok ⟨bytes "dm", some ⟨bytes "SYSDBA", bytes "secret", true⟩,
      bytes "localhost", bytes "5236", [(bytes "schema", [bytes "APP"])]⟩)
    (bytes "dm") (bytes "dm://SYSDBA:secret@localhost:5236?schema=APP")
    ⟨bytes "dm", some ⟨bytes "SYSDBA", bytes "secret", true⟩, bytes "localhost",
      bytes "5236", [(bytes "schema", [bytes "APP"])]⟩
    ⟨bytes "SYSDBA", bytes "secret", true⟩
    ⟨core.DM, bytes "dm", bytes "localhost", bytes "5236", bytes "APP", bytes "SYSDBA",
      bytes "secret", bytes "APP"⟩ rfl rfl (by decide)).2.2.2.1
    (bytes "APP") [] (by decide) (by decide)⟩

/-! ## DDL generation -/

theorem CreateTableSql.writeColumns_eq (h : core.Helpers) (n : Nat) :
    ∀ (cols : List core.Column) (i : Nat), i + cols.length = n →
      CreateTableSql.writeColumns h n i cols
        = (bytes ", ").intercalate
            (cols.map (fun col => h.ColumnString (CreateTableSql.coerce h col)))
  | [], _, _ => rfl
  | [col], i, hn => by
    have hi : ¬ ((i : Int) ≠ (n : Int) - 1) := by
      simp only [List.length_singleton] at hn
      omega
    simp [CreateTableSql.writeColumns, hi, List.intercalate]
  | col :: c2 :: rest, i, hn => by
    have hi : (i : Int) ≠ (n : Int) - 1 := by
      simp only [List.length_cons] at hn
      omega
    have ih := CreateTableSql.writeColumns_eq h n (c2 :: rest) (i + 1)
      (by simp only [List.length_cons] at hn ⊢; omega)
    rw [CreateTableSql.writeColumns, ih]
    simp [hi, List.intercalate]

theorem CreateTableSql.specPrimaryKeyClause_eq (table : core.Table) (name b : GoString) :
    (if table.PrimaryKeys.length > 0 then
      (if table.Columns.length > 0 then b ++ bytes ", " else b)
        ++ bytes "CONSTRAINT PK_" ++ name ++ bytes " PRIMARY KEY ("
        ++ util.Quoter.JoinWrite 34 34 table.PrimaryKeys (bytes ",") ++ bytes ")"
    else b) = b ++ CreateTableSql.specPrimaryKeyClause table name := by
  have hq : ∀ k : GoString, bytes "\"" ++ k ++ bytes "\"" = 34 :: k ++ [34] := fun _ => rfl
  cases hpk : table.PrimaryKeys with
  | nil => simp [CreateTableSql.specPrimaryKeyClause, hpk]
  | cons k ks =>
    cases hc : table.Columns with
    | nil =>
      simp [CreateTableSql.specPrimaryKeyClause, hpk, hc, util.Quoter.JoinWrite, hq]
    | cons c cs =>
      simp [CreateTableSql.specPrimaryKeyClause, hpk, hc, util.Quoter.JoinWrite, hq]

/-- C14.  `CreateTableSql` returns `create table `, the quoted name (the
table's own name when the argument is empty), ` (`, the rendered definitions of
the columns in declared order joined by `, `, the primary-key clause and `)`.
The primary-key clause is empty exactly when the primary-key list is empty;
otherwise it is `, ` (when the table has a column), `CONSTRAINT PK_`, the name,
` PRIMARY KEY (`, the primary-key names each in double quotes joined by `,` in
list order, and `)`.  For the columns `id` (primary key) and `name` the clause
lists only `id`. -/
theorem CreateTableSql_statement (h : core.Helpers) (u : Unicode) (table : core.Table)
    (tableName : GoString) :
    CreateTableSql h u table tableName
      = bytes "create table " ++ Quote u (if tableName = [] then table.Name else tableName)
        ++ bytes " ("
        ++ (bytes ", ").intercalate
            (table.Columns.map (fun col => h.ColumnString (CreateTableSql.coerce h col)))
        ++ CreateTableSql.specPrimaryKeyClause table
            (if tableName = [] then table.Name else tableName)
        ++ bytes ")" ∧
    (CreateTableSql.specPrimaryKeyClause table
        (if tableName = [] then table.Name else tableName) = [] ↔ table.PrimaryKeys = []) ∧
    (∀ idCol nameCol : core.Column, idCol.DefaultIsEmpty = true →
      nameCol.DefaultIsEmpty = true →
      CreateTableSql h u ⟨bytes "t", [idCol, nameCol], [bytes "id"]⟩ []
        = bytes "create table \"t\" (" ++ h.ColumnString idCol ++ bytes ", "
          ++ h.ColumnString nameCol ++ bytes ", CONSTRAINT PK_t PRIMARY KEY (\"id\"))") := by
  have main : ∀ (table : core.Table) (tableName : GoString),
      CreateTableSql h u table tableName
        = bytes "create table " ++ Quote u (if tableName = [] then table.Name else tableName)
          ++ bytes " ("
          ++ (bytes ", ").intercalate
              (table.Columns.map (fun col => h.ColumnString (CreateTableSql.coerce h col)))
          ++ CreateTableSql.specPrimaryKeyClause table
              (if tableName = [] then table.Name else tableName)
          ++ bytes ")" := by
    intro table tableName
    simp only [CreateTableSql]
    rw [CreateTableSql.specPrimaryKeyClause_eq,
      CreateTableSql.writeColumns_eq h _ table.Columns 0 (by simp)]
  refine ⟨main table tableName, ?_, ?_⟩
  · constructor
    · intro hc
      by_contra hpk
      simp only [CreateTableSql.specPrimaryKeyClause, hpk, if_false] at hc
      have := congrArg List.length hc
      simp at this
      exact absurd this.2.1 (by decide)
    · intro hpk
      simp only [CreateTableSql.specPrimaryKeyClause, hpk, if_true]
  · intro idCol nameCol h1 h2
    have e1 : CreateTableSql.coerce h idCol = idCol := by
      simp [CreateTableSql.coerce, h1]
    have e2 : CreateTableSql.coerce h nameCol = nameCol := by
      simp [CreateTableSql.coerce, h2]
    have q : Quote u (bytes "t") = bytes "\"t\"" := rfl
    rw [main]
    simp only [if_true, q, List.map_cons, List.map_nil, e1, e2,
      CreateTableSql.specPrimaryKeyClause, List.intercalate, List.intersperse,
      List.flatten, List.append_assoc, List.append_nil]
    rfl

/-- Witness of C14: the table `t` of the spec's example, rendered with the
stand-in for package `core`. -/
theorem CreateTableSql_statement_witness :
    CreateTableSql sampleHelpers ⟨id, id⟩
        ⟨bytes "t", [sampleIdColumn, sampleNameColumn], [bytes "id"]⟩ []
      = bytes "create table \"t\" (id INTEGER, name TEXT, CONSTRAINT PK_t PRIMARY KEY (\"id\"))" :=
  ((CreateTableSql_statement sampleHelpers ⟨id, id⟩ ⟨bytes "t", [], []⟩ []).2.2
    sampleIdColumn sampleNameColumn rfl rfl).trans (by decide)

theorem CreateTableSql.coerce_eq (h : core.Helpers) (col : core.Column) :
    CreateTableSql.coerce h col
      = { col with Default :=
            if h.IsBool col.SQLType = true ∧ col.DefaultIsEmpty = false then
              (if col.Default = bytes "true" then bytes "1"
               else if col.Default = bytes "false" then bytes "0"
               else col.Default)
            else col.Default } := by
  unfold CreateTableSql.coerce
  cases col
  dsimp only
  split_ifs <;> simp_all

theorem CreateTableSql.coerce_of_plain (h : core.Helpers) (col : core.Column)
    (hc : h.IsBool col.SQLType = false ∨ col.DefaultIsEmpty = true) :
    CreateTableSql.coerce h col = col := by
  unfold CreateTableSql.coerce
  rcases hc with hc | hc <;> simp [hc]

theorem CreateTableSql_rendering (h : core.Helpers) (u : Unicode) (table : core.Table)
    (tableName : GoString) :
    CreateTableSql h u table tableName
      = bytes "create table " ++ Quote u (if tableName = [] then table.Name else tableName)
        ++ bytes " ("
        ++ (bytes ", ").intercalate
            (table.Columns.map (fun col => h.ColumnString (CreateTableSql.coerce h col)))
        ++ CreateTableSql.specPrimaryKeyClause table
            (if tableName = [] then table.Name else tableName)
        ++ bytes ")" := by
  simp only [CreateTableSql]
  rw [CreateTableSql.specPrimaryKeyClause_eq,
    CreateTableSql.writeColumns_eq h _ table.Columns 0 (by simp)]

/-- C15.  `CreateTableSql` hands every column of the table, in declared order,
to the column rendering with this default: for a column of a boolean type that
has a default, `1` when the stored default is `true`, `0` when it is `false`,
and the stored default otherwise; for a non-boolean column and for a column
flagged as having no default, the stored default.  No other field of the column
is changed, and the statement is made of these renderings; so a table whose
columns are all non-boolean or without a default is rendered from its stored
columns. -/
theorem CreateTableSql_boolean_default (h : core.Helpers) (u : Unicode) (table : core.Table)
    (tableName : GoString) :
    CreateTableSql h u table tableName
      = bytes "create table " ++ Quote u (if tableName = [] then table.Name else tableName)
        ++ bytes " ("
        ++ (bytes ", ").intercalate
            (table.Columns.map (fun col => h.ColumnString
              { col with Default :=
                  if h.IsBool col.SQLType = true ∧ col.DefaultIsEmpty = false then
                    (if col.Default = bytes "true" then bytes "1"
                     else if col.Default = bytes "false" then bytes "0"
                     else col.Default)
                  else col.Default }))
        ++ CreateTableSql.specPrimaryKeyClause table
            (if tableName = [] then table.Name else tableName)
        ++ bytes ")"
    ∧ ((∀ col ∈ table.Columns, h.IsBool col.SQLType = false ∨ col.DefaultIsEmpty = true) →
      CreateTableSql h u table tableName
        = bytes "create table " ++ Quote u (if tableName = [] then table.Name else tableName)
          ++ bytes " ("
          ++ (bytes ", ").intercalate (table.Columns.map (fun col => h.ColumnString col))
          ++ CreateTableSql.specPrimaryKeyClause table
              (if tableName = [] then table.Name else tableName)
          ++ bytes ")") := by
  constructor
  · rw [CreateTableSql_rendering]
    simp only [CreateTableSql.coerce_eq]
  · intro hall
    rw [CreateTableSql_rendering]
    have hm : table.Columns.map (fun col => h.ColumnString (CreateTableSql.coerce h col))
        = table.Columns.map (fun col => h.ColumnString col) := by
      apply List.map_congr_left
      intro col hcol
      rw [CreateTableSql.coerce_of_plain h col (hall col hcol)]
    rw [hm]

/-- Witness of C15: the statement for a table whose columns all store `true`
or `false`, with a rendering that shows the default it is handed.  The boolean
columns `a` and `b` are rendered with `1` and `0`; the integer column `c` and
the boolean column `d`, which is flagged as having no default, with the stored
`true`.  A table with only the column `c` is rendered from its stored
column. -/
theorem CreateTableSql_boolean_default_witness :
    CreateTableSql sampleDefaultHelpers ⟨id, id⟩ sampleDefaultTable []
      = bytes "create table \"t\" (a DEFAULT 1, b DEFAULT 0, c DEFAULT true, d DEFAULT true)"
    ∧ CreateTableSql sampleDefaultHelpers ⟨id, id⟩
        ⟨bytes "t", [{ columnOf core.Integer 0 0 with Name := bytes "c", Default := bytes "true" }],
          []⟩ []
      = bytes "create table \"t\" (c DEFAULT true)" :=
  ⟨(CreateTableSql_boolean_default sampleDefaultHelpers ⟨id, id⟩ sampleDefaultTable []).1.trans
      (by decide),
   ((CreateTableSql_boolean_default sampleDefaultHelpers ⟨id, id⟩
        ⟨bytes "t", [{ columnOf core.Integer 0 0 with Name := bytes "c", Default := bytes "true" }],
          []⟩ []).2 (by decide)).trans (by decide)⟩

/-- C16, as amended.  `DropIndexSql` returns `DROP INDEX `, the quoted index
name, a dot and the quoted table name; the index name is the
convention-derived name `index.XName(tableName)` when the index is regular and
the stored name when it is not. -/
theorem DropIndexSql_statement (h : core.Helpers) (u : Unicode) (tableName : GoString)
    (index : core.Index) :
    (index.IsRegular = true → DropIndexSql h u tableName index
      = bytes "DROP INDEX " ++ Quote u (h.XName index tableName) ++ bytes "."
        ++ Quote u tableName) ∧
    (index.IsRegular = false → DropIndexSql h u tableName index
      = bytes "DROP INDEX " ++ Quote u index.Name ++ bytes "." ++ Quote u tableName) := by
  constructor <;> intro hr <;> simp [DropIndexSql, hr]

/-- Witness of C16 as amended: a regular and a non-regular index on `orders`,
under the stand-in for package `core`. -/
theorem DropIndexSql_statement_witness :
    DropIndexSql sampleHelpers ⟨id, id⟩ (bytes "orders") ⟨true, bytes "by_name", 1, []⟩
      = bytes "DROP INDEX \"IDX_orders_by_name\".\"orders\"" ∧
    DropIndexSql sampleHelpers ⟨id, id⟩ (bytes "orders") ⟨false, bytes "my_custom_idx", 1, []⟩
      = bytes "DROP INDEX \"my_custom_idx\".\"orders\"" :=
  ⟨((DropIndexSql_statement sampleHelpers ⟨id, id⟩ (bytes "orders")
      ⟨true, bytes "by_name", 1, []⟩).1 rfl).trans (by decide),
   ((DropIndexSql_statement sampleHelpers ⟨id, id⟩ (bytes "orders")
      ⟨false, bytes "my_custom_idx", 1, []⟩).2 rfl).trans (by decide)⟩

/-- C16, counterexample.  For the index `my_custom_idx` on the table `orders`
in the schema `SYSDBA` the statement is `DROP INDEX "my_custom_idx"."orders"`:
the index name stands before the dot and the table name after it, where the
spec has the schema qualifier before the dot and the index name after it. -/
theorem DropIndexSql_statement_counterexample :
    DropIndexSql sampleHelpers ⟨id, id⟩ (bytes "orders") ⟨false, bytes "my_custom_idx", 1, []⟩
      = bytes "DROP INDEX \"my_custom_idx\".\"orders\"" ∧
    DropIndexSql.spec sampleHelpers ⟨id, id⟩ (bytes "SYSDBA") (bytes "orders")
        ⟨false, bytes "my_custom_idx", 1, []⟩
      = bytes "DROP INDEX \"SYSDBA\".\"my_custom_idx\"" ∧
    DropIndexSql sampleHelpers ⟨id, id⟩ (bytes "orders") ⟨false, bytes "my_custom_idx", 1, []⟩
      ≠ DropIndexSql.spec sampleHelpers ⟨id, id⟩ (bytes "SYSDBA") (bytes "orders")
          ⟨false, bytes "my_custom_idx", 1, []⟩ := by
  decide

/-! ## Lemmas on `GetColumns` -/

theorem IndexSlice.loop_spec :
    ∀ (s : List GoString) (c : GoString) (i : Int), 0 ≤ i →
      (IndexSlice.loop s c i > -1 ↔ c ∈ s)
  | [], _, _, _ => by simp [IndexSlice.loop]
  | ss :: rest, c, i, hi => by
    by_cases hc : c = ss
    · simp only [IndexSlice.loop, hc, if_true, List.mem_cons, true_or, iff_true]
      omega
    · have ih := IndexSlice.loop_spec rest c (i + 1) (by omega)
      simp only [IndexSlice.loop, hc, if_false, List.mem_cons, false_or]
      exact ih

theorem IndexSlice_gt_iff (s : List GoString) (c : GoString) :
    IndexSlice s c > -1 ↔ c ∈ s :=
  IndexSlice.loop_spec s c 0 (le_refl 0)

theorem mapSet_mem {α : Type} (m : List (GoString × α)) (k : GoString) (v : α)
    (e : GoString × α) (he : e ∈ mapSet m k v) : e ∈ m ∨ e = (k, v) := by
  unfold mapSet at he
  split_ifs at he
  · obtain ⟨a, ha, hae⟩ := List.mem_map.mp he
    split_ifs at hae
    · exact Or.inr hae.symm
    · exact Or.inl (hae ▸ ha)
  · rcases List.mem_append.mp he with h | h
    · exact Or.inl h
    · exact Or.inr (List.mem_singleton.mp h)

theorem GetColumns.pkLoop_ok :
    ∀ (scans : List (Except error GoString)) (acc pkNames : List GoString),
      GetColumns.pkLoop scans acc = .ok pkNames →
      ∃ names, scans = names.map Except.ok ∧ pkNames = acc ++ names
  | [], acc, pkNames, h => by
    simp only [GetColumns.pkLoop, Except.ok.injEq] at h
    exact ⟨[], rfl, by simp [h]⟩
  | .error err :: _, _, _, h => by simp [GetColumns.pkLoop] at h
  | .ok pkName :: rest, acc, pkNames, h => by
    simp only [GetColumns.pkLoop] at h
    obtain ⟨names, h1, h2⟩ := GetColumns.pkLoop_ok rest _ _ h
    exact ⟨pkName :: names, by simp [h1], by simp [h2]⟩

theorem GetColumns.loop_mem (h : core.Helpers) (u : Unicode)
    (fold : GoString → GoString → Bool) (db : dameng) (tableName : GoString)
    (pkNames : List GoString) :
    ∀ (rows : List (Except error GetColumns.Row)) (cols : List (GoString × core.Column))
      (colSeq : List GoString) (cols1 : List (GoString × core.Column))
      (colSeq1 : List GoString),
      GetColumns.loop h u fold db tableName pkNames rows cols colSeq
        = some (.ok (cols1, colSeq1)) →
      ∀ e ∈ cols1, e ∈ cols ∨ ∃ r, Except.ok r ∈ rows
        ∧ GetColumns.row h u fold db tableName pkNames r = .store e.2 ∧ e.1 = e.2.Name
  | [], cols, colSeq, cols1, colSeq1, hl, e, he => by
    simp only [GetColumns.loop, Option.some.injEq, Except.ok.injEq, Prod.mk.injEq] at hl
    exact Or.inl (hl.1 ▸ he)
  | .error err :: _, _, _, _, _, hl, _, _ => by simp [GetColumns.loop] at hl
  | .ok r :: rest, cols, colSeq, cols1, colSeq1, hl, e, he => by
    simp only [GetColumns.loop] at hl
    cases hr : GetColumns.row h u fold db tableName pkNames r with
    | panic => simp [hr] at hl
    | fail err => simp [hr] at hl
    | skip =>
      simp only [hr] at hl
      rcases GetColumns.loop_mem h u fold db tableName pkNames rest _ _ _ _ hl e he with h1 | h1
      · exact Or.inl h1
      · obtain ⟨r', hr', hs⟩ := h1
        exact Or.inr ⟨r', List.mem_cons_of_mem _ hr', hs⟩
    | store col =>
      simp only [hr] at hl
      rcases GetColumns.loop_mem h u fold db tableName pkNames rest _ _ _ _ hl e he with h1 | h1
      · rcases mapSet_mem _ _ _ _ h1 with h2 | h2
        · exact Or.inl h2
        · exact Or.inr ⟨r, List.mem_cons_self _ _, by rw [hr, h2], by rw [h2]⟩
      · obtain ⟨r', hr', hs⟩ := h1
        exact Or.inr ⟨r', List.mem_cons_of_mem _ hr', hs⟩

theorem GetColumns_stored (h : core.Helpers) (u : Unicode)
    (fold : GoString → GoString → Bool) (db : dameng) (tableName : GoString)
    (pkQuery : Except error (sql.Rows GoString))
    (colQuery : Except error (sql.Rows GetColumns.Row)) (ret : GetColumns.Return)
    (cols : List (GoString × core.Column))
    (hg : GetColumns h u fold db tableName pkQuery colQuery = some ret)
    (hc : ret.cols = some cols) :
    ∃ rows pkNames rows2, pkQuery = .ok rows ∧ rows.scans = pkNames.map Except.ok
      ∧ colQuery = .ok rows2
      ∧ ∀ e ∈ cols, ∃ r, Except.ok r ∈ rows2.scans
        ∧ GetColumns.row h u fold db tableName pkNames r = .store e.2 ∧ e.1 = e.2.Name := by
  unfold GetColumns at hg
  cases pkQuery with
  | error err => simp at hg; subst hg; simp at hc
  | ok rows =>
    simp only at hg
    cases hpk : GetColumns.pkLoop rows.scans [] with
    | error err => simp [hpk] at hg; subst hg; simp at hc
    | ok pkNames =>
      simp only [hpk] at hg
      cases hre : rows.Err with
      | some err => simp [hre] at hg; subst hg; simp at hc
      | none =>
        simp only [hre] at hg
        cases colQuery with
        | error err => simp at hg; subst hg; simp at hc
        | ok rows2 =>
          simp only at hg
          cases hl : GetColumns.loop h u fold db tableName pkNames rows2.scans [] [] with
          | none => simp [hl] at hg
          | some res =>
            cases res with
            | error err => simp [hl] at hg; subst hg; simp at hc
            | ok p =>
              obtain ⟨cols1, colSeq1⟩ := p
              simp only [hl] at hg
              cases hre2 : rows2.Err with
              | some err => simp [hre2] at hg; subst hg; simp at hc
              | none =>
                simp only [hre2, Option.some.injEq] at hg
                subst hg
                simp only [Option.some.injEq] at hc
                subst hc
                obtain ⟨names, hn1, hn2⟩ := GetColumns.pkLoop_ok _ _ _ hpk
                simp only [List.nil_append] at hn2
                subst hn2
                refine ⟨rows, pkNames, rows2, rfl, hn1, rfl, ?_⟩
                intro e he
                rcases GetColumns.loop_mem h u fold db tableName pkNames _ _ _ _ _ hl e he
                  with h1 | h1
                · simp at h1
                · exact h1

theorem GetColumns.rowHead_ok (u : Unicode) (db : dameng) (tableName : GoString)
    (pkNames : List GoString) (r : GetColumns.Row) (col : core.Column)
    (h : GetColumns.rowHead u db tableName pkNames r = .ok col) :
    r.colName.Valid = true ∧
    col.Name = strings.Trim r.colName.String (bytes "\" ") ∧
    col.Default = (if r.colDefault.valid then r.colDefault.data else []) ∧
    col.DefaultIsEmpty = !r.colDefault.valid ∧
    col.Comment = (if r.comment.Valid then [] else r.comment.String) ∧
    (col.IsPrimaryKey = true ↔ col.Name ∈ pkNames) ∧
    (col.IsAutoIncrement = true ↔ col.Name ∈ pkNames ∧ db.HasRecords
        (bytes "SELECT * FROM ALL_SEQUENCES WHERE SEQUENCE_OWNER = ? AND SEQUENCE_NAME = ?")
        [db.Schema, SeqName u tableName] = (true, none)) := by
  unfold GetColumns.rowHead at h
  by_cases hv : r.colName.Valid = true
  swap
  · simp [hv] at h
  simp only [hv, not_true_eq_false, if_false, IndexSlice_gt_iff] at h
  refine ⟨hv, ?_⟩
  cases hd : r.colDefault.valid <;> by_cases hn : r.nullable.String = bytes "Y"
    <;> cases hc : r.comment.Valid
    <;> by_cases hp : strings.Trim r.colName.String (bytes "\" ") ∈ pkNames
    <;> simp only [hd, hn, hc, hp, if_true, if_false, not_true_eq_false, not_false_eq_true,
      Bool.false_eq_true] at h
    <;> first
      | (cases h
         simp [columnOf, hp])
      | (rcases hq : db.HasRecords
            (bytes "SELECT * FROM ALL_SEQUENCES WHERE SEQUENCE_OWNER = ? AND SEQUENCE_NAME = ?")
            [db.Schema, SeqName u tableName] with ⟨has, e⟩
         rw [hq] at h
         cases e with
         | some err => simp at h
         | none =>
           cases has <;> simp at h <;> cases h <;> simp [columnOf, hp])

theorem GetColumns.rowTail_store (h : core.Helpers) (u : Unicode)
    (fold : GoString → GoString → Bool) (r : GetColumns.Row) (col c : core.Column)
    (hs : GetColumns.rowTail h u fold r col = .store c) :
    c.Name = col.Name ∧ c.IsPrimaryKey = col.IsPrimaryKey
    ∧ c.IsAutoIncrement = col.IsAutoIncrement ∧ c.Comment = col.Comment
    ∧ c.DefaultIsEmpty = col.DefaultIsEmpty
    ∧ GetColumns.introspect u r.dataType.String = some (some c.SQLType)
    ∧ h.SqlTypes c.SQLType.Name = true
    ∧ c.Default =
        (if h.IsTime c.SQLType = true ∧ col.DefaultIsEmpty = false
            ∧ strings.EqualFold fold col.Default (bytes "CURRENT_TIMESTAMP") = false then
          addSingleQuote col.Default
        else col.Default) := by
  unfold GetColumns.rowTail at hs
  cases hd : GetColumns.decompose r.dataType.String with
  | none => simp [hd] at hs
  | some p =>
    obtain ⟨dt, len1, len2⟩ := p
    simp only [hd] at hs
    cases hm : GetColumns.reverseMap u dt len1 len2 with
    | none => simp [hm] at hs
    | some ty =>
      simp only [hm] at hs
      have hi : GetColumns.introspect u r.dataType.String = some (some ty) := by
        simp [GetColumns.introspect, hd, hm]
      by_cases hreg : h.SqlTypes ty.Name = true
      swap
      · simp [hreg] at hs
      simp only [hreg, not_true_eq_false, if_false] at hs
      by_cases hts : ty.Name = bytes "TIMESTAMP" <;> cases ht : h.IsTime ty
        <;> cases he : col.DefaultIsEmpty
        <;> cases hf : strings.EqualFold fold col.Default (bytes "CURRENT_TIMESTAMP")
        <;> simp only [hts, ht, he, hf, if_true, if_false, not_true_eq_false,
          not_false_eq_true, and_true, and_false, and_self, GetColumns.Step.store.injEq,
          Bool.false_eq_true] at hs
        <;> subst hs <;> simp [hi, hreg, ht, he, hf]

theorem GetColumns.row_store (h : core.Helpers) (u : Unicode)
    (fold : GoString → GoString → Bool) (db : dameng) (tableName : GoString)
    (pkNames : List GoString) (r : GetColumns.Row) (c : core.Column)
    (hs : GetColumns.row h u fold db tableName pkNames r = .store c) :
    ∃ col, GetColumns.rowHead u db tableName pkNames r = .ok col
      ∧ GetColumns.rowTail h u fold r col = .store c := by
  unfold GetColumns.row at hs
  cases hh : GetColumns.rowHead u db tableName pkNames r with
  | error err => simp [hh] at hs
  | ok col =>
    simp only [hh] at hs
    exact ⟨col, rfl, hs⟩

/-! ## Schema introspection: the columns `GetColumns` returns -/

/-- C17, the code at the failing input.  A row of the column-metadata query
with the non-null comment `user name` gives a column whose `Comment` is empty:
the comment is assigned only under `!comment.Valid`. -/
theorem GetColumns_comment_lost :
    sampleCommentRow.comment = ⟨bytes "user name", true⟩ ∧
    (GetColumns sampleHelpers ⟨id, id⟩ (fun _ _ => false) (sampleDb false none)
        (bytes "USERS") (.ok ⟨[], none⟩) (.ok ⟨[.ok sampleCommentRow], none⟩)).map
      (fun ret => (ret.err, ret.colSeq, ret.cols.map (List.map (fun e => e.2.Comment))))
      = some (none, some [bytes "NAME"], some [bytes ""]) := by
  decide

/-- C18.  For every column that `GetColumns` returns, with `pkNames` the
primary-key names that the first phase scanned: its name is the trimmed name
of a row; its primary-key flag is set exactly when that name is among
`pkNames`; its auto-increment flag is set exactly when the name is among them
and the sequence query for `SEQ_` followed by the upper-cased table name, in
the schema of the handle, finds a row; so a column that is not a primary key is
never marked auto-increment. -/
theorem GetColumns_key_flags (h : core.Helpers) (u : Unicode)
    (fold : GoString → GoString → Bool) (db : dameng) (tableName : GoString)
    (rows : sql.Rows GoString) (pkNames : List GoString)
    (colQuery : Except error (sql.Rows GetColumns.Row)) (ret : GetColumns.Return)
    (cols : List (GoString × core.Column)) (e : GoString × core.Column)
    (hpk : rows.scans = pkNames.map Except.ok)
    (hg : GetColumns h u fold db tableName (.ok rows) colQuery = some ret)
    (hc : ret.cols = some cols) (he : e ∈ cols) :
    (∃ (rows2 : sql.Rows GetColumns.Row) (r : GetColumns.Row), colQuery = .ok rows2
      ∧ Except.ok r ∈ rows2.scans
      ∧ e.2.Name = strings.Trim r.colName.String (bytes "\" "))
    ∧ (e.2.IsPrimaryKey = true ↔ e.2.Name ∈ pkNames)
    ∧ (e.2.IsAutoIncrement = true ↔ e.2.Name ∈ pkNames ∧ db.HasRecords
        (bytes "SELECT * FROM ALL_SEQUENCES WHERE SEQUENCE_OWNER = ? AND SEQUENCE_NAME = ?")
        [db.Schema, bytes "SEQ_" ++ strings.ToUpper u tableName] = (true, none))
    ∧ (e.2.IsPrimaryKey = false → e.2.IsAutoIncrement = false) := by
  obtain ⟨rows1, pkNames1, rows2, h1, h2, h3, h4⟩ :=
    GetColumns_stored h u fold db tableName (.ok rows) colQuery ret cols hg hc
  have hrows : rows1 = rows := by
    simp only [Except.ok.injEq] at h1
    exact h1.symm
  subst hrows
  have hnames : pkNames1 = pkNames := by
    rw [hpk] at h2
    exact (List.map_injective_iff.mpr (fun _ _ hab => by simpa using hab) h2).symm
  subst hnames
  obtain ⟨r, hr, hs, _⟩ := h4 e he
  obtain ⟨col, hh, ht⟩ := GetColumns.row_store h u fold db tableName pkNames1 r e.2 hs
  obtain ⟨_, n1, _, _, _, p1, a1⟩ := GetColumns.rowHead_ok u db tableName pkNames1 r col hh
  obtain ⟨n2, p2, a2, _⟩ := GetColumns.rowTail_store h u fold r col e.2 ht
  rw [← n2, ← p2] at p1
  rw [← n2, ← a2] at a1
  have a1' : e.2.IsAutoIncrement = true ↔ e.2.Name ∈ pkNames1 ∧ db.HasRecords
      (bytes "SELECT * FROM ALL_SEQUENCES WHERE SEQUENCE_OWNER = ? AND SEQUENCE_NAME = ?")
      [db.Schema, bytes "SEQ_" ++ strings.ToUpper u tableName] = (true, none) := a1
  refine ⟨⟨rows2, r, h3, hr, n2.trans n1⟩, p1, a1', ?_⟩
  intro hp
  cases ha : e.2.IsAutoIncrement with
  | false => rfl
  | true =>
    have := p1.mpr (a1.mp ha).1
    rw [hp] at this
    exact Bool.noConfusion this

/-- Witness of C18: the primary-key column `ID` of `users`, with the sequence
`SEQ_USERS` in place, is marked as primary key and as auto-increment. -/
theorem GetColumns_key_flags_witness :
    (sampleIdRead.IsPrimaryKey = true ↔ sampleIdRead.Name ∈ [bytes "ID"]) ∧
    (sampleIdRead.IsAutoIncrement = true ↔ sampleIdRead.Name ∈ [bytes "ID"]
      ∧ (sampleDb true none).HasRecords
        (bytes "SELECT * FROM ALL_SEQUENCES WHERE SEQUENCE_OWNER = ? AND SEQUENCE_NAME = ?")
        [(sampleDb true none).Schema, bytes "SEQ_" ++ strings.ToUpper ⟨id, id⟩ (bytes "users")]
          = (true, none)) :=
  ⟨(GetColumns_key_flags sampleHelpers ⟨id, id⟩ (fun _ _ => false) (sampleDb true none)
      (bytes "users") ⟨[.ok (bytes "ID")], none⟩ [bytes "ID"] (.ok ⟨[.ok sampleIdRow], none⟩)
      ⟨some [bytes "ID"], some [(bytes "ID", sampleIdRead)], none⟩
      [(bytes "ID", sampleIdRead)] (bytes "ID", sampleIdRead)
      rfl (by decide) rfl (List.mem_singleton.mpr rfl)).2.1,
   (GetColumns_key_flags sampleHelpers ⟨id, id⟩ (fun _ _ => false) (sampleDb true none)
      (bytes "users") ⟨[.ok (bytes "ID")], none⟩ [bytes "ID"] (.ok ⟨[.ok sampleIdRow], none⟩)
      ⟨some [bytes "ID"], some [(bytes "ID", sampleIdRead)], none⟩
      [(bytes "ID", sampleIdRead)] (bytes "ID", sampleIdRead)
      rfl (by decide) rfl (List.mem_singleton.mpr rfl)).2.2.1⟩

theorem strings.EqualFold_ascii (fold : GoString → GoString → Bool) :
    ∀ a b : GoString, isASCII a = true → isASCII b = true →
      strings.EqualFold fold a b = differOnlyInCase a b
  | [], [], _, _ => rfl
  | [], _ :: _, _, _ => rfl
  | _ :: _, [], _, _ => rfl
  | x :: xs, y :: ys, ha, hb => by
    simp only [isASCII, utf8.RuneSelf, List.all_cons, Bool.and_eq_true,
      decide_eq_true_eq] at ha hb
    have ih := strings.EqualFold_ascii fold xs ys
      (by simpa [isASCII, utf8.RuneSelf] using ha.2) (by simpa [isASCII, utf8.RuneSelf] using hb.2)
    have hx : ¬ (x ≥ utf8.RuneSelf ∨ y ≥ utf8.RuneSelf) := by
      simp only [utf8.RuneSelf]
      omega
    simp only [strings.EqualFold, hx, if_false, differOnlyInCase, ih]
    by_cases h1 : y = x
    · have hs : sameLetter x y = true := by simp [sameLetter, h1]
      rw [if_pos h1, hs, Bool.true_and]
    · rw [if_neg h1]
      by_cases h2 : 65 ≤ min x y ∧ min x y ≤ 90 ∧ max x y = min x y + 32
      · have hs : sameLetter x y = true := by
          simp only [sameLetter, Bool.or_eq_true, decide_eq_true_eq]
          omega
        rw [if_pos h2, hs, Bool.true_and]
      · have hs : sameLetter x y = false := by
          rw [Bool.eq_false_iff]
          intro hc
          simp only [sameLetter, Bool.or_eq_true, decide_eq_true_eq] at hc
          omega
        rw [if_neg h2, hs, Bool.false_and]

theorem addSingleQuote_spec (name : GoString) :
    (name.length < 2 → addSingleQuote name = name) ∧
    (2 ≤ name.length → name.head? = some 39 ∧ name.getLast? = some 39 →
      addSingleQuote name = name) ∧
    (2 ≤ name.length → ¬ (name.head? = some 39 ∧ name.getLast? = some 39) →
      addSingleQuote name = 39 :: name ++ [39]) ∧
    (2 ≤ name.length →
      (addSingleQuote name).head? = some 39 ∧ (addSingleQuote name).getLast? = some 39) := by
  refine ⟨?_, ?_, ?_, ?_⟩
  · intro hl
    simp [addSingleQuote, hl]
  · intro hl hq
    have : ¬ name.length < 2 := by omega
    simp [addSingleQuote, this, hq]
  · intro hl hq
    have : ¬ name.length < 2 := by omega
    simp only [addSingleQuote, this, if_false, hq]
  · intro hl
    have : ¬ name.length < 2 := by omega
    by_cases hq : name.head? = some 39 ∧ name.getLast? = some 39
    · simp only [addSingleQuote, this, if_false, hq, and_self, if_true]
    · simp only [addSingleQuote, this, if_false, hq]
      refine ⟨rfl, ?_⟩
      rw [List.getLast?_concat]

/-- C19, as amended.  For a row whose column `GetColumns` stores: a column
without a default keeps an empty `Default` and is flagged so; the default of a
column that is not time-valued is returned unchanged; the default of a
time-valued column is returned unchanged when it equals `CURRENT_TIMESTAMP`
under `strings.EqualFold` (for ASCII text: when it differs from it only in
letter case) and when it is shorter than two bytes; every other default of a
time-valued column comes back beginning and ending with a single quote,
unchanged if it was already so quoted and as the original between two single
quotes otherwise.  Every column that `GetColumns` returns is stored from a
row in this way. -/
theorem GetColumns_time_default (h : core.Helpers) (u : Unicode)
    (fold : GoString → GoString → Bool) (db : dameng) (tableName : GoString)
    (pkNames : List GoString) (r : GetColumns.Row) (c : core.Column)
    (hrow : GetColumns.row h u fold db tableName pkNames r = .store c) :
    c.DefaultIsEmpty = (!r.colDefault.valid) ∧
    (r.colDefault.valid = false → c.Default = []) ∧
    (r.colDefault.valid = true → h.IsTime c.SQLType = false →
      c.Default = r.colDefault.data) ∧
    (r.colDefault.valid = true → h.IsTime c.SQLType = true →
      strings.EqualFold fold r.colDefault.data (bytes "CURRENT_TIMESTAMP") = true →
      c.Default = r.colDefault.data) ∧
    (r.colDefault.valid = true → h.IsTime c.SQLType = true →
      strings.EqualFold fold r.colDefault.data (bytes "CURRENT_TIMESTAMP") = false →
      r.colDefault.data.length < 2 → c.Default = r.colDefault.data) ∧
    (r.colDefault.valid = true → h.IsTime c.SQLType = true →
      strings.EqualFold fold r.colDefault.data (bytes "CURRENT_TIMESTAMP") = false →
      2 ≤ r.colDefault.data.length →
      c.Default.head? = some 39 ∧ c.Default.getLast? = some 39
      ∧ (r.colDefault.data.head? = some 39 ∧ r.colDefault.data.getLast? = some 39 →
          c.Default = r.colDefault.data)
      ∧ (¬ (r.colDefault.data.head? = some 39 ∧ r.colDefault.data.getLast? = some 39) →
          c.Default = bytes "'" ++ r.colDefault.data ++ bytes "'")) ∧
    (∀ a : GoString, isASCII a = true →
      strings.EqualFold fold a (bytes "CURRENT_TIMESTAMP")
        = differOnlyInCase a (bytes "CURRENT_TIMESTAMP")) ∧
    (∀ (pkQuery : Except error (sql.Rows GoString))
      (colQuery : Except error (sql.Rows GetColumns.Row)) (ret : GetColumns.Return)
      (cols : List (GoString × core.Column)) (e : GoString × core.Column),
      GetColumns h u fold db tableName pkQuery colQuery = some ret → ret.cols = some cols →
      e ∈ cols → ∃ (pkNames1 : List GoString) (r1 : GetColumns.Row),
        GetColumns.row h u fold db tableName pkNames1 r1 = .store e.2) := by
  obtain ⟨col, hh, ht⟩ := GetColumns.row_store h u fold db tableName pkNames r c hrow
  obtain ⟨_, _, d1, e1, _⟩ := GetColumns.rowHead_ok u db tableName pkNames r col hh
  obtain ⟨_, _, _, _, e2, _, _, d2⟩ := GetColumns.rowTail_store h u fold r col c ht
  obtain ⟨q1, q2, q3, q4⟩ := addSingleQuote_spec r.colDefault.data
  rw [e1] at e2 d2
  rw [d1] at d2
  refine ⟨e2, ?_, ?_, ?_, ?_, ?_, ?_, ?_⟩
  · intro hv
    simp [d2, hv]
  · intro hv ht
    simp [d2, hv, ht]
  · intro hv ht hf
    simp [d2, hv, ht, hf]
  · intro hv ht hf hl
    simp [d2, hv, ht, hf, q1 hl]
  · intro hv ht hf hl
    have hd : c.Default = addSingleQuote r.colDefault.data := by
      simp [d2, hv, ht, hf]
    rw [hd]
    exact ⟨(q4 hl).1, (q4 hl).2, q2 hl, q3 hl⟩
  · intro a ha
    exact strings.EqualFold_ascii fold a _ ha (by decide)
  · intro pkQuery colQuery ret cols e hg hc he
    obtain ⟨_, pkNames1, _, _, _, _, h4⟩ :=
      GetColumns_stored h u fold db tableName pkQuery colQuery ret cols hg hc
    obtain ⟨r1, _, hs, _⟩ := h4 e he
    exact ⟨pkNames1, r1, hs⟩

/-- Witness of C19 as amended: the default `2020-01-01` of a `TIMESTAMP`
column comes back as `'2020-01-01'`. -/
theorem GetColumns_time_default_witness :
    ({ columnOf core.TimeStamp 6 0 with
        Name := bytes "CREATED"
        Default := bytes "'2020-01-01'" } : core.Column).Default
      = bytes "'" ++ (sampleTimeRow (bytes "2020-01-01")).colDefault.data ++ bytes "'" :=
  ((GetColumns_time_default sampleHelpers ⟨id, id⟩ (fun _ _ => false) (sampleDb false none)
      (bytes "EVENTS") [] (sampleTimeRow (bytes "2020-01-01"))
      { columnOf core.TimeStamp 6 0 with
        Name := bytes "CREATED"
        Default := bytes "'2020-01-01'" }
      (by decide)).2.2.2.2.2.1 rfl (by decide) (by decide) (by decide)).2.2.2 (by decide)

/-- C19, counterexample.  The default `0` of a `TIMESTAMP` column is not
`CURRENT_TIMESTAMP` and is returned as `0`, without single quotes:
`addSingleQuote` returns a name shorter than two bytes as it is. -/
theorem GetColumns_time_default_counterexample :
    (GetColumns sampleHelpers ⟨id, id⟩ (fun _ _ => false) (sampleDb false none)
        (bytes "EVENTS") (.ok ⟨[], none⟩) (.ok ⟨[.ok (sampleTimeRow (bytes "0"))], none⟩)).map
      (fun ret => (ret.err, ret.colSeq, ret.cols.map (List.map (fun e => e.2.Default))))
      = some (none, some [bytes "CREATED"], some [bytes "0"]) ∧
    (GetColumns sampleHelpers ⟨id, id⟩ (fun _ _ => false) (sampleDb false none)
        (bytes "EVENTS") (.ok ⟨[], none⟩) (.ok ⟨[.ok (sampleTimeRow (bytes "0"))], none⟩)).map
      (fun ret => ret.cols.map (List.map (fun e =>
        sampleHelpers.IsTime e.2.SQLType && !e.2.DefaultIsEmpty)))
      = some (some [true]) ∧
    strings.EqualFold (fun _ _ => false) (bytes "0") (bytes "CURRENT_TIMESTAMP") = false ∧
    addSingleQuote (bytes "0") = bytes "0" ∧
    (bytes "0").head? ≠ some 39 := by
  decide

theorem GetColumns.pkLoop_map :
    ∀ (names acc : List GoString),
      GetColumns.pkLoop (names.map Except.ok) acc = .ok (acc ++ names)
  | [], acc => by simp [GetColumns.pkLoop]
  | n :: names, acc => by
    simp only [List.map_cons, GetColumns.pkLoop, GetColumns.pkLoop_map names (acc ++ [n])]
    simp

theorem GetColumns.rowHead_total (u : Unicode) (db : dameng) (tableName : GoString)
    (pkNames : List GoString) (r : GetColumns.Row) (hv : r.colName.Valid = true)
    (hseq : ∀ q a, (db.HasRecords q a).2 = none) :
    ∃ col, GetColumns.rowHead u db tableName pkNames r = .ok col := by
  cases hh : GetColumns.rowHead u db tableName pkNames r with
  | ok col => exact ⟨col, rfl⟩
  | error err =>
    exfalso
    unfold GetColumns.rowHead at hh
    simp only [hv, not_true_eq_false, if_false, IndexSlice_gt_iff] at hh
    rcases hq : db.HasRecords
        (bytes "SELECT * FROM ALL_SEQUENCES WHERE SEQUENCE_OWNER = ? AND SEQUENCE_NAME = ?")
        [db.Schema, SeqName u tableName] with ⟨has, e⟩
    have he := hseq
        (bytes "SELECT * FROM ALL_SEQUENCES WHERE SEQUENCE_OWNER = ? AND SEQUENCE_NAME = ?")
        [db.Schema, SeqName u tableName]
    rw [hq] at he
    simp only at he
    subst he
    rw [hq] at hh
    cases hd : r.colDefault.valid <;> by_cases hn : r.nullable.String = bytes "Y"
      <;> cases hc : r.comment.Valid
      <;> by_cases hp : strings.Trim r.colName.String (bytes "\" ") ∈ pkNames
      <;> simp only [hd, hn, hc, hp, if_true, if_false, not_true_eq_false, not_false_eq_true,
        Bool.false_eq_true] at hh
      <;> simp at hh

theorem GetColumns.rowTail_cases (h : core.Helpers) (u : Unicode)
    (fold : GoString → GoString → Bool) (r : GetColumns.Row) (col : core.Column)
    (hd : GetColumns.decompose r.dataType.String ≠ none) :
    ((∃ ty, GetColumns.introspect u r.dataType.String = some (some ty)
        ∧ h.SqlTypes ty.Name = false)
      ∧ ∃ err, GetColumns.rowTail h u fold r col = .fail err)
    ∨ ((¬ ∃ ty, GetColumns.introspect u r.dataType.String = some (some ty)
        ∧ h.SqlTypes ty.Name = false)
      ∧ (GetColumns.rowTail h u fold r col = .skip
        ∨ ∃ c, GetColumns.rowTail h u fold r col = .store c)) := by
  cases hdec : GetColumns.decompose r.dataType.String with
  | none => exact absurd hdec hd
  | some p =>
    obtain ⟨dt, len1, len2⟩ := p
    cases hm : GetColumns.reverseMap u dt len1 len2 with
    | none =>
      refine Or.inr ⟨?_, Or.inl ?_⟩
      · rintro ⟨ty, hi, _⟩
        simp [GetColumns.introspect, hdec, hm] at hi
      · simp only [GetColumns.rowTail, hdec, hm]
    | some ty =>
      have hi : GetColumns.introspect u r.dataType.String = some (some ty) := by
        simp [GetColumns.introspect, hdec, hm]
      cases hreg : h.SqlTypes ty.Name with
      | false =>
        refine Or.inl ⟨⟨ty, hi, hreg⟩, ⟨GetColumns.unknownColType r.dataType.String ty, ?_⟩⟩
        simp [GetColumns.rowTail, hdec, hm, hreg]
      | true =>
        refine Or.inr ⟨?_, Or.inr ?_⟩
        · rintro ⟨ty1, hi1, hreg1⟩
          rw [hi] at hi1
          simp only [Option.some.injEq] at hi1
          subst hi1
          rw [hreg] at hreg1
          exact Bool.noConfusion hreg1
        · simp [GetColumns.rowTail, hdec, hm, hreg]

theorem GetColumns.row_cases (h : core.Helpers) (u : Unicode)
    (fold : GoString → GoString → Bool) (db : dameng) (tableName : GoString)
    (pkNames : List GoString) (r : GetColumns.Row) (hv : r.colName.Valid = true)
    (hseq : ∀ q a, (db.HasRecords q a).2 = none)
    (hd : GetColumns.decompose r.dataType.String ≠ none) :
    ((∃ ty, GetColumns.introspect u r.dataType.String = some (some ty)
        ∧ h.SqlTypes ty.Name = false)
      ∧ ∃ err, GetColumns.row h u fold db tableName pkNames r = .fail err)
    ∨ ((¬ ∃ ty, GetColumns.introspect u r.dataType.String = some (some ty)
        ∧ h.SqlTypes ty.Name = false)
      ∧ (GetColumns.row h u fold db tableName pkNames r = .skip
        ∨ ∃ c, GetColumns.row h u fold db tableName pkNames r = .store c)) := by
  obtain ⟨col, hh⟩ := GetColumns.rowHead_total u db tableName pkNames r hv hseq
  have e : GetColumns.row h u fold db tableName pkNames r
      = GetColumns.rowTail h u fold r col := by
    simp only [GetColumns.row, hh]
  rw [e]
  exact GetColumns.rowTail_cases h u fold r col hd

theorem GetColumns.loop_cases (h : core.Helpers) (u : Unicode)
    (fold : GoString → GoString → Bool) (db : dameng) (tableName : GoString)
    (pkNames : List GoString) (hseq : ∀ q a, (db.HasRecords q a).2 = none) :
    ∀ (rs : List GetColumns.Row) (cols : List (GoString × core.Column))
      (colSeq : List GoString),
      (∀ r ∈ rs, r.colName.Valid = true) →
      (∀ r ∈ rs, GetColumns.decompose r.dataType.String ≠ none) →
      ((∃ r ∈ rs, ∃ ty, GetColumns.introspect u r.dataType.String = some (some ty)
          ∧ h.SqlTypes ty.Name = false)
        ∧ ∃ err, GetColumns.loop h u fold db tableName pkNames (rs.map Except.ok) cols colSeq
            = some (.error err))
      ∨ ((¬ ∃ r ∈ rs, ∃ ty, GetColumns.introspect u r.dataType.String = some (some ty)
          ∧ h.SqlTypes ty.Name = false)
        ∧ ∃ p, GetColumns.loop h u fold db tableName pkNames (rs.map Except.ok) cols colSeq
            = some (.ok p))
  | [], cols, colSeq, _, _ => by
    refine Or.inr ⟨?_, ⟨(cols, colSeq), rfl⟩⟩
    simp
  | r :: rest, cols, colSeq, hv, hd => by
    have hv1 := hv r (List.mem_cons_self _ _)
    have hd1 := hd r (List.mem_cons_self _ _)
    have hv2 : ∀ r' ∈ rest, r'.colName.Valid = true :=
      fun r' hr' => hv r' (List.mem_cons_of_mem _ hr')
    have hd2 : ∀ r' ∈ rest, GetColumns.decompose r'.dataType.String ≠ none :=
      fun r' hr' => hd r' (List.mem_cons_of_mem _ hr')
    have step : ∀ cols1 colSeq1,
        (¬ ∃ ty, GetColumns.introspect u r.dataType.String = some (some ty)
          ∧ h.SqlTypes ty.Name = false) →
        GetColumns.loop h u fold db tableName pkNames ((r :: rest).map Except.ok) cols colSeq
          = GetColumns.loop h u fold db tableName pkNames (rest.map Except.ok) cols1 colSeq1 →
        ((∃ r' ∈ r :: rest, ∃ ty, GetColumns.introspect u r'.dataType.String = some (some ty)
            ∧ h.SqlTypes ty.Name = false)
          ∧ ∃ err, GetColumns.loop h u fold db tableName pkNames ((r :: rest).map Except.ok)
              cols colSeq = some (.error err))
        ∨ ((¬ ∃ r' ∈ r :: rest, ∃ ty,
              GetColumns.introspect u r'.dataType.String = some (some ty)
              ∧ h.SqlTypes ty.Name = false)
          ∧ ∃ p, GetColumns.loop h u fold db tableName pkNames ((r :: rest).map Except.ok)
              cols colSeq = some (.ok p)) := by
      intro cols1 colSeq1 hgood e
      rw [e]
      rcases GetColumns.loop_cases h u fold db tableName pkNames hseq rest cols1 colSeq1 hv2 hd2
        with ⟨⟨r', hr', hb⟩, herr⟩ | ⟨hnone, hok⟩
      · exact Or.inl ⟨⟨r', List.mem_cons_of_mem _ hr', hb⟩, herr⟩
      · refine Or.inr ⟨?_, hok⟩
        rintro ⟨r', hr', hb⟩
        rcases List.mem_cons.mp hr' with rfl | hr'
        · exact hgood hb
        · exact hnone ⟨r', hr', hb⟩
    rcases GetColumns.row_cases h u fold db tableName pkNames r hv1 hseq hd1
      with ⟨hb, err, he⟩ | ⟨hgood, hs | ⟨c, hs⟩⟩
    · refine Or.inl ⟨⟨r, List.mem_cons_self _ _, hb⟩, ⟨err, ?_⟩⟩
      simp only [List.map_cons, GetColumns.loop, he]
    · exact step cols colSeq hgood (by simp only [List.map_cons, GetColumns.loop, hs])
    · exact step (mapSet cols c.Name c) (colSeq ++ [c.Name]) hgood
        (by simp only [List.map_cons, GetColumns.loop, hs])

/-- C20, as amended.  Take a result set of the column-metadata query without
scan failures, null column names or a row-iteration error, whose native types
all decompose, reached after a primary-key phase that succeeded, and a handle
whose sequence query never fails.  Then `GetColumns` returns, and it returns an
error exactly when some row's reverse-mapped abstract type name is absent from
the registry (such a row is not an ignored one); with the error it returns the
nil slice and the nil map, without it both collections.  A row whose base
native type is `AQ$_SUBSCRIBERS` is passed over, and a row that is passed over
leaves the loop as it would be without the row: no column, no error. -/
theorem GetColumns_unknown_type (h : core.Helpers) (u : Unicode)
    (fold : GoString → GoString → Bool) (db : dameng) (tableName : GoString)
    (pkNames : List GoString) (rs : List GetColumns.Row)
    (hnames : ∀ r ∈ rs, r.colName.Valid = true)
    (hseq : ∀ q a, (db.HasRecords q a).2 = none)
    (hdec : ∀ r ∈ rs, GetColumns.decompose r.dataType.String ≠ none) :
    (∃ ret, GetColumns h u fold db tableName (.ok ⟨pkNames.map Except.ok, none⟩)
          (.ok ⟨rs.map Except.ok, none⟩) = some ret
      ∧ (ret.err ≠ none ↔ ∃ r ∈ rs, ∃ ty,
          GetColumns.introspect u r.dataType.String = some (some ty)
          ∧ h.SqlTypes ty.Name = false)
      ∧ (ret.err ≠ none → ret.colSeq = none ∧ ret.cols = none)
      ∧ (ret.err = none → ret.colSeq ≠ none ∧ ret.cols ≠ none))
    ∧ (∀ r ∈ rs, ∀ len1 len2,
        GetColumns.decompose r.dataType.String = some (bytes "AQ$_SUBSCRIBERS", len1, len2) →
        GetColumns.row h u fold db tableName pkNames r = .skip)
    ∧ (∀ (r : GetColumns.Row) (rest : List (Except error GetColumns.Row))
        (cols : List (GoString × core.Column)) (colSeq : List GoString),
        GetColumns.row h u fold db tableName pkNames r = .skip →
        GetColumns.loop h u fold db tableName pkNames (.ok r :: rest) cols colSeq
          = GetColumns.loop h u fold db tableName pkNames rest cols colSeq) := by
  refine ⟨?_, ?_, ?_⟩
  · have hpk : GetColumns.pkLoop (pkNames.map Except.ok) [] = .ok pkNames := by
      rw [GetColumns.pkLoop_map]
      rfl
    rcases GetColumns.loop_cases h u fold db tableName pkNames hseq rs [] [] hnames hdec
      with ⟨hb, err, he⟩ | ⟨hgood, ⟨cols, colSeq⟩, he⟩
    · refine ⟨⟨none, none, some err⟩, ?_, ?_, ?_, ?_⟩
      · simp only [GetColumns, hpk, he]
      · simp only [ne_eq, reduceCtorEq, not_false_eq_true, true_iff]
        exact hb
      · intro _
        exact ⟨rfl, rfl⟩
      · intro hc
        simp at hc
    · refine ⟨⟨some colSeq, some cols, none⟩, ?_, ?_, ?_, ?_⟩
      · simp only [GetColumns, hpk, he]
      · simp only [ne_eq, not_true_eq_false, false_iff]
        exact hgood
      · intro hc
        exact absurd rfl hc
      · intro _
        simp
  · intro r hr len1 len2 hd
    obtain ⟨col, hh⟩ := GetColumns.rowHead_total u db tableName pkNames r (hnames r hr) hseq
    have hm : GetColumns.reverseMap u (bytes "AQ$_SUBSCRIBERS") len1 len2 = none := rfl
    simp only [GetColumns.row, hh, GetColumns.rowTail, hd, hm]
  · intro r rest cols colSeq hs
    simp only [GetColumns.loop, hs]

/-- Witness of C20 as amended: an ignored row and a row of the unregistered
type `GEOMETRY`; the call returns the error for `GEOMETRY` and no
collection. -/
theorem GetColumns_unknown_type_witness :
    ∃ ret, GetColumns sampleHelpers ⟨id, id⟩ (fun _ _ => false) (sampleDb false none)
          (bytes "users") (.ok ⟨([] : List GoString).map Except.ok, none⟩)
          (.ok ⟨[{ sampleIdRow with dataType := ⟨bytes "AQ$_SUBSCRIBERS", true⟩ },
                 { sampleIdRow with dataType := ⟨bytes "GEOMETRY", true⟩ }].map Except.ok,
                none⟩) = some ret
      ∧ (ret.err ≠ none ↔ ∃ r ∈ [{ sampleIdRow with dataType := ⟨bytes "AQ$_SUBSCRIBERS", true⟩ },
                 { sampleIdRow with dataType := ⟨bytes "GEOMETRY", true⟩ }], ∃ ty,
          GetColumns.introspect ⟨id, id⟩ r.dataType.String = some (some ty)
          ∧ sampleHelpers.SqlTypes ty.Name = false)
      ∧ (ret.err ≠ none → ret.colSeq = none ∧ ret.cols = none)
      ∧ (ret.err = none → ret.colSeq ≠ none ∧ ret.cols ≠ none) :=
  (GetColumns_unknown_type sampleHelpers ⟨id, id⟩ (fun _ _ => false) (sampleDb false none)
    (bytes "users") []
    [{ sampleIdRow with dataType := ⟨bytes "AQ$_SUBSCRIBERS", true⟩ },
     { sampleIdRow with dataType := ⟨bytes "GEOMETRY", true⟩ }]
    (by decide) (fun _ _ => rfl) (by decide)).1

/-- C20, counterexample.  The result set holds the single row `ID` of type
`INTEGER`, scanned without failure, with a non-null name and a registered
type; `ID` is a primary-key name and the sequence query fails.  `GetColumns`
returns that error and no columns, though no row has an unregistered type. -/
theorem GetColumns_unknown_type_counterexample :
    GetColumns sampleHelpers ⟨id, id⟩ (fun _ _ => false)
        (sampleDb false (some (bytes "connection lost"))) (bytes "users")
        (.ok ⟨[.ok (bytes "ID")], none⟩) (.ok ⟨[.ok sampleIdRow], none⟩)
      = some ⟨none, none, some (bytes "connection lost")⟩ ∧
    sampleIdRow.colName.Valid = true ∧
    GetColumns.introspect ⟨id, id⟩ sampleIdRow.dataType.String
      = some (some ⟨core.Integer, 0, 0⟩) ∧
    sampleHelpers.SqlTypes core.Integer = true := by
  decide

/-! ## Lemmas on trimming and on the map -/

theorem dropWhile_head_not (p : Nat → Bool) (l : List Nat) (x : Nat)
    (h : (l.dropWhile p).head? = some x) : p x = false := by
  induction l with
  | nil => simp at h
  | cons a t ih =>
    rw [List.dropWhile_cons] at h
    by_cases ha : p a = true
    · rw [if_pos ha] at h
      exact ih h
    · rw [if_neg ha] at h
      simp only [List.head?_cons, Option.some.injEq] at h
      subst h
      simpa using ha

theorem dropWhile_getLast (p : Nat → Bool) (l : List Nat) (x : Nat)
    (h : (l.dropWhile p).getLast? = some x) : l.getLast? = some x := by
  induction l with
  | nil => exact h
  | cons a t ih =>
    rw [List.dropWhile_cons] at h
    by_cases ha : p a = true
    · rw [if_pos ha] at h
      have ht := ih h
      cases t with
      | nil => simp at ht
      | cons b t2 => rw [List.getLast?_cons_cons]; exact ht
    · rw [if_neg ha] at h
      exact h

theorem dropWhile_eq_self (p : Nat → Bool) (l : List Nat)
    (h : ∀ x, l.head? = some x → p x = false) : l.dropWhile p = l := by
  cases l with
  | nil => rfl
  | cons a t =>
    rw [List.dropWhile_cons, if_neg]
    rw [h a rfl]
    simp

/-- The result of `strings.Trim` does not begin with a byte of the cutset. -/
theorem strings.Trim_head (s cutset : GoString) (x : Nat)
    (h : (strings.Trim s cutset).head? = some x) : x ∉ cutset := by
  have := dropWhile_head_not _ _ _ h
  simpa using this

/-- The result of `strings.Trim` does not end with a byte of the cutset. -/
theorem strings.Trim_getLast (s cutset : GoString) (x : Nat)
    (h : (strings.Trim s cutset).getLast? = some x) : x ∉ cutset := by
  have h1 := dropWhile_getLast _ _ _ h
  rw [List.getLast?_reverse] at h1
  have := dropWhile_head_not _ _ _ h1
  simpa using this

/-- A string that neither begins nor ends with a byte of the cutset is left
unchanged by `strings.Trim`. -/
theorem strings.Trim_eq_self (s cutset : GoString)
    (h1 : ∀ x, s.head? = some x → x ∉ cutset)
    (h2 : ∀ x, s.getLast? = some x → x ∉ cutset) : strings.Trim s cutset = s := by
  unfold strings.Trim
  rw [dropWhile_eq_self _ s.reverse, List.reverse_reverse, dropWhile_eq_self _ s]
  · intro x hx
    simpa using h1 x hx
  · intro x hx
    rw [List.head?_reverse] at hx
    simpa using h2 x hx

theorem lookup_cons_eq {α : Type} (a : GoString) (b : α) (t : List (GoString × α))
    (k2 : GoString) :
    ((a, b) :: t).lookup k2 = if k2 = a then some b else t.lookup k2 := by
  by_cases h : k2 = a
  · subst h
    simp [List.lookup]
  · have hb : (k2 == a) = false := by simpa using h
    simp [List.lookup, hb, h]

theorem lookup_map_other {α : Type} (m : List (GoString × α)) (k : GoString) (v : α)
    (k2 : GoString) (h : k2 ≠ k) :
    (m.map (fun e => if e.1 = k then (k, v) else e)).lookup k2 = m.lookup k2 := by
  induction m with
  | nil => rfl
  | cons e t ih =>
    obtain ⟨a, b⟩ := e
    by_cases hak : a = k
    · subst hak
      rw [List.map_cons, if_pos rfl, lookup_cons_eq, lookup_cons_eq, if_neg h, if_neg h, ih]
    · rw [List.map_cons, if_neg hak, lookup_cons_eq, lookup_cons_eq, ih]

theorem lookup_map_same {α : Type} (m : List (GoString × α)) (k : GoString) (v : α)
    (h : m.any (fun e => decide (e.1 = k)) = true) :
    (m.map (fun e => if e.1 = k then (k, v) else e)).lookup k = some v := by
  induction m with
  | nil => simp at h
  | cons e t ih =>
    obtain ⟨a, b⟩ := e
    by_cases hak : a = k
    · subst hak
      rw [List.map_cons, if_pos rfl, lookup_cons_eq, if_pos rfl]
    · have hka : k ≠ a := fun h => hak h.symm
      rw [List.map_cons, if_neg hak, lookup_cons_eq, if_neg hka]
      apply ih
      simpa [hak] using h

theorem lookup_append_new {α : Type} (m : List (GoString × α)) (k : GoString) (v : α)
    (k2 : GoString) (h : m.any (fun e => decide (e.1 = k)) = false) :
    (m ++ [(k, v)]).lookup k2 = if k2 = k then some v else m.lookup k2 := by
  induction m with
  | nil => rw [List.nil_append, lookup_cons_eq]
  | cons e t ih =>
    obtain ⟨a, b⟩ := e
    have hak : a ≠ k := by
      intro hak
      subst hak
      simp at h
    have iht : (t.any fun e => decide (e.1 = k)) = false := by
      simpa [hak] using h
    rw [List.cons_append, lookup_cons_eq, lookup_cons_eq, ih iht]
    by_cases hk2 : k2 = a
    · subst hk2
      rw [if_pos rfl, if_pos rfl, if_neg hak]
    · rw [if_neg hk2, if_neg hk2]

/-- Reading the map after a write: the written key gives the written value,
every other key what it gave before. -/
theorem mapSet_lookup {α : Type} (m : List (GoString × α)) (k : GoString) (v : α)
    (k2 : GoString) :
    (mapSet m k v).lookup k2 = if k2 = k then some v else m.lookup k2 := by
  unfold mapSet
  by_cases hany : m.any (fun e => decide (e.1 = k)) = true
  · rw [if_pos hany]
    by_cases hk2 : k2 = k
    · subst hk2
      rw [if_pos rfl, lookup_map_same m k2 v hany]
    · rw [if_neg hk2, lookup_map_other m k v k2 hk2]
  · rw [if_neg hany]
    exact lookup_append_new m k v k2 (Bool.eq_false_iff.mpr hany)

theorem mapSet_keys {α : Type} (m : List (GoString × α)) (k : GoString) (v : α) :
    (mapSet m k v).map Prod.fst =
      if k ∈ m.map Prod.fst then m.map Prod.fst else m.map Prod.fst ++ [k] := by
  unfold mapSet
  by_cases hany : m.any (fun e => decide (e.1 = k)) = true
  · have hmem : k ∈ m.map Prod.fst := by
      rw [List.any_eq_true] at hany
      obtain ⟨e, he, hek⟩ := hany
      rw [List.mem_map]
      exact ⟨e, he, by simpa using hek⟩
    rw [if_pos hany, if_pos hmem, List.map_map]
    apply List.map_congr_left
    intro e _
    by_cases hek : e.1 = k
    · simp [hek]
    · simp [hek]
  · have hmem : k ∉ m.map Prod.fst := by
      intro hk
      apply hany
      rw [List.mem_map] at hk
      obtain ⟨e, he, hek⟩ := hk
      rw [List.any_eq_true]
      exact ⟨e, he, by simpa using hek⟩
    rw [if_neg hany, if_neg hmem]
    simp

theorem mapSet_value {α : Type} (m : List (GoString × α)) (k : GoString) (v : α)
    (e : GoString × α) (he : e ∈ mapSet m k v) : e = (k, v) ∨ (e ∈ m ∧ e.1 ≠ k) := by
  unfold mapSet at he
  by_cases hany : m.any (fun e => decide (e.1 = k)) = true
  · rw [if_pos hany, List.mem_map] at he
    obtain ⟨e0, he0, h0⟩ := he
    by_cases hk : e0.1 = k
    · rw [if_pos hk] at h0
      exact Or.inl h0.symm
    · rw [if_neg hk] at h0
      subst h0
      exact Or.inr ⟨he0, hk⟩
  · rw [if_neg hany, List.mem_append] at he
    rcases he with he | he
    · right
      refine ⟨he, ?_⟩
      intro hek
      apply hany
      rw [List.any_eq_true]
      exact ⟨e, he, by simpa using hek⟩
    · left
      simpa using he

/-! ## Lemmas on `GetIndexes` -/

theorem lookup_of_mem {α : Type} (m : List (GoString × α))
    (hn : (m.map Prod.fst).Nodup) (e : GoString × α) (he : e ∈ m) :
    m.lookup e.1 = some e.2 := by
  induction m with
  | nil => simp at he
  | cons x t ih =>
    obtain ⟨a, b⟩ := x
    rw [List.map_cons, List.nodup_cons] at hn
    rw [lookup_cons_eq]
    rcases List.mem_cons.mp he with h | h
    · subst h
      rw [if_pos rfl]
    · have hne : e.1 ≠ a := by
        intro h1
        apply hn.1
        rw [← h1]
        exact List.mem_map.mpr ⟨e, h, rfl⟩
      rw [if_neg hne]
      exact ih hn.2 h

theorem mem_keys_of_lookup {α : Type} (m : List (GoString × α)) (k : GoString) (v : α)
    (h : m.lookup k = some v) : (k, v) ∈ m := by
  induction m with
  | nil => simp at h
  | cons x t ih =>
    obtain ⟨a, b⟩ := x
    rw [lookup_cons_eq] at h
    by_cases hk : k = a
    · rw [if_pos hk] at h
      simp only [Option.some.injEq] at h
      subst hk
      subst h
      exact List.mem_cons_self _ _
    · rw [if_neg hk] at h
      exact List.mem_cons_of_mem _ (ih h)

theorem lookup_none_any {α : Type} (m : List (GoString × α)) (k : GoString)
    (h : m.lookup k = none) : m.any (fun e => decide (e.1 = k)) = false := by
  induction m with
  | nil => rfl
  | cons x t ih =>
    obtain ⟨a, b⟩ := x
    rw [lookup_cons_eq] at h
    by_cases hk : k = a
    · rw [if_pos hk] at h
      simp at h
    · rw [if_neg hk] at h
      have hak : ¬ a = k := fun h1 => hk h1.symm
      simp only [List.any_cons, hak, decide_False, Bool.false_or]
      exact ih h

theorem mapSet_keys_nodup {α : Type} (m : List (GoString × α)) (k : GoString) (v : α)
    (hn : (m.map Prod.fst).Nodup) : ((mapSet m k v).map Prod.fst).Nodup := by
  rw [mapSet_keys]
  by_cases hk : k ∈ m.map Prod.fst
  · rw [if_pos hk]
    exact hn
  · rw [if_neg hk]
    rw [List.nodup_append]
    refine ⟨hn, List.nodup_singleton k, ?_⟩
    intro a ha hb
    rw [List.mem_singleton] at hb
    subst hb
    exact hk ha

theorem isPrefixOf_append (l r : GoString) : l.isPrefixOf (l ++ r) = true := by
  induction l with
  | nil => simp [List.isPrefixOf]
  | cons a t ih => simp [List.isPrefixOf, ih]

theorem bytes_IDX : bytes "IDX_" = [73, 68, 88, 95] := by decide

theorem bytes_UQE : bytes "UQE_" = [85, 81, 69, 95] := by decide

theorem bytes_underscore : bytes "_" = [95] := by decide

theorem bytes_cutset : bytes "\" " = [34, 32] := by decide

/-- The naming step on a name that follows the naming convention: for a kind
of four bytes that begins with a byte outside the cutset and a suffix `d` that
does not end with a double quote or a space, the name `kind ++ T ++ "_" ++ d`
is trimmed to itself. -/
theorem GetIndexes.trim_convention (kind tableName d : GoString) (c : Nat) (rest : GoString)
    (hk : kind = c :: rest) (hc : c ≠ 34 ∧ c ≠ 32)
    (hd : d.getLast? ≠ some 34 ∧ d.getLast? ≠ some 32) :
    strings.Trim (GetIndexes.conventionName kind tableName d) (bytes "\" ")
      = GetIndexes.conventionName kind tableName d := by
  apply strings.Trim_eq_self
  · intro x hx
    subst hk
    simp only [GetIndexes.conventionName, List.cons_append, List.head?_cons,
      Option.some.injEq] at hx
    subst hx
    rw [bytes_cutset]
    simp [hc.1, hc.2]
  · intro x hx
    rw [bytes_cutset]
    unfold GetIndexes.conventionName at hx
    rw [List.getLast?_append, bytes_underscore] at hx
    cases hl : d.getLast? with
    | none =>
      rw [hl] at hx
      simp at hx
      subst hx
      decide
    | some y =>
      rw [hl] at hx hd
      simp at hx
      subst hx
      simp only [ne_eq, Option.some.injEq] at hd
      simp [hd.1, hd.2]

theorem GetIndexes.name_of_start (tableName d pre N : GoString)
    (hlen : pre.length = 4)
    (hp : pre = bytes "IDX_" ∨ pre = bytes "UQE_")
    (hN : N = GetIndexes.conventionName pre tableName d)
    (ht : strings.Trim N (bytes "\" ") = N) :
    GetIndexes.name tableName N = some (d, true) := by
  unfold GetIndexes.name
  simp only [ht]
  have hpre : strings.HasPrefix N (pre ++ tableName) = true := by
    subst hN
    unfold strings.HasPrefix GetIndexes.conventionName
    rw [List.append_assoc (pre ++ tableName)]
    exact isPrefixOf_append _ _
  have hor : strings.HasPrefix N (bytes "IDX_" ++ tableName) = true ∨
      strings.HasPrefix N (bytes "UQE_" ++ tableName) = true := by
    rcases hp with h | h
    · exact Or.inl (h ▸ hpre)
    · exact Or.inr (h ▸ hpre)
  rw [if_pos hor]
  have hl : N.length = 5 + tableName.length + d.length := by
    subst hN
    simp only [GetIndexes.conventionName, List.length_append, hlen, bytes_underscore,
      List.length_singleton]
    omega
  rw [if_pos (by omega)]
  have hdrop : N.drop (5 + tableName.length) = d := by
    subst hN
    unfold GetIndexes.conventionName
    apply List.drop_left'
    simp only [List.length_append, hlen, bytes_underscore, List.length_singleton]
    omega
  rw [hdrop]

/-- The naming step on the names of the naming convention: the display name is
the suffix and the index is regular. -/
theorem GetIndexes.name_convention (tableName d : GoString)
    (hd : d.getLast? ≠ some 34 ∧ d.getLast? ≠ some 32) :
    GetIndexes.name tableName (GetIndexes.conventionName (bytes "IDX_") tableName d)
        = some (d, true)
    ∧ GetIndexes.name tableName (GetIndexes.conventionName (bytes "UQE_") tableName d)
        = some (d, true) := by
  constructor
  · exact GetIndexes.name_of_start tableName d _ _ (by decide) (Or.inl rfl) rfl
      (GetIndexes.trim_convention _ tableName d 73 [68, 88, 95] bytes_IDX (by decide) hd)
  · exact GetIndexes.name_of_start tableName d _ _ (by decide) (Or.inr rfl) rfl
      (GetIndexes.trim_convention _ tableName d 85 [81, 69, 95] bytes_UQE (by decide) hd)

/-- The naming step on a name whose trimmed form has neither prefix: the
trimmed name, not regular. -/
theorem GetIndexes.name_other (tableName N : GoString)
    (h1 : strings.HasPrefix (strings.Trim N (bytes "\" ")) (bytes "IDX_" ++ tableName) = false)
    (h2 : strings.HasPrefix (strings.Trim N (bytes "\" ")) (bytes "UQE_" ++ tableName) = false) :
    GetIndexes.name tableName N = some (strings.Trim N (bytes "\" "), false) := by
  unfold GetIndexes.name
  simp only [h1, h2, Bool.false_eq_true, or_self, if_false]

/-- The loop body of `GetIndexes` on a map without an entry under the display
name of the row: a descriptor with the flag, the name and the kind of the row
and its column is added at the end. -/
theorem GetIndexes.step_new (tableName : GoString) (indexes : List (GoString × core.Index))
    (r : GetIndexes.Row) (nm : GoString) (reg : Bool)
    (hn : GetIndexes.name tableName r.indexName = some (nm, reg))
    (hl : indexes.lookup nm = none) :
    GetIndexes.step tableName indexes r = some (indexes ++ [(nm,
      { IsRegular := reg, Name := nm, Kind := GetIndexes.indexType r.uniqueness,
        Cols := [r.colName] })]) := by
  unfold GetIndexes.step
  simp only [hn, hl]
  have hany := lookup_none_any indexes nm hl
  unfold mapSet
  rw [if_neg (by rw [hany]; simp)]
  rfl

/-- The loop body of `GetIndexes`, read through the map: the entry under the
display name of the row gets the column of the row, in a descriptor created
from the row when there was none, and every other entry is unchanged. -/
theorem GetIndexes.step_lookup (tableName : GoString) (m m1 : List (GoString × core.Index))
    (r : GetIndexes.Row) (hs : GetIndexes.step tableName m r = some m1) :
    ∃ nm reg, GetIndexes.name tableName r.indexName = some (nm, reg)
      ∧ (m1.map Prod.fst = if nm ∈ m.map Prod.fst then m.map Prod.fst
          else m.map Prod.fst ++ [nm])
      ∧ ∀ k, m1.lookup k =
          if k = nm then
            some (match m.lookup nm with
              | some index => index.AddColumn r.colName
              | none => { IsRegular := reg, Name := nm,
                          Kind := GetIndexes.indexType r.uniqueness, Cols := [r.colName] })
          else m.lookup k := by
  unfold GetIndexes.step at hs
  cases hn : GetIndexes.name tableName r.indexName with
  | none => simp [hn] at hs
  | some p =>
    obtain ⟨nm, reg⟩ := p
    refine ⟨nm, reg, rfl, ?_⟩
    simp only [hn] at hs
    cases hl : m.lookup nm with
    | none =>
      simp only [hl, Option.some.injEq] at hs
      subst hs
      exact ⟨mapSet_keys _ _ _, fun k => mapSet_lookup _ _ _ k⟩
    | some index =>
      simp only [hl, Option.some.injEq] at hs
      subst hs
      exact ⟨mapSet_keys _ _ _, fun k => mapSet_lookup _ _ _ k⟩

theorem GetIndexes.loop_rows (tableName : GoString) :
    ∀ (scans : List (Except error GetIndexes.Row)) (m m2 : List (GoString × core.Index)),
      GetIndexes.loop tableName scans m = some (.ok m2) →
      ∃ rs : List GetIndexes.Row, scans = rs.map Except.ok
  | [], _, _, _ => ⟨[], rfl⟩
  | .error err :: _, _, _, h => by simp [GetIndexes.loop] at h
  | .ok r :: rest, m, m2, h => by
    simp only [GetIndexes.loop] at h
    cases hs : GetIndexes.step tableName m r with
    | none => simp [hs] at h
    | some m1 =>
      simp only [hs] at h
      obtain ⟨rs, hrs⟩ := GetIndexes.loop_rows tableName rest m1 m2 h
      exact ⟨r :: rs, by rw [hrs]; rfl⟩

/-- The row loop of `GetIndexes` runs to the end when every row is scanned and
no naming step faults. -/
theorem GetIndexes.loop_total (tableName : GoString) :
    ∀ (rs : List GetIndexes.Row) (m : List (GoString × core.Index)),
      (∀ r ∈ rs, GetIndexes.name tableName r.indexName ≠ none) →
      ∃ m2, GetIndexes.loop tableName (rs.map Except.ok) m = some (.ok m2)
  | [], m, _ => ⟨m, rfl⟩
  | r :: rs, m, h => by
    have hr := h r (List.mem_cons_self _ _)
    cases hn : GetIndexes.name tableName r.indexName with
    | none => exact absurd hn hr
    | some p =>
      obtain ⟨nm, reg⟩ := p
      have hstep : ∃ m1, GetIndexes.step tableName m r = some m1 := by
        unfold GetIndexes.step
        simp only [hn]
        cases m.lookup nm with
        | none => exact ⟨_, rfl⟩
        | some index => exact ⟨_, rfl⟩
      obtain ⟨m1, hm1⟩ := hstep
      obtain ⟨m2, hm2⟩ := GetIndexes.loop_total tableName rs m1
        (fun r2 hr2 => h r2 (List.mem_cons_of_mem _ hr2))
      refine ⟨m2, ?_⟩
      simp only [List.map_cons, GetIndexes.loop, hm1]
      exact hm2

/-- The invariant of the row loop of `GetIndexes`: the keys stay distinct, and
the entry under a name `k` is the entry the map had with the columns of the rows
of display name `k` added in row order, or, when the map had none, the
descriptor of those rows. -/
theorem GetIndexes.loop_lookup (tableName : GoString) :
    ∀ (rs : List GetIndexes.Row) (m m2 : List (GoString × core.Index)),
      GetIndexes.loop tableName (rs.map Except.ok) m = some (.ok m2) →
      ((m.map Prod.fst).Nodup → (m2.map Prod.fst).Nodup)
      ∧ ∀ k, m2.lookup k =
        match m.lookup k with
        | some index => some { index with Cols := index.Cols ++
            (GetIndexes.rowsNamed tableName k rs).map (fun r => r.colName) }
        | none => GetIndexes.descriptor tableName k (GetIndexes.rowsNamed tableName k rs)
  | [], m, m2, h => by
    simp only [List.map_nil, GetIndexes.loop, Option.some.injEq, Except.ok.injEq] at h
    subst h
    refine ⟨id, fun k => ?_⟩
    cases m.lookup k with
    | none => rfl
    | some index => simp [GetIndexes.rowsNamed]
  | r :: rs, m, m2, h => by
    simp only [List.map_cons, GetIndexes.loop] at h
    cases hs : GetIndexes.step tableName m r with
    | none => simp [hs] at h
    | some m1 =>
      simp only [hs] at h
      obtain ⟨hnd, hlk⟩ := GetIndexes.loop_lookup tableName rs m1 m2 h
      obtain ⟨nm, reg, hn, hkeys, hl1⟩ := GetIndexes.step_lookup tableName m m1 r hs
      constructor
      · intro hm
        apply hnd
        rw [hkeys]
        by_cases hk : nm ∈ m.map Prod.fst
        · rw [if_pos hk]
          exact hm
        · rw [if_neg hk, List.nodup_append]
          refine ⟨hm, List.nodup_singleton nm, ?_⟩
          intro a ha hb
          rw [List.mem_singleton] at hb
          subst hb
          exact hk ha
      · intro k
        rw [hlk k, hl1 k]
        by_cases hk : k = nm
        · subst hk
          have hrows : GetIndexes.rowsNamed tableName k (r :: rs)
              = r :: GetIndexes.rowsNamed tableName k rs := by
            simp [GetIndexes.rowsNamed, hn]
          rw [if_pos rfl, hrows]
          cases m.lookup k with
          | none =>
            simp [GetIndexes.descriptor, hn]
          | some index =>
            simp [core.Index.AddColumn]
        · have hrows : GetIndexes.rowsNamed tableName k (r :: rs)
              = GetIndexes.rowsNamed tableName k rs := by
            have hne : ¬ nm = k := fun h1 => hk h1.symm
            simp [GetIndexes.rowsNamed, hn, hne]
          rw [if_neg hk, hrows]

/-- A map returned by `GetIndexes` comes from a result set whose rows were all
scanned, and holds, under distinct keys, for each display name the descriptor of
the rows of that display name. -/
theorem GetIndexes_lookup (tableName : GoString) (rows : sql.Rows GetIndexes.Row)
    (ret : GetIndexes.Return) (m : List (GoString × core.Index))
    (h : GetIndexes tableName (.ok rows) = some ret) (hm : ret.indexes = some m) :
    ret.err = none ∧ rows.Err = none ∧ ∃ rs, rows.scans = rs.map Except.ok
      ∧ (m.map Prod.fst).Nodup
      ∧ ∀ k, m.lookup k = GetIndexes.descriptor tableName k (GetIndexes.rowsNamed tableName k rs) := by
  unfold GetIndexes at h
  simp only at h
  cases hl : GetIndexes.loop tableName rows.scans [] with
  | none => simp [hl] at h
  | some res =>
    cases res with
    | error err =>
      simp only [hl, Option.some.injEq] at h
      subst h
      simp at hm
    | ok m2 =>
      simp only [hl] at h
      cases he : rows.Err with
      | some err =>
        simp only [he, Option.some.injEq] at h
        subst h
        simp at hm
      | none =>
        simp only [he, Option.some.injEq] at h
        subst h
        simp only [Option.some.injEq] at hm
        subst hm
        obtain ⟨rs, hrs⟩ := GetIndexes.loop_rows tableName _ _ _ hl
        rw [hrs] at hl
        obtain ⟨hnd, hlk⟩ := GetIndexes.loop_lookup tableName rs [] m2 hl
        exact ⟨rfl, rfl, rs, hrs, hnd List.nodup_nil, fun k => by rw [hlk k]; rfl⟩

/-- The error returns of `GetTables`: the table list is nil exactly when an
error is returned. -/
theorem GetTables_nil_iff (query : Except error (sql.Rows GoString)) :
    (GetTables query).tables = none ↔ (GetTables query).err ≠ none := by
  unfold GetTables
  cases query with
  | error err => simp
  | ok rows =>
    simp only
    cases GetTables.loop rows.scans [] with
    | error err => simp
    | ok tables =>
      cases rows.Err with
      | some err => simp
      | none => simp

/-- The error returns of `GetIndexes`: the map is nil exactly when an error is
returned. -/
theorem GetIndexes_nil_iff (tableName : GoString)
    (query : Except error (sql.Rows GetIndexes.Row)) (ret : GetIndexes.Return)
    (h : GetIndexes tableName query = some ret) :
    ret.indexes = none ↔ ret.err ≠ none := by
  unfold GetIndexes at h
  cases query with
  | error err =>
    simp only [Option.some.injEq] at h
    subst h
    simp
  | ok rows =>
    simp only at h
    cases hl : GetIndexes.loop tableName rows.scans [] with
    | none => simp [hl] at h
    | some res =>
      cases res with
      | error err =>
        simp only [hl, Option.some.injEq] at h
        subst h
        simp
      | ok m2 =>
        simp only [hl] at h
        cases he : rows.Err with
        | some err =>
          simp only [he, Option.some.injEq] at h
          subst h
          simp
        | none =>
          simp only [he, Option.some.injEq] at h
          subst h
          simp

/-- The error returns of `GetColumns`: the name sequence and the map are nil
exactly when an error is returned. -/
theorem GetColumns_nil_iff (h : core.Helpers) (u : Unicode)
    (fold : GoString → GoString → Bool) (db : dameng) (tableName : GoString)
    (pkQuery : Except error (sql.Rows GoString))
    (colQuery : Except error (sql.Rows GetColumns.Row)) (ret : GetColumns.Return)
    (hg : GetColumns h u fold db tableName pkQuery colQuery = some ret) :
    (ret.colSeq = none ↔ ret.err ≠ none) ∧ (ret.cols = none ↔ ret.err ≠ none) := by
  unfold GetColumns at hg
  repeat' split at hg
  all_goals first
    | (simp only [Option.some.injEq] at hg; subst hg; simp)
    | simp at hg

/-! ## Lemmas on the name sequence of `GetColumns` -/

theorem GetColumns.row_skip (h : core.Helpers) (u : Unicode)
    (fold : GoString → GoString → Bool) (db : dameng) (tableName : GoString)
    (pkNames : List GoString) (r : GetColumns.Row)
    (hs : GetColumns.row h u fold db tableName pkNames r = .skip) :
    GetColumns.ignored u r = true := by
  unfold GetColumns.row at hs
  cases hh : GetColumns.rowHead u db tableName pkNames r with
  | error err => simp [hh] at hs
  | ok col =>
    simp only [hh] at hs
    unfold GetColumns.rowTail at hs
    cases hd : GetColumns.decompose r.dataType.String with
    | none => simp [hd] at hs
    | some p =>
      obtain ⟨dt, len1, len2⟩ := p
      simp only [hd] at hs
      cases hm : GetColumns.reverseMap u dt len1 len2 with
      | none => simp [GetColumns.ignored, GetColumns.introspect, hd, hm]
      | some ty =>
        simp only [hm] at hs
        split_ifs at hs

theorem GetColumns.row_store_name (h : core.Helpers) (u : Unicode)
    (fold : GoString → GoString → Bool) (db : dameng) (tableName : GoString)
    (pkNames : List GoString) (r : GetColumns.Row) (c : core.Column)
    (hs : GetColumns.row h u fold db tableName pkNames r = .store c) :
    GetColumns.ignored u r = false
      ∧ c.Name = strings.Trim r.colName.String (bytes "\" ") := by
  obtain ⟨col, hh, ht⟩ := GetColumns.row_store h u fold db tableName pkNames r c hs
  have h1 := GetColumns.rowHead_ok u db tableName pkNames r col hh
  have h2 := GetColumns.rowTail_store h u fold r col c ht
  refine ⟨?_, by rw [h2.1, h1.2.1]⟩
  simp [GetColumns.ignored, h2.2.2.2.2.2.1]

/-- The invariant of the row loop of `GetColumns` on the names: every row was
scanned, the names of the rows that are not ignored are added to the sequence
in row order, the keys of the map are the old keys and those names, and the
keys stay distinct. -/
theorem GetColumns.loop_names (h : core.Helpers) (u : Unicode)
    (fold : GoString → GoString → Bool) (db : dameng) (tableName : GoString)
    (pkNames : List GoString) :
    ∀ (scans : List (Except error GetColumns.Row)) (cols : List (GoString × core.Column))
      (colSeq : List GoString) (cols1 : List (GoString × core.Column))
      (colSeq1 : List GoString),
      GetColumns.loop h u fold db tableName pkNames scans cols colSeq
        = some (.ok (cols1, colSeq1)) →
      ∃ rs : List GetColumns.Row, scans = rs.map Except.ok
        ∧ colSeq1 = colSeq ++ GetColumns.names u rs
        ∧ (∀ k, k ∈ cols1.map Prod.fst ↔ k ∈ cols.map Prod.fst ∨ k ∈ GetColumns.names u rs)
        ∧ ((cols.map Prod.fst).Nodup → (cols1.map Prod.fst).Nodup)
  | [], cols, colSeq, cols1, colSeq1, hl => by
    simp only [GetColumns.loop, Option.some.injEq, Except.ok.injEq, Prod.mk.injEq] at hl
    obtain ⟨h1, h2⟩ := hl
    subst h1
    subst h2
    exact ⟨[], rfl, by simp [GetColumns.names], by simp [GetColumns.names], id⟩
  | .error err :: _, _, _, _, _, hl => by simp [GetColumns.loop] at hl
  | .ok r :: rest, cols, colSeq, cols1, colSeq1, hl => by
    simp only [GetColumns.loop] at hl
    cases hr : GetColumns.row h u fold db tableName pkNames r with
    | panic => simp [hr] at hl
    | fail err => simp [hr] at hl
    | skip =>
      simp only [hr] at hl
      obtain ⟨rs, h1, h2, h3, h4⟩ :=
        GetColumns.loop_names h u fold db tableName pkNames rest _ _ _ _ hl
      have hi := GetColumns.row_skip h u fold db tableName pkNames r hr
      have hn : GetColumns.names u (r :: rs) = GetColumns.names u rs := by
        simp [GetColumns.names, hi]
      refine ⟨r :: rs, by rw [h1]; rfl, by rw [hn]; exact h2, ?_, h4⟩
      intro k
      rw [hn]
      exact h3 k
    | store col =>
      simp only [hr] at hl
      obtain ⟨rs, h1, h2, h3, h4⟩ :=
        GetColumns.loop_names h u fold db tableName pkNames rest _ _ _ _ hl
      obtain ⟨hi, hname⟩ := GetColumns.row_store_name h u fold db tableName pkNames r col hr
      have hn : GetColumns.names u (r :: rs) = col.Name :: GetColumns.names u rs := by
        simp [GetColumns.names, hi, hname]
      refine ⟨r :: rs, by rw [h1]; rfl, ?_, ?_, ?_⟩
      · rw [h2, hn, List.append_assoc]
        rfl
      · intro k
        rw [h3 k, hn, mapSet_keys]
        by_cases hk : col.Name ∈ cols.map Prod.fst
        · rw [if_pos hk, List.mem_cons]
          constructor
          · rintro (h5 | h5)
            · exact Or.inl h5
            · exact Or.inr (Or.inr h5)
          · rintro (h5 | h5 | h5)
            · exact Or.inl h5
            · exact Or.inl (h5 ▸ hk)
            · exact Or.inr h5
        · rw [if_neg hk, List.mem_append, List.mem_singleton, List.mem_cons]
          tauto
      · intro hnd
        exact h4 (mapSet_keys_nodup _ _ _ hnd)

/-- A successful return of `GetColumns`: both queries gave rows, and the name
sequence and the map are those of the row loop. -/
theorem GetColumns_success (h : core.Helpers) (u : Unicode)
    (fold : GoString → GoString → Bool) (db : dameng) (tableName : GoString)
    (pkQuery : Except error (sql.Rows GoString))
    (colQuery : Except error (sql.Rows GetColumns.Row)) (ret : GetColumns.Return)
    (hg : GetColumns h u fold db tableName pkQuery colQuery = some ret)
    (he : ret.err = none) :
    ∃ rows pkNames rows2 cols colSeq, pkQuery = .ok rows
      ∧ GetColumns.pkLoop rows.scans [] = .ok pkNames
      ∧ colQuery = .ok rows2
      ∧ GetColumns.loop h u fold db tableName pkNames rows2.scans [] [] = some (.ok (cols, colSeq))
      ∧ ret = ⟨some colSeq, some cols, none⟩ := by
  unfold GetColumns at hg
  cases pkQuery with
  | error err => simp at hg; subst hg; simp at he
  | ok rows =>
    simp only at hg
    cases hpk : GetColumns.pkLoop rows.scans [] with
    | error err => simp [hpk] at hg; subst hg; simp at he
    | ok pkNames =>
      simp only [hpk] at hg
      cases hre : rows.Err with
      | some err => simp [hre] at hg; subst hg; simp at he
      | none =>
        simp only [hre] at hg
        cases colQuery with
        | error err => simp at hg; subst hg; simp at he
        | ok rows2 =>
          simp only at hg
          cases hl : GetColumns.loop h u fold db tableName pkNames rows2.scans [] [] with
          | none => simp [hl] at hg
          | some res =>
            cases res with
            | error err => simp [hl] at hg; subst hg; simp at he
            | ok p =>
              obtain ⟨cols1, colSeq1⟩ := p
              simp only [hl] at hg
              cases hre2 : rows2.Err with
              | some err => simp [hre2] at hg; subst hg; simp at he
              | none =>
                simp only [hre2, Option.some.injEq] at hg
                exact ⟨rows, pkNames, rows2, cols1, colSeq1, rfl, hpk, rfl, hl, hg.symm⟩

/-! ## Claims on `GetIndexes`, `GetTables` and the returned collections -/

theorem lookup_ne_none_iff {α : Type} (m : List (GoString × α)) (k : GoString) :
    m.lookup k ≠ none ↔ k ∈ m.map Prod.fst := by
  induction m with
  | nil => simp
  | cons x t ih =>
    obtain ⟨a, b⟩ := x
    rw [lookup_cons_eq, List.map_cons, List.mem_cons]
    by_cases hk : k = a
    · rw [if_pos hk]
      simp [hk]
    · rw [if_neg hk, ih]
      simp [hk]

theorem GetIndexes.descriptor_ne_none (tableName k : GoString) (rs : List GetIndexes.Row) :
    GetIndexes.descriptor tableName k (GetIndexes.rowsNamed tableName k rs) ≠ none
      ↔ ∃ r ∈ rs, (GetIndexes.name tableName r.indexName).map Prod.fst = some k := by
  cases hr : GetIndexes.rowsNamed tableName k rs with
  | nil =>
    simp only [GetIndexes.descriptor, ne_eq, not_true_eq_false, false_iff]
    rintro ⟨r, hr1, hr2⟩
    have : r ∈ GetIndexes.rowsNamed tableName k rs := by
      unfold GetIndexes.rowsNamed
      rw [List.mem_filter]
      exact ⟨hr1, by simpa using hr2⟩
    rw [hr] at this
    simp at this
  | cons r rest =>
    simp only [GetIndexes.descriptor, ne_eq, not_false_eq_true, true_iff, reduceCtorEq]
    have : r ∈ GetIndexes.rowsNamed tableName k rs := by
      rw [hr]
      exact List.mem_cons_self _ _
    unfold GetIndexes.rowsNamed at this
    rw [List.mem_filter] at this
    exact ⟨r, this.1, by simpa using this.2⟩

/-- C21 (amended).  For every table name `T` and every suffix `d` that does not
end in a double quote or a space, the loop body of `GetIndexes`, on a map that
holds no entry under `d` yet, stores a catalog index named `"IDX_" + T + "_" + d`
or `"UQE_" + T + "_" + d` as a regular index under the display name `d`; and on a
map that holds no entry under the trimmed name yet it stores every index whose
trimmed name does not start with `"IDX_" + T` or `"UQE_" + T` as a non-regular
index under its trimmed name.  On the table `orders`, `IDX_orders_by_name`
becomes the regular `by_name` and `my_custom_idx` is stored verbatim. -/
theorem GetIndexes_convention_names (tableName d : GoString)
    (hd : d.getLast? ≠ some 34 ∧ d.getLast? ≠ some 32) :
    (∀ (indexes : List (GoString × core.Index)) (r : GetIndexes.Row),
        (r.indexName = GetIndexes.conventionName (bytes "IDX_") tableName d
          ∨ r.indexName = GetIndexes.conventionName (bytes "UQE_") tableName d) →
        indexes.lookup d = none →
        GetIndexes.step tableName indexes r = some (indexes ++ [(d,
          ⟨true, d, GetIndexes.indexType r.uniqueness, [r.colName]⟩)]))
    ∧ (∀ (indexes : List (GoString × core.Index)) (r : GetIndexes.Row),
        strings.HasPrefix (strings.Trim r.indexName (bytes "\" "))
          (bytes "IDX_" ++ tableName) = false →
        strings.HasPrefix (strings.Trim r.indexName (bytes "\" "))
          (bytes "UQE_" ++ tableName) = false →
        indexes.lookup (strings.Trim r.indexName (bytes "\" ")) = none →
        GetIndexes.step tableName indexes r = some (indexes ++
          [(strings.Trim r.indexName (bytes "\" "),
            ⟨false, strings.Trim r.indexName (bytes "\" "), GetIndexes.indexType r.uniqueness, [r.colName]⟩)]))
    ∧ GetIndexes (bytes "orders") (.ok ⟨sampleIndexRows.map Except.ok, none⟩)
        = some ⟨some [(bytes "by_name", ⟨true, bytes "by_name", core.IndexType, [bytes "NAME", bytes "CITY"]⟩),
                      (bytes "my_custom_idx", ⟨false, bytes "my_custom_idx", core.UniqueType,
                        [bytes "CODE"]⟩)], none⟩ := by
  refine ⟨?_, ?_, by decide⟩
  · intro indexes r hr hl
    apply GetIndexes.step_new tableName indexes r d true _ hl
    rcases hr with hr | hr
    · rw [hr]
      exact (GetIndexes.name_convention tableName d hd).1
    · rw [hr]
      exact (GetIndexes.name_convention tableName d hd).2
  · intro indexes r h1 h2 hl
    exact GetIndexes.step_new tableName indexes r _ false
      (GetIndexes.name_other tableName r.indexName h1 h2) hl

/-- C21, witness.  On the table `orders` with the suffix `by_name`, a row of the
index `IDX_orders_by_name` on the empty map stores the regular index `by_name`,
and a row of `my_custom_idx` stores that name, not regular. -/
theorem GetIndexes_convention_names_witness :
    GetIndexes.step (bytes "orders") []
        ⟨bytes "NAME", bytes "NONUNIQUE", bytes "IDX_orders_by_name"⟩
      = some [(bytes "by_name", ⟨true, bytes "by_name", core.IndexType, [bytes "NAME"]⟩)]
    ∧ GetIndexes.step (bytes "orders") []
        ⟨bytes "CODE", bytes "UNIQUE", bytes "my_custom_idx"⟩
      = some [(bytes "my_custom_idx", ⟨false, bytes "my_custom_idx", core.UniqueType, [bytes "CODE"]⟩)] :=
  ⟨(GetIndexes_convention_names (bytes "orders") (bytes "by_name") (by decide)).1 []
      ⟨bytes "NAME", bytes "NONUNIQUE", bytes "IDX_orders_by_name"⟩ (Or.inl (by decide)) rfl,
   (GetIndexes_convention_names (bytes "orders") (bytes "by_name") (by decide)).2.1 []
      ⟨bytes "CODE", bytes "UNIQUE", bytes "my_custom_idx"⟩ (by decide) (by decide) rfl⟩

/-- C21, counterexample.  On the table `orders`: the catalog index named
`"IDX_" + "orders" + "_" + d` for the suffix `d = "by_name "`, which ends in a
space, is stored under `by_name`, not under `d`; and the catalog index
`IDX_orders_by_name`, read after a row of the index `by_name`, is stored in the
descriptor of that row, which is not regular. -/
theorem GetIndexes_convention_names_counterexample :
    GetIndexes (bytes "orders") (.ok ⟨[.ok ⟨bytes "NAME", bytes "NONUNIQUE",
        GetIndexes.conventionName (bytes "IDX_") (bytes "orders") (bytes "by_name ")⟩], none⟩)
      = some ⟨some [(bytes "by_name", ⟨true, bytes "by_name", core.IndexType, [bytes "NAME"]⟩)], none⟩
    ∧ bytes "by_name" ≠ bytes "by_name "
    ∧ GetIndexes (bytes "orders") (.ok ⟨[.ok ⟨bytes "CODE", bytes "NONUNIQUE", bytes "by_name"⟩,
        .ok ⟨bytes "NAME", bytes "NONUNIQUE",
          GetIndexes.conventionName (bytes "IDX_") (bytes "orders") (bytes "by_name")⟩], none⟩)
      = some ⟨some [(bytes "by_name", ⟨false, bytes "by_name", core.IndexType, [bytes "CODE", bytes "NAME"]⟩)], none⟩ := by
  decide

/-- C22, failing input.  On the table `orders` the catalog index
`IDX_ordersXby` passes the test on the start `IDX_orders` and loses its first
eleven bytes: it is stored as the regular index `by`, and the naming convention
applied to `by` gives `IDX_orders_by` or `UQE_orders_by`, not the catalog
name. -/
theorem GetIndexes_regular_mismatch :
    GetIndexes.name (bytes "orders") (bytes "IDX_ordersXby") = some (bytes "by", true)
    ∧ GetIndexes.conventionName (bytes "IDX_") (bytes "orders") (bytes "by")
        ≠ bytes "IDX_ordersXby"
    ∧ GetIndexes.conventionName (bytes "UQE_") (bytes "orders") (bytes "by")
        ≠ bytes "IDX_ordersXby"
    ∧ GetIndexes (bytes "orders") (.ok ⟨[.ok ⟨bytes "NAME", bytes "NONUNIQUE",
          bytes "IDX_ordersXby"⟩], none⟩)
      = some ⟨some [(bytes "by", ⟨true, bytes "by", core.IndexType, [bytes "NAME"]⟩)], none⟩ := by
  decide

/-- C23.  `GetTables`, `GetColumns` and `GetIndexes` have no partial success:
for all query and scan outcomes, when the operation returns an error every
collection returned with it is nil, and when it returns no error every
collection is non-nil; and on empty result sets each returns an empty, non-nil
collection and no error. -/
theorem no_partial_success (h : core.Helpers) (u : Unicode)
    (fold : GoString → GoString → Bool) (db : dameng) (tableName : GoString)
    (tableQuery pkQuery : Except error (sql.Rows GoString))
    (colQuery : Except error (sql.Rows GetColumns.Row))
    (indexQuery : Except error (sql.Rows GetIndexes.Row)) :
    ((GetTables tableQuery).tables = none ↔ (GetTables tableQuery).err ≠ none)
    ∧ (∀ ret, GetColumns h u fold db tableName pkQuery colQuery = some ret →
        (ret.colSeq = none ↔ ret.err ≠ none) ∧ (ret.cols = none ↔ ret.err ≠ none))
    ∧ (∀ ret, GetIndexes tableName indexQuery = some ret →
        (ret.indexes = none ↔ ret.err ≠ none))
    ∧ GetTables (.ok ⟨[], none⟩) = ⟨some [], none⟩
    ∧ GetColumns h u fold db tableName (.ok ⟨[], none⟩) (.ok ⟨[], none⟩)
        = some ⟨some [], some [], none⟩
    ∧ GetIndexes tableName (.ok ⟨[], none⟩) = some ⟨some [], none⟩ :=
  ⟨GetTables_nil_iff tableQuery,
   fun ret hg => GetColumns_nil_iff h u fold db tableName pkQuery colQuery ret hg,
   fun ret hg => GetIndexes_nil_iff tableName indexQuery ret hg,
   rfl, rfl, rfl⟩

/-- C23, witness.  Each operation meets a failure after rows that were scanned:
`GetTables` a scan failure after two rows, `GetColumns` the iteration error
after the row `ID`, `GetIndexes` a scan failure after a row of `my_custom_idx`.
Each returns the error and nil collections. -/
theorem no_partial_success_witness :
    GetTables (.ok ⟨[.ok (bytes "A"), .ok (bytes "B"), .error (bytes "bad row")], none⟩)
      = ⟨none, some (bytes "bad row")⟩
    ∧ GetColumns sampleHelpers ⟨id, id⟩ (fun _ _ => false) (sampleDb false none) (bytes "users")
        (.ok ⟨[], none⟩) (.ok ⟨[.ok sampleIdRow], some (bytes "bad conn")⟩)
      = some ⟨none, none, some (bytes "bad conn")⟩
    ∧ GetIndexes (bytes "users")
        (.ok ⟨[.ok ⟨bytes "CODE", bytes "UNIQUE", bytes "my_custom_idx"⟩,
          .error (bytes "bad row")], none⟩)
      = some ⟨none, some (bytes "bad row")⟩
    ∧ (none : Option (List core.Table)) = none
    ∧ (none : Option (List GoString)) = none
    ∧ (none : Option (List (GoString × core.Column))) = none
    ∧ (none : Option (List (GoString × core.Index))) = none :=
  have H := no_partial_success sampleHelpers ⟨id, id⟩ (fun _ _ => false) (sampleDb false none)
    (bytes "users")
    (.ok ⟨[.ok (bytes "A"), .ok (bytes "B"), .error (bytes "bad row")], none⟩)
    (.ok ⟨[], none⟩) (.ok ⟨[.ok sampleIdRow], some (bytes "bad conn")⟩)
    (.ok ⟨[.ok ⟨bytes "CODE", bytes "UNIQUE", bytes "my_custom_idx"⟩,
          .error (bytes "bad row")], none⟩)
  ⟨by decide, by decide, by decide,
   H.1.mpr (by decide),
   ((H.2.1 ⟨none, none, some (bytes "bad conn")⟩ (by decide)).1).mpr (by decide),
   ((H.2.1 ⟨none, none, some (bytes "bad conn")⟩ (by decide)).2).mpr (by decide),
   (H.2.2.1 ⟨none, some (bytes "bad row")⟩ (by decide)).mpr (by decide)⟩

/-- C24.  On success `GetColumns` returns a name sequence and a map that agree:
the sequence is the list of the names of the rows that are not ignored, in row
order, each trimmed of surrounding double quotes and spaces, so that no name
begins or ends with a double quote or a space; the names of the sequence are
exactly the keys of the map; the keys are distinct; and each key maps to a
column whose `Name` is the key. -/
theorem GetColumns_names_agree (h : core.Helpers) (u : Unicode)
    (fold : GoString → GoString → Bool) (db : dameng) (tableName : GoString)
    (pkQuery : Except error (sql.Rows GoString))
    (colQuery : Except error (sql.Rows GetColumns.Row)) (ret : GetColumns.Return)
    (hg : GetColumns h u fold db tableName pkQuery colQuery = some ret)
    (he : ret.err = none) :
    ∃ (rows2 : sql.Rows GetColumns.Row) (rs : List GetColumns.Row) (colSeq : List GoString)
        (cols : List (GoString × core.Column)),
      colQuery = .ok rows2 ∧ rows2.scans = rs.map Except.ok
      ∧ ret.colSeq = some colSeq ∧ ret.cols = some cols
      ∧ colSeq = GetColumns.names u rs
      ∧ (∀ k ∈ colSeq, k.head? ≠ some 34 ∧ k.head? ≠ some 32
          ∧ k.getLast? ≠ some 34 ∧ k.getLast? ≠ some 32)
      ∧ (∀ k, k ∈ colSeq ↔ k ∈ cols.map Prod.fst)
      ∧ (cols.map Prod.fst).Nodup
      ∧ (∀ e ∈ cols, e.2.Name = e.1)
      ∧ (∀ k c, cols.lookup k = some c → c.Name = k) := by
  obtain ⟨rows, pkNames, rows2, cols, colSeq, h1, _, h3, h4, h5⟩ :=
    GetColumns_success h u fold db tableName pkQuery colQuery ret hg he
  obtain ⟨rs, hrs, hseq, hkeys, hnd⟩ :=
    GetColumns.loop_names h u fold db tableName pkNames _ _ _ _ _ h4
  have hval : ∀ e ∈ cols, e.2.Name = e.1 := by
    intro e hmem
    rcases GetColumns.loop_mem h u fold db tableName pkNames _ _ _ _ _ h4 e hmem with h6 | h6
    · simp at h6
    · obtain ⟨_, _, _, h7⟩ := h6
      exact h7.symm
  rw [List.nil_append] at hseq
  subst h5
  refine ⟨rows2, rs, colSeq, cols, h3, hrs, rfl, rfl, hseq, ?_, ?_, hnd List.nodup_nil, hval, ?_⟩
  · intro k hk
    rw [hseq] at hk
    unfold GetColumns.names at hk
    rw [List.mem_map] at hk
    obtain ⟨r, _, hr⟩ := hk
    subst hr
    have hcut : ∀ x, x ∉ bytes "\" " → x ≠ 34 ∧ x ≠ 32 := by
      intro x hx
      rw [bytes_cutset] at hx
      simp only [List.mem_cons, List.mem_singleton, not_or, List.not_mem_nil, or_false] at hx
      exact hx
    refine ⟨?_, ?_, ?_, ?_⟩
    · intro hx
      exact (hcut 34 (strings.Trim_head _ _ 34 hx)).1 rfl
    · intro hx
      exact (hcut 32 (strings.Trim_head _ _ 32 hx)).2 rfl
    · intro hx
      exact (hcut 34 (strings.Trim_getLast _ _ 34 hx)).1 rfl
    · intro hx
      exact (hcut 32 (strings.Trim_getLast _ _ 32 hx)).2 rfl
  · intro k
    rw [hkeys k, hseq]
    simp
  · intro k c hk
    exact hval (k, c) (mem_keys_of_lookup cols k c hk)

/-- C24, witness.  The result set holds a row of the ignored type, the row `ID`
and a row whose name arrives as `"NAME"` in double quotes; `GetColumns`
succeeds with the sequence `ID`, `NAME`, which is the list of the keys of the
map. -/
theorem GetColumns_names_agree_witness :
    ∃ (rows2 : sql.Rows GetColumns.Row) (rs : List GetColumns.Row) (colSeq : List GoString)
        (cols : List (GoString × core.Column)),
      (Except.ok ⟨[.ok { sampleIdRow with dataType := ⟨bytes "AQ$_SUBSCRIBERS", true⟩ },
          .ok sampleIdRow, .ok { sampleIdRow with colName := ⟨bytes "\"NAME\" ", true⟩ }], none⟩
        : Except error (sql.Rows GetColumns.Row)) = .ok rows2
      ∧ rows2.scans = rs.map Except.ok
      ∧ some [bytes "ID", bytes "NAME"] = some colSeq
      ∧ some [(bytes "ID", { columnOf core.Integer 4 0 with
                  Name := bytes "ID", DefaultIsEmpty := true }),
              (bytes "NAME", { columnOf core.Integer 4 0 with
                  Name := bytes "NAME", DefaultIsEmpty := true })] = some cols
      ∧ colSeq = GetColumns.names ⟨id, id⟩ rs
      ∧ (∀ k ∈ colSeq, k.head? ≠ some 34 ∧ k.head? ≠ some 32
          ∧ k.getLast? ≠ some 34 ∧ k.getLast? ≠ some 32)
      ∧ (∀ k, k ∈ colSeq ↔ k ∈ cols.map Prod.fst)
      ∧ (cols.map Prod.fst).Nodup
      ∧ (∀ e ∈ cols, e.2.Name = e.1)
      ∧ (∀ k c, cols.lookup k = some c → c.Name = k) :=
  GetColumns_names_agree sampleHelpers ⟨id, id⟩ (fun _ _ => false) (sampleDb false none)
    (bytes "users") (.ok ⟨[], none⟩)
    (.ok ⟨[.ok { sampleIdRow with dataType := ⟨bytes "AQ$_SUBSCRIBERS", true⟩ },
          .ok sampleIdRow, .ok { sampleIdRow with colName := ⟨bytes "\"NAME\" ", true⟩ }], none⟩)
    ⟨some [bytes "ID", bytes "NAME"],
     some [(bytes "ID", { columnOf core.Integer 4 0 with
              Name := bytes "ID", DefaultIsEmpty := true }),
           (bytes "NAME", { columnOf core.Integer 4 0 with
              Name := bytes "NAME", DefaultIsEmpty := true })], none⟩
    (by decide) rfl

/-- C25, failing input.  On the table `orders` the catalog index `IDX_orders`
passes the test on the start `"IDX_" + "orders"`, and the slice from byte 11 of
its ten bytes is out of range: the naming step faults and `GetIndexes` does not
return.  The same holds for `UQE_orders`. -/
theorem GetIndexes_slice_out_of_range :
    strings.HasPrefix (bytes "IDX_orders") (bytes "IDX_" ++ bytes "orders") = true
    ∧ (bytes "IDX_orders").length < 5 + (bytes "orders").length
    ∧ GetIndexes.name (bytes "orders") (bytes "IDX_orders") = none
    ∧ GetIndexes.name (bytes "orders") (bytes "UQE_orders") = none
    ∧ GetIndexes (bytes "orders")
        (.ok ⟨[.ok ⟨bytes "NAME", bytes "NONUNIQUE", bytes "IDX_orders"⟩], none⟩) = none := by
  decide

/-- C26, failing input.  For the native type `VARCHAR2(`, an opening
parenthesis with nothing after it, the text after the parenthesis is empty and
the slice that strips its last byte is out of range: the decomposition faults
and `GetColumns` does not return. -/
theorem GetColumns_decompose_faults :
    GetColumns.decompose (bytes "VARCHAR2(") = none
    ∧ GetColumns sampleHelpers ⟨id, id⟩ (fun _ _ => false) (sampleDb false none) (bytes "users")
        (.ok ⟨[], none⟩)
        (.ok ⟨[.ok { sampleIdRow with dataType := ⟨bytes "VARCHAR2(", true⟩ }], none⟩) = none := by
  decide

/-- C27 (amended).  `GetIndexes` groups the rows by display name, the first
result of the naming step.  For every table name and every result set whose
rows are all scanned, whose iteration ends without error and on which the naming
step does not fault, it returns a map with distinct keys, one for each display
name that occurs, and under a display name the descriptor that lists the column
names of all rows of that display name in row order, with the regular flag of
the first such row and the kind of the first such row, which is unique iff the
uniqueness of that row is `"UNIQUE"`. -/
theorem GetIndexes_groups_by_display_name (tableName : GoString)
    (rows : sql.Rows GetIndexes.Row) (rs : List GetIndexes.Row)
    (hs : rows.scans = rs.map Except.ok) (he : rows.Err = none)
    (hn : ∀ r ∈ rs, GetIndexes.name tableName r.indexName ≠ none) :
    ∃ m, GetIndexes tableName (.ok rows) = some ⟨some m, none⟩
      ∧ (m.map Prod.fst).Nodup
      ∧ (∀ k, k ∈ m.map Prod.fst
          ↔ ∃ r ∈ rs, (GetIndexes.name tableName r.indexName).map Prod.fst = some k)
      ∧ (∀ k, m.lookup k
          = GetIndexes.descriptor tableName k (GetIndexes.rowsNamed tableName k rs))
      ∧ (∀ uniqueness, GetIndexes.indexType uniqueness = core.UniqueType
          ↔ uniqueness = bytes "UNIQUE") := by
  obtain ⟨m, hm⟩ := GetIndexes.loop_total tableName rs [] hn
  obtain ⟨hnd, hlk⟩ := GetIndexes.loop_lookup tableName rs [] m hm
  have hlk2 : ∀ k, m.lookup k
      = GetIndexes.descriptor tableName k (GetIndexes.rowsNamed tableName k rs) := by
    intro k
    rw [hlk k]
    rfl
  refine ⟨m, ?_, hnd List.nodup_nil, ?_, hlk2, ?_⟩
  · simp only [GetIndexes, hs, hm, he]
  · intro k
    rw [← lookup_ne_none_iff, hlk2 k]
    exact GetIndexes.descriptor_ne_none tableName k rs
  · intro uniqueness
    unfold GetIndexes.indexType
    by_cases hu : uniqueness = bytes "UNIQUE"
    · simp [hu]
    · simp [hu, core.IndexType, core.UniqueType]

/-- C27, witness.  On the table `orders`, the rows of `IDX_orders_by_name` on
`NAME` and `CITY` and of the unique `my_custom_idx` on `CODE` give two entries:
`by_name`, regular and not unique, on `NAME` and `CITY`, and `my_custom_idx`,
not regular and unique, on `CODE`. -/
theorem GetIndexes_groups_by_display_name_witness :
    ∃ m, GetIndexes (bytes "orders") (.ok ⟨sampleIndexRows.map Except.ok, none⟩)
        = some ⟨some m, none⟩
      ∧ (m.map Prod.fst).Nodup
      ∧ (∀ k, k ∈ m.map Prod.fst ↔ ∃ r ∈ sampleIndexRows,
          (GetIndexes.name (bytes "orders") r.indexName).map Prod.fst = some k)
      ∧ (∀ k, m.lookup k = GetIndexes.descriptor (bytes "orders") k
          (GetIndexes.rowsNamed (bytes "orders") k sampleIndexRows))
      ∧ (∀ uniqueness, GetIndexes.indexType uniqueness = core.UniqueType
          ↔ uniqueness = bytes "UNIQUE") :=
  GetIndexes_groups_by_display_name (bytes "orders") ⟨sampleIndexRows.map Except.ok, none⟩
    sampleIndexRows rfl rfl (by decide)

/-- C27, counterexample.  On the table `orders`, the catalog indexes
`IDX_orders_x` on `A`, not unique, and `UQE_orders_x` on `B`, unique, have
different trimmed names and the same display name `x`: the map returned has the
single entry `x`, not unique, on the columns `A` and `B`. -/
theorem GetIndexes_groups_by_display_name_counterexample :
    strings.Trim (bytes "IDX_orders_x") (bytes "\" ")
      ≠ strings.Trim (bytes "UQE_orders_x") (bytes "\" ")
    ∧ GetIndexes (bytes "orders") (.ok ⟨sampleClashRows.map Except.ok, none⟩)
      = some ⟨some [(bytes "x", ⟨true, bytes "x", core.IndexType, [bytes "A", bytes "B"]⟩)],
          none⟩ := by
  decide

end Dameng
